import Mathlib

/-!
# Camp Assignment Engine

A shallow embedding of the refugee-management backend
(`backend/utils/distance.js`, `backend/models/*.js`,
`backend/controllers/assignmentController.js`,
`backend/controllers/refugeeController.js`,
`backend/controllers/campController.js`) and the properties proved about it.

Modelling conventions
* A MongoDB collection is a list of documents in natural (insertion) order;
  `_id` values are natural numbers.  A generated `_id` comes from a counter
  that stays above every `_id` stored so far; the payload of `createCamp` may
  carry an `_id` of its own, which is kept unless a stored camp has it.
* `capacity`, `currentOccupancy` and `familyMembers` are schema `Number`s; they
  are integers here.  Coordinates are rationals (every JSON number literal is
  one).
* The double-precision numeric layer is abstracted: a JavaScript number is a
  value of a linear order `D` or NaN (`none`), and an `Env` supplies
  `calculateDistance`, the two-decimal rounding `toFixed2` and the external
  geocoder.  A comparison with NaN is false.  `realEnv` instantiates the layer
  with the haversine formula over the reals, where no distance is NaN; in
  double arithmetic the haversine term of antipodal points can round above 1,
  and the distance is then NaN.
* `Array.prototype.sort` is a stable sort: an element moves in front of an
  earlier one only if the comparator puts it strictly before.  A comparator
  result NaN counts as 0.  The sort is modelled by the stable insertion sort
  of the library over the relation "the comparator is not positive".
* A controller gives up control only at its `await`s; concurrent calls are
  interleavings of the stretches between them (`stepAssignTask`).
* `doc.save()` validates the document in memory against the schema
  (`capacity` has `min: 1`, `currentOccupancy` has `min: 0`) and throws if it
  fails; otherwise it runs the `pre('save')` hook and writes the modified
  paths of the document read earlier; an array `push` is written as a push
  onto the stored array.
-/

namespace RefugeeCamp

/-! ## Data model (`models/Camp.js`, `models/Refugee.js`) -/

/-- Values of `campSchema.status` (`enum: ['Active', 'Full', 'Inactive', 'Emergency']`). -/
inductive CampStatus where
  | Active
  | Full
  | Inactive
  | Emergency
deriving DecidableEq, Repr

/-- Values of `refugeeSchema.status` (`enum: ['Pending', 'Assigned', 'Relocated']`). -/
inductive RefugeeStatus where
  | Pending
  | Assigned
  | Relocated
deriving DecidableEq, Repr

/-- A stored camp document: the fields of `campSchema` that the assignment
engine, the occupancy rule and the camp graph read or write. -/
structure Camp where
  _id : Nat
  latitude : ℚ
  longitude : ℚ
  capacity : Int
  currentOccupancy : Int
  connectedCamps : List Nat
  status : CampStatus
deriving DecidableEq, Repr

/-- A stored refugee document: the fields of `refugeeSchema` that the
assignment engine reads or writes. -/
structure Refugee where
  _id : Nat
  latitude : ℚ
  longitude : ℚ
  assignedCamp : Option Nat
  familyMembers : Int
  status : RefugeeStatus
deriving DecidableEq, Repr

/-- The object returned by `geocodeAddress`. -/
structure Location where
  latitude : ℚ
  longitude : ℚ
deriving DecidableEq, Repr

/-- The numeric and external collaborators of the engine: the distance
function of `utils/distance.js`, whose result is a number of `D` or NaN
(`none`); the rounding `parseFloat(d.toFixed(2))` of a number, which is
monotone; and `geocodeAddress` of `utils/geocoder.js` (which either returns a
location or throws an error message). -/
structure Env (D : Type) [LinearOrder D] where
  calculateDistance : ℚ → ℚ → ℚ → ℚ → Option D
  toFixed2 : D → D
  toFixed2_monotone : Monotone toFixed2
  geocodeAddress : String → Except String Location

/-- A camp object spread together with its `distance` field, as built by
`findNearestCamp` and `findNearestCamps`; the field is NaN (`none`) when the
computed distance is. -/
structure CampWithDistance (D : Type) where
  camp : Camp
  distance : Option D

/-! ## Nearest-site search (`utils/distance.js`) -/

/-- The body of the `forEach` callback of `findNearestCamp`.  The loop state
`(minDistance, nearestCamp)` starts as `(Infinity, null)`, modelled by `none`.
The test `distance < minDistance` is false when the distance is NaN, true for
every number while `minDistance` is `Infinity`, and the comparison of `D`
otherwise. -/
def findNearestCampStep {D : Type} [LinearOrder D] (E : Env D) (latitude longitude : ℚ)
    (acc : Option (D × CampWithDistance D)) (camp : Camp) : Option (D × CampWithDistance D) :=
  match E.calculateDistance latitude longitude camp.latitude camp.longitude, acc with
  | none, _ => acc
  | some distance, none =>
    some (distance, { camp := camp, distance := some (E.toFixed2 distance) })
  | some distance, some (minDistance, nearestCamp) =>
    if distance < minDistance then
      some (distance, { camp := camp, distance := some (E.toFixed2 distance) })
    else
      some (minDistance, nearestCamp)

/-- The function `findNearestCamp`: `null` on an empty list, otherwise the
result of the `forEach` loop, which is still `null` when no distance passed
the test. -/
def findNearestCamp {D : Type} [LinearOrder D] (E : Env D) (latitude longitude : ℚ)
    (camps : List Camp) : Option (CampWithDistance D) :=
  if camps.length = 0 then none
  else (camps.foldl (findNearestCampStep E latitude longitude) none).map Prod.snd

/-! ## Occupancy rule (`models/Camp.js`) -/

/-- The hook `campSchema.pre('save')`: the status is recomputed from the
occupancy whenever a camp document is saved. -/
def preSave (camp : Camp) : Camp :=
  if camp.currentOccupancy ≥ camp.capacity then
    { camp with status := CampStatus.Full }
  else if camp.status = CampStatus.Full ∧ camp.currentOccupancy < camp.capacity then
    { camp with status := CampStatus.Active }
  else
    camp

/-! ## The store and its queries -/

/-- The two collections, each in natural order, and the next fresh `_id`. -/
structure State where
  camps : List Camp
  refugees : List Refugee
  nextId : Nat
deriving DecidableEq, Repr

/-- The empty store. -/
def State.empty : State := { camps := [], refugees := [], nextId := 0 }

/-- The query used by every assignment path:
`Camp.find({ $expr: { $lt: ['$currentOccupancy', '$capacity'] }, status: { $in: ['Active', 'Emergency'] } })`. -/
def findAvailableCamps (camps : List Camp) : List Camp :=
  camps.filter (fun camp =>
    decide (camp.currentOccupancy < camp.capacity) &&
    (decide (camp.status = CampStatus.Active) || decide (camp.status = CampStatus.Emergency)))

/-- The filter `camps.filter(camp => (camp.capacity - camp.currentOccupancy) >= refugee.familyMembers)`. -/
def filterByCapacity (camps : List Camp) (familyMembers : Int) : List Camp :=
  camps.filter (fun camp => decide (camp.capacity - camp.currentOccupancy ≥ familyMembers))

/-- The lookup `Refugee.findById(id)`. -/
def findRefugeeById (refugees : List Refugee) (id : Nat) : Option Refugee :=
  refugees.find? (fun r => r._id == id)

/-- The lookup `Camp.findById(id)`. -/
def findCampById (camps : List Camp) (id : Nat) : Option Camp :=
  camps.find? (fun c => c._id == id)

/-- The write `refugee.save()`: the stored document with the same `_id` is replaced. -/
def saveRefugee (refugees : List Refugee) (refugee : Refugee) : List Refugee :=
  refugees.map (fun r => if r._id = refugee._id then refugee else r)

/-- The write `Camp.findByIdAndUpdate(id, { $inc: { currentOccupancy: delta } })`:
an in-place increment of the document with that `_id`; it runs neither the
schema validators nor the `pre('save')` hook. -/
def incOccupancy (camps : List Camp) (id : Nat) (delta : Int) : List Camp :=
  camps.map (fun c =>
    if c._id = id then { c with currentOccupancy := c.currentOccupancy + delta } else c)

/-- The write `refugee.deleteOne()`. -/
def deleteRefugeeDoc (refugees : List Refugee) (id : Nat) : List Refugee :=
  refugees.filter (fun r => r._id != id)

/-! ## Requests and responses -/

/-- The JSON answer of a controller: either `success: false` with an HTTP
status and an error text, or one of the success payloads. -/
inductive Response (D : Type) where
  | failure (status : Nat) (error : String)
  | assigned (status : Nat) (message : String) (refugee : Refugee)
      (camp : Option (CampWithDistance D))
  | campCreated (status : Nat) (camp : Camp)
  | deleted (status : Nat)

/-- Whether the answer carries `success: true`. -/
def Response.success {D : Type} : Response D → Bool
  | Response.failure _ _ => false
  | _ => true

/-- The part of `req.body` of `POST /api/assignment/register-and-assign` that
the engine depends on.  Every field other than `address` is spread into the
payload of `Refugee.create`; an omitted field takes its schema default.  The
descriptive fields (`name`, `age`, `gender`, ...) are taken to be present and
valid, and the payload is taken to carry no `_id` of its own. -/
structure RefugeeBody where
  address : Option String
  familyMembers : Option Int
  assignedCamp : Option Nat
  status : Option RefugeeStatus
deriving DecidableEq, Repr

/-- The part of `req.body` of `POST /api/camps` that the engine depends on;
the whole body is spread into the payload of `Camp.create`, so it may carry
an `_id`.  The descriptive fields (`name`, `address`, ...) are taken to be
present and valid. -/
structure CampBody where
  _id : Option Nat
  latitude : ℚ
  longitude : ℚ
  capacity : Int
  currentOccupancy : Option Int
  connectedCamps : List Nat
  status : Option CampStatus
deriving DecidableEq, Repr

/-! ## Controllers -/

/-- The controller `createCamp`: `Camp.create` fills the defaults (a generated
`_id` when the payload carries none), runs the validators (`capacity` has
`min: 1`, `currentOccupancy` has `min: 0`), then the `pre('save')` hook, and
inserts the document, which the unique index on `_id` refuses when a stored
camp has the same `_id`.  The text of an error is abbreviated. -/
def createCamp {D : Type} (s : State) (body : CampBody) : State × Response D :=
  let camp : Camp :=
    { _id := body._id.getD s.nextId
      latitude := body.latitude
      longitude := body.longitude
      capacity := body.capacity
      currentOccupancy := body.currentOccupancy.getD 0
      connectedCamps := body.connectedCamps
      status := body.status.getD CampStatus.Active }
  if camp.capacity < 1 then
    (s, Response.failure 400 "Camp validation failed: capacity")
  else if camp.currentOccupancy < 0 then
    (s, Response.failure 400 "Camp validation failed: currentOccupancy")
  else if (findCampById s.camps camp._id).isSome then
    (s, Response.failure 400 "E11000 duplicate key error")
  else
    let saved := preSave camp
    ({ s with camps := s.camps ++ [saved], nextId := max s.nextId camp._id + 1 },
      Response.campCreated 201 saved)

/-- The steps shared by `assignRefugeeToNearestCamp` and
`registerAndAssignRefugee` once a nearest camp is chosen: set
`refugee.assignedCamp` and `refugee.status`, `refugee.save()`, then
`Camp.findByIdAndUpdate(nearestCamp._id, { $inc: { currentOccupancy: refugee.familyMembers } })`. -/
def commitAssignment {D : Type} (s : State) (refugee : Refugee)
    (nearestCamp : CampWithDistance D) : State × Refugee :=
  let refugee1 : Refugee :=
    { refugee with assignedCamp := some nearestCamp.camp._id, status := RefugeeStatus.Assigned }
  let s1 : State := { s with refugees := saveRefugee s.refugees refugee1 }
  let s2 : State :=
    { s1 with camps := incOccupancy s1.camps nearestCamp.camp._id refugee1.familyMembers }
  (s2, refugee1)

/-- The controller `assignRefugeeToNearestCamp`; `refugeeId` is `none` when the
body carries no (truthy) `refugeeId`.  When `findNearestCamp` returns `null`
on a non-empty list (every distance is NaN), reading `nearestCamp._id` throws
a `TypeError`, which the handler answers with status 500 before any write. -/
def assignRefugeeToNearestCamp {D : Type} [LinearOrder D] (E : Env D) (s : State)
    (refugeeId : Option Nat) : State × Response D :=
  match refugeeId with
  | none => (s, Response.failure 400 "Please provide refugee ID")
  | some id =>
    match findRefugeeById s.refugees id with
    | none => (s, Response.failure 404 "Refugee not found")
    | some refugee =>
      if refugee.assignedCamp.isSome then
        (s, Response.failure 400 "Refugee already assigned to a camp")
      else
        let camps := findAvailableCamps s.camps
        if camps.length = 0 then
          (s, Response.failure 404 "No available camps found")
        else
          let availableCamps := filterByCapacity camps refugee.familyMembers
          if availableCamps.length = 0 then
            (s, Response.failure 404 "No camps with sufficient capacity found")
          else
            match findNearestCamp E refugee.latitude refugee.longitude availableCamps with
            | none => (s, Response.failure 500 "Cannot read properties of null")
            | some nearestCamp =>
              let r := commitAssignment s refugee nearestCamp
              (r.1, Response.assigned 200 "Refugee successfully assigned to camp" r.2
                (some nearestCamp))

/-- The controller `registerAndAssignRefugee`; `address` is `none` when the
body carries none, and the empty string is falsy as well.  An error thrown by
the geocoder is answered with status 400 and its message, and so is the
`TypeError` thrown when `findNearestCamp` returns `null`, after the refugee
is created. -/
def registerAndAssignRefugee {D : Type} [LinearOrder D] (E : Env D) (s : State)
    (body : RefugeeBody) : State × Response D :=
  match body.address with
  | none => (s, Response.failure 400 "Please provide an address")
  | some address =>
    if address = "" then
      (s, Response.failure 400 "Please provide an address")
    else
      match E.geocodeAddress address with
      | Except.error message => (s, Response.failure 400 message)
      | Except.ok location =>
        let refugee : Refugee :=
          { _id := s.nextId
            latitude := location.latitude
            longitude := location.longitude
            assignedCamp := body.assignedCamp
            familyMembers := body.familyMembers.getD 1
            status := body.status.getD RefugeeStatus.Pending }
        let s1 : State :=
          { s with refugees := s.refugees ++ [refugee], nextId := s.nextId + 1 }
        let camps := findAvailableCamps s1.camps
        if camps.length > 0 then
          let availableCamps := filterByCapacity camps refugee.familyMembers
          if availableCamps.length > 0 then
            match findNearestCamp E refugee.latitude refugee.longitude availableCamps with
            | none => (s1, Response.failure 400 "Cannot read properties of null")
            | some nearestCamp =>
              let r := commitAssignment s1 refugee nearestCamp
              (r.1, Response.assigned 201 "Refugee registered and assigned to nearest camp" r.2
                (some nearestCamp))
          else
            (s1, Response.assigned 201 "Refugee registered but no available camps found"
              refugee none)
        else
          (s1, Response.assigned 201 "Refugee registered but no available camps found"
            refugee none)

/-- The controller `deleteRefugee`. -/
def deleteRefugee {D : Type} (s : State) (id : Nat) : State × Response D :=
  match findRefugeeById s.refugees id with
  | none => (s, Response.failure 404 "Refugee not found")
  | some refugee =>
    let camps :=
      match refugee.assignedCamp with
      | some campId => incOccupancy s.camps campId (-refugee.familyMembers)
      | none => s.camps
    ({ s with camps := camps, refugees := deleteRefugeeDoc s.refugees refugee._id },
      Response.deleted 200)

/-- The requests of the assignment engine. -/
inductive Request where
  | createCamp (body : CampBody)
  | registerAndAssignRefugee (body : RefugeeBody)
  | assignRefugeeToNearestCamp (refugeeId : Option Nat)
  | deleteRefugee (id : Nat)
deriving DecidableEq, Repr

/-- Dispatch of one request to its controller. -/
def handle {D : Type} [LinearOrder D] (E : Env D) (s : State) : Request → State × Response D
  | Request.createCamp body => createCamp s body
  | Request.registerAndAssignRefugee body => registerAndAssignRefugee E s body
  | Request.assignRefugeeToNearestCamp refugeeId => assignRefugeeToNearestCamp E s refugeeId
  | Request.deleteRefugee id => deleteRefugee s id

/-- The state after serving a sequence of requests one after the other. -/
def run {D : Type} [LinearOrder D] (E : Env D) (s : State) (requests : List Request) : State :=
  requests.foldl (fun st request => (handle E st request).1) s

/-! ## The haversine instance of the numeric layer (`utils/distance.js`) -/

/-- The function `toRad`. -/
noncomputable def toRad (degrees : ℝ) : ℝ :=
  degrees * (Real.pi / 180)

/-- The function `Math.atan2(y, x)` on real arguments: the angle of the point `(x, y)`. -/
noncomputable def atan2 (y x : ℝ) : ℝ :=
  Complex.arg ⟨x, y⟩

/-- The quantity `a` of `calculateDistance` (the haversine of the central
angle) in exact arithmetic.  The source computes it in double precision, where
each operation rounds; for antipodal points the exact value is 1 and the
computed one can exceed 1. -/
noncomputable def haversineTerm (lat1 lon1 lat2 lon2 : ℝ) : ℝ :=
  Real.sin (toRad (lat2 - lat1) / 2) * Real.sin (toRad (lat2 - lat1) / 2) +
  Real.cos (toRad lat1) * Real.cos (toRad lat2) *
  Real.sin (toRad (lon2 - lon1) / 2) * Real.sin (toRad (lon2 - lon1) / 2)

/-- The function `calculateDistance` in exact arithmetic, over the reals. -/
noncomputable def calculateDistance (lat1 lon1 lat2 lon2 : ℝ) : ℝ :=
  let R : ℝ := 6371
  let dLat := toRad (lat2 - lat1)
  let dLon := toRad (lon2 - lon1)
  let a :=
    Real.sin (dLat / 2) * Real.sin (dLat / 2) +
    Real.cos (toRad lat1) * Real.cos (toRad lat2) *
    Real.sin (dLon / 2) * Real.sin (dLon / 2)
  let c := 2 * atan2 (Real.sqrt a) (Real.sqrt (1 - a))
  let distance := R * c
  distance

/-- The rounding `parseFloat(distance.toFixed(2))` over the reals. -/
noncomputable def toFixed2 (distance : ℝ) : ℝ :=
  (round (distance * 100) : ℝ) / 100

/-- The environment of exact arithmetic: distances are real haversine
distances, none of which is NaN; the geocoder stays external. -/
noncomputable def realEnv (geocodeAddress : String → Except String Location) : Env ℝ :=
  { calculateDistance := fun lat1 lon1 lat2 lon2 =>
      some (calculateDistance lat1 lon1 lat2 lon2)
    toFixed2 := toFixed2
    toFixed2_monotone := by
      intro a b hab
      unfold toFixed2
      have h : round (a * 100) ≤ round (b * 100) := by
        rw [round_eq, round_eq]
        exact Int.floor_le_floor (by linarith)
      have h2 : ((round (a * 100) : ℤ) : ℝ) ≤ ((round (b * 100) : ℤ) : ℝ) := by
        exact_mod_cast h
      linarith
    geocodeAddress := geocodeAddress }

/-! ## Ranking (`findNearestCamps` of `utils/distance.js`) -/

/-- The comparison `x < y` of two JavaScript numbers: false as soon as one
side is NaN. -/
def jsLt {D : Type} [LinearOrder D] : Option D → Option D → Prop
  | some x, some y => x < y
  | _, _ => False

instance {D : Type} [LinearOrder D] : DecidableRel (jsLt (D := D)) :=
  fun x y =>
    match x, y with
    | some a, some b => inferInstanceAs (Decidable (a < b))
    | some _, none => isFalse (fun h => h)
    | none, _ => isFalse (fun h => by cases y <;> exact h)

/-- The comparison `x <= y` of two JavaScript numbers: false as soon as one
side is NaN. -/
def jsLe {D : Type} [LinearOrder D] : Option D → Option D → Prop
  | some x, some y => x ≤ y
  | _, _ => False

/-- The order induced by the comparator `(a, b) => a.distance - b.distance`:
the comparator is not positive (it is negative, zero or NaN), so the sort
does not move `b` in front of `a`. -/
def DistanceLE {D : Type} [LinearOrder D] (a b : CampWithDistance D) : Prop :=
  ¬ jsLt b.distance a.distance

instance {D : Type} [LinearOrder D] : DecidableRel (DistanceLE (D := D)) :=
  fun a b => inferInstanceAs (Decidable (¬ jsLt b.distance a.distance))

/-- The call `array.slice(0, count)` for an integer `count`: a negative
`count` is taken from the end of the array. -/
def slice0 {α : Type} (array : List α) (count : Int) : List α :=
  if count < 0 then array.take (array.length + count).toNat
  else array.take count.toNat

/-- The function `findNearestCamps`; `count` is `none` when the argument is
omitted (default 5).  `Array.prototype.sort` is a stable sort, modelled by
the stable insertion sort; a camp whose distance is NaN stays in the list, and
the comparator returns NaN (counted as 0) on it. -/
def findNearestCamps {D : Type} [LinearOrder D] (E : Env D) (latitude longitude : ℚ)
    (camps : List Camp) (count : Option Int) : List (CampWithDistance D) :=
  if camps.length = 0 then []
  else
    let campsWithDistance : List (CampWithDistance D) := camps.map (fun camp =>
      let distance := E.calculateDistance latitude longitude camp.latitude camp.longitude
      { camp := camp, distance := distance.map E.toFixed2 })
    slice0 (campsWithDistance.insertionSort DistanceLE) (count.getD 5)

/-! ## Saving a camp after an occupancy change -/

/-- An occupancy change followed by `camp.save()`, which runs the
`pre('save')` hook. -/
def saveWithOccupancy (camp : Camp) (occupancy : Int) : Camp :=
  preSave { camp with currentOccupancy := occupancy }

/-- The camp documents seen along a sequence of occupancy changes, each
followed by a save: the initial document first. -/
def occupancyHistory (camp : Camp) (occupancies : List Int) : List Camp :=
  occupancies.scanl saveWithOccupancy camp

/-! ## Interleaved executions of `assignRefugeeToNearestCamp` -/

/-- The points at which one call of `assignRefugeeToNearestCamp` gives up
control (`await`): before `Refugee.findById`, before `Camp.find`, before
`refugee.save()` (the document is already modified in memory), before
`Camp.findByIdAndUpdate`, and after the answer is sent. -/
inductive AssignTask (D : Type) where
  | start (refugeeId : Option Nat)
  | loaded (refugee : Refugee)
  | chosen (refugee : Refugee) (nearestCamp : CampWithDistance D)
  | saved (refugee : Refugee) (nearestCamp : CampWithDistance D)
  | done (response : Response D)

/-- One atomic stretch of a call, from one `await` to the next. -/
def stepAssignTask {D : Type} [LinearOrder D] (E : Env D) (s : State) :
    AssignTask D → State × AssignTask D
  | AssignTask.start none =>
    (s, AssignTask.done (Response.failure 400 "Please provide refugee ID"))
  | AssignTask.start (some id) =>
    match findRefugeeById s.refugees id with
    | none => (s, AssignTask.done (Response.failure 404 "Refugee not found"))
    | some refugee =>
      if refugee.assignedCamp.isSome then
        (s, AssignTask.done (Response.failure 400 "Refugee already assigned to a camp"))
      else
        (s, AssignTask.loaded refugee)
  | AssignTask.loaded refugee =>
    let camps := findAvailableCamps s.camps
    if camps.length = 0 then
      (s, AssignTask.done (Response.failure 404 "No available camps found"))
    else
      let availableCamps := filterByCapacity camps refugee.familyMembers
      if availableCamps.length = 0 then
        (s, AssignTask.done (Response.failure 404 "No camps with sufficient capacity found"))
      else
        match findNearestCamp E refugee.latitude refugee.longitude availableCamps with
        | none => (s, AssignTask.done (Response.failure 500 "Cannot read properties of null"))
        | some nearestCamp =>
          (s, AssignTask.chosen
            { refugee with
                assignedCamp := some nearestCamp.camp._id, status := RefugeeStatus.Assigned }
            nearestCamp)
  | AssignTask.chosen refugee nearestCamp =>
    ({ s with refugees := saveRefugee s.refugees refugee },
      AssignTask.saved refugee nearestCamp)
  | AssignTask.saved refugee nearestCamp =>
    ({ s with camps := incOccupancy s.camps nearestCamp.camp._id refugee.familyMembers },
      AssignTask.done
        (Response.assigned 200 "Refugee successfully assigned to camp" refugee
          (some nearestCamp)))
  | AssignTask.done response => (s, AssignTask.done response)

/-- A call run alone for a number of stretches. -/
def runAssignTask {D : Type} [LinearOrder D] (E : Env D) :
    Nat → State × AssignTask D → State × AssignTask D
  | 0, st => st
  | n + 1, st => runAssignTask E n (stepAssignTask E st.1 st.2)

/-- The store together with the calls in flight. -/
structure Concurrent (D : Type) where
  state : State
  tasks : List (AssignTask D)

/-- The scheduler lets call number `i` run its next stretch. -/
def Concurrent.step {D : Type} [LinearOrder D] (E : Env D) (c : Concurrent D) (i : Nat) :
    Concurrent D :=
  match c.tasks.get? i with
  | none => c
  | some task =>
    let r := stepAssignTask E c.state task
    { state := r.1, tasks := c.tasks.set i r.2 }

/-- The execution under a schedule: the list of the calls that run, in order. -/
def Concurrent.run {D : Type} [LinearOrder D] (E : Env D) (c : Concurrent D)
    (schedule : List Nat) : Concurrent D :=
  schedule.foldl (Concurrent.step E) c

/-- Whether a call has answered with `success: true`. -/
def AssignTask.succeeded {D : Type} : AssignTask D → Bool
  | AssignTask.done response => response.success
  | _ => false

/-! ## The camp graph (`campController.js`) -/

/-- The JSON answer of the camp-graph controllers. -/
inductive CampResponse where
  | failure (status : Nat) (error : String)
  | connected (status : Nat) (camp1 camp2 : Camp)
  | deleted (status : Nat)
deriving DecidableEq, Repr

/-- Whether the answer carries `success: true`. -/
def CampResponse.success : CampResponse → Bool
  | CampResponse.failure _ _ => false
  | _ => true

/-- The validators that `doc.save()` runs on a camp document, loaded paths
included: `capacity` has `min: 1` and `currentOccupancy` has `min: 0`. -/
def validatesOnSave (camp : Camp) : Bool :=
  decide (1 ≤ camp.capacity) && decide (0 ≤ camp.currentOccupancy)

/-- The write of `camp.connectedCamps.push(id); await camp.save()` once the
validators have passed: the `pre('save')` hook runs on the document in memory,
and the stored document with the same `_id` receives the pushed id and, if the
hook changed it, the new status.  The result is the collection and the
document in memory. -/
def pushed (camps : List Camp) (camp : Camp) (id : Nat) : List Camp × Camp :=
  let doc := preSave { camp with connectedCamps := camp.connectedCamps ++ [id] }
  (camps.map (fun c =>
      if c._id = camp._id then
        { c with
            connectedCamps := c.connectedCamps ++ [id]
            status := if doc.status = camp.status then c.status else doc.status }
      else c),
    doc)

/-- The statements `camp.connectedCamps.push(id); await camp.save()` on a
document `camp` read earlier: `save()` first validates the document in memory
and throws (`none`) when a validator fails, writing nothing; otherwise it
writes. -/
def pushAndSave (camps : List Camp) (camp : Camp) (id : Nat) : Option (List Camp × Camp) :=
  if validatesOnSave camp then some (pushed camps camp id) else none

/-- The controller `connectCamps`.  An error thrown by a `save()` is answered
with status 500; what an earlier `save()` of the same call wrote stays
written. -/
def connectCamps (s : State) (id targetId : Nat) : State × CampResponse :=
  match findCampById s.camps id, findCampById s.camps targetId with
  | some camp1, some camp2 =>
    let step1 :=
      if camp2._id ∈ camp1.connectedCamps then some (s.camps, camp1)
      else pushAndSave s.camps camp1 camp2._id
    match step1 with
    | none => (s, CampResponse.failure 500 "Camp validation failed")
    | some r1 =>
      let step2 :=
        if camp1._id ∈ camp2.connectedCamps then some (r1.1, camp2)
        else pushAndSave r1.1 camp2 camp1._id
      match step2 with
      | none => ({ s with camps := r1.1 }, CampResponse.failure 500 "Camp validation failed")
      | some r2 => ({ s with camps := r2.1 }, CampResponse.connected 200 r1.2 r2.2)
  | _, _ => (s, CampResponse.failure 404 "One or both camps not found")

/-- The controller `deleteCamp`. -/
def deleteCamp (s : State) (id : Nat) : State × CampResponse :=
  match findCampById s.camps id with
  | none => (s, CampResponse.failure 404 "Camp not found")
  | some camp =>
    ({ s with camps := s.camps.filter (fun c => c._id != camp._id) }, CampResponse.deleted 200)

/-- The requests of the camp graph. -/
inductive CampRequest where
  | createCamp (body : CampBody)
  | connectCamps (id targetId : Nat)
  | deleteCamp (id : Nat)
deriving DecidableEq, Repr

/-- The store after one camp-graph request. -/
def handleCamp (s : State) : CampRequest → State
  | CampRequest.createCamp body => (createCamp s body : State × Response Unit).1
  | CampRequest.connectCamps id targetId => (connectCamps s id targetId).1
  | CampRequest.deleteCamp id => (deleteCamp s id).1

/-- The store after a sequence of camp-graph requests. -/
def runCamp (s : State) (requests : List CampRequest) : State :=
  requests.foldl handleCamp s

/-! ## Creating a refugee (`refugeeController.js`) -/

/-- The part of `req.body` of `POST /api/refugees` that the engine depends
on; the descriptive fields are taken to be present and valid, and the payload
is taken to carry no `_id` of its own. -/
structure CreateRefugeeBody where
  latitude : ℚ
  longitude : ℚ
  familyMembers : Option Int
  assignedCamp : Option Nat
  status : Option RefugeeStatus
deriving DecidableEq, Repr

/-- The JSON answer of `createRefugee`. -/
inductive RefugeeResponse where
  | failure (status : Nat) (error : String)
  | created (status : Nat) (refugee : Refugee)
deriving DecidableEq, Repr

/-- The controller `createRefugee`: `Refugee.create` fills the defaults and
runs the validators of `refugeeSchema`, none of which constrains
`familyMembers`. -/
def createRefugee (s : State) (body : CreateRefugeeBody) : State × RefugeeResponse :=
  let refugee : Refugee :=
    { _id := s.nextId
      latitude := body.latitude
      longitude := body.longitude
      assignedCamp := body.assignedCamp
      familyMembers := body.familyMembers.getD 1
      status := body.status.getD RefugeeStatus.Pending }
  ({ s with refugees := s.refugees ++ [refugee], nextId := s.nextId + 1 },
    RefugeeResponse.created 201 refugee)

/-! ## The distance and nearest-camps endpoints (`assignmentController.js`) -/

/-- The numeric fields of `req.body` of `POST /api/assignment/calculate-distance`;
`none` is an absent field. -/
structure DistanceBody where
  lat1 : Option ℚ
  lon1 : Option ℚ
  lat2 : Option ℚ
  lon2 : Option ℚ
deriving DecidableEq, Repr

/-- The JSON answer of `getDistance`; the distance is a number or NaN. -/
inductive DistanceResponse (D : Type) where
  | failure (status : Nat) (error : String)
  | distance (status : Nat) (distance : Option D) (unit : String)

/-- The test `!x` on an optional number: true when the field is absent and
when it is the number 0. -/
def falsy (x : Option ℚ) : Bool :=
  match x with
  | none => true
  | some v => decide (v = 0)

/-- The controller `getDistance`. -/
def getDistance {D : Type} [LinearOrder D] (E : Env D) (body : DistanceBody) :
    DistanceResponse D :=
  if falsy body.lat1 || falsy body.lon1 || falsy body.lat2 || falsy body.lon2 then
    DistanceResponse.failure 400 "Please provide all coordinates (lat1, lon1, lat2, lon2)"
  else
    match body.lat1, body.lon1, body.lat2, body.lon2 with
    | some lat1, some lon1, some lat2, some lon2 =>
      DistanceResponse.distance 200 ((E.calculateDistance lat1 lon1 lat2 lon2).map E.toFixed2)
        "kilometers"
    | _, _, _, _ =>
      DistanceResponse.failure 400 "Please provide all coordinates (lat1, lon1, lat2, lon2)"

/-- The fields of `req.body` of `POST /api/assignment/nearest-camps`. -/
structure NearestBody where
  latitude : Option ℚ
  longitude : Option ℚ
  address : Option String
  count : Option Int
deriving DecidableEq, Repr

/-- The JSON answer of `getNearestCamps`. -/
inductive NearestResponse (D : Type) where
  | failure (status : Nat) (error : String)
  | found (status : Nat) (latitude longitude : ℚ) (count : Nat)
      (data : List (CampWithDistance D))

/-- The controller `getNearestCamps`; an error thrown by the geocoder is
answered with status 500 and its message. -/
def getNearestCamps {D : Type} [LinearOrder D] (E : Env D) (s : State) (body : NearestBody) :
    NearestResponse D :=
  let geocoded : Except String (Option ℚ × Option ℚ) :=
    match body.address with
    | some address =>
      if address ≠ "" ∧ (falsy body.latitude || falsy body.longitude) then
        match E.geocodeAddress address with
        | Except.ok location => Except.ok (some location.latitude, some location.longitude)
        | Except.error message => Except.error message
      else Except.ok (body.latitude, body.longitude)
    | none => Except.ok (body.latitude, body.longitude)
  match geocoded with
  | Except.error message => NearestResponse.failure 500 message
  | Except.ok (lat, lon) =>
    if falsy lat || falsy lon then
      NearestResponse.failure 400 "Please provide either coordinates or address"
    else
      match lat, lon with
      | some latitude, some longitude =>
        let camps := findAvailableCamps s.camps
        if camps.length = 0 then
          NearestResponse.failure 404 "No available camps found"
        else
          let nearestCamps :=
            findNearestCamps E latitude longitude camps (some (body.count.getD 5))
          NearestResponse.found 200 latitude longitude nearestCamps.length nearestCamps
      | _, _ => NearestResponse.failure 400 "Please provide either coordinates or address"

/-! ## Vocabulary of the properties -/

/-- The distance from a point to a camp, as computed inside the search loops:
a number or NaN. -/
def distanceTo {D : Type} [LinearOrder D] (E : Env D) (latitude longitude : ℚ) (camp : Camp) :
    Option D :=
  E.calculateDistance latitude longitude camp.latitude camp.longitude

/-- The object `{ ...camp, distance: parseFloat(distance.toFixed(2)) }`. -/
def withDistance {D : Type} [LinearOrder D] (E : Env D) (latitude longitude : ℚ) (camp : Camp) :
    CampWithDistance D :=
  { camp := camp, distance := (distanceTo E latitude longitude camp).map E.toFixed2 }

/-- Eligibility in the words of the specification: the status permits intake
(Active or Emergency) and the free capacity covers the family size. -/
def Eligible (familyMembers : Int) (camp : Camp) : Prop :=
  (camp.status = CampStatus.Active ∨ camp.status = CampStatus.Emergency) ∧
    camp.capacity - camp.currentOccupancy ≥ familyMembers

instance (familyMembers : Int) (camp : Camp) : Decidable (Eligible familyMembers camp) := by
  unfold Eligible; infer_instance

/-- The eligible camps of the specification, in repository order. -/
def eligibleCamps (camps : List Camp) (familyMembers : Int) : List Camp :=
  camps.filter (fun camp => decide (Eligible familyMembers camp))

/-- The stored occupancy of the camp with a given `_id`, if there is one. -/
def occupancyOf (camps : List Camp) (id : Nat) : Option Int :=
  (findCampById camps id).map (fun c => c.currentOccupancy)

/-- The refugee invariant of the data model: `assignedCamp` is set exactly
when the status is Assigned. -/
def RefugeeInvariant (r : Refugee) : Prop :=
  r.assignedCamp ≠ none ↔ r.status = RefugeeStatus.Assigned

/-- A request whose registration payload leaves `assignedCamp` and `status`
to the schema defaults. -/
def Request.defaultsOnly : Request → Prop
  | Request.registerAndAssignRefugee body => body.assignedCamp = none ∧ body.status = none
  | _ => True

/-- A camp as the query of the controllers sees it available: status Active
or Emergency and `currentOccupancy < capacity`. -/
def Available (camp : Camp) : Prop :=
  (camp.status = CampStatus.Active ∨ camp.status = CampStatus.Emergency) ∧
    camp.currentOccupancy < camp.capacity

/-- The document that `Refugee.create` builds in `registerAndAssignRefugee`. -/
def registeredRefugee (s : State) (body : RefugeeBody) (location : Location) : Refugee :=
  { _id := s.nextId
    latitude := location.latitude
    longitude := location.longitude
    assignedCamp := body.assignedCamp
    familyMembers := body.familyMembers.getD 1
    status := body.status.getD RefugeeStatus.Pending }

/-- The store right after `Refugee.create` in `registerAndAssignRefugee`. -/
def afterCreate (s : State) (refugee : Refugee) : State :=
  { s with refugees := s.refugees ++ [refugee], nextId := s.nextId + 1 }

/-- The stored `connectedCamps` of the camp with a given `_id`, if there is one. -/
def connectionsOf (camps : List Camp) (id : Nat) : Option (List Nat) :=
  (findCampById camps id).map (fun c => c.connectedCamps)

/-- The change that a `connectCamps` call makes to the `connectedCamps` stored
under `id`, when the two documents read are `camp1` and `camp2`. -/
def connectedAfter (camp1 camp2 : Camp) (id : Nat) (connections : List Nat) : List Nat :=
  let first :=
    if id = camp1._id ∧ camp2._id ∉ camp1.connectedCamps then connections ++ [camp2._id]
    else connections
  if id = camp2._id ∧ camp1._id ∉ camp2.connectedCamps then first ++ [camp1._id] else first

/-! ## Fixtures -/

/-- A geocoder that resolves every address to the point (0.01, 0.01). -/
def geocodeFixed : String → Except String Location :=
  fun _ => Except.ok { latitude := 1 / 100, longitude := 1 / 100 }

/-- Camp X of the scenarios: at (0,0), capacity 10, empty. -/
def campX : Camp :=
  { _id := 0, latitude := 0, longitude := 0, capacity := 10, currentOccupancy := 0,
    connectedCamps := [], status := CampStatus.Active }

/-- Camp Y of the scenarios: at (10,10), capacity 10, empty. -/
def campY : Camp :=
  { _id := 1, latitude := 10, longitude := 10, capacity := 10, currentOccupancy := 0,
    connectedCamps := [], status := CampStatus.Active }

/-- A pending refugee at (0.01, 0.01) with a given family size. -/
def pendingRefugee (id : Nat) (familyMembers : Int) : Refugee :=
  { _id := id, latitude := 1 / 100, longitude := 1 / 100, assignedCamp := none,
    familyMembers := familyMembers, status := RefugeeStatus.Pending }

/-- The two-camp scenario: X and Y empty, one pending family of two. -/
def twoCampState : State :=
  { camps := [campX, campY], refugees := [pendingRefugee 2 2], nextId := 3 }

/-- A store in which the filters matter: camp X, a camp that holds 9 of 10, an
inactive empty camp, a camp with 10 of 10 still marked Active, and camp Y;
one pending family of two. -/
def mixedCampState : State :=
  { camps :=
      [campX,
       { campX with _id := 2, currentOccupancy := 9 },
       { campX with _id := 3, status := CampStatus.Inactive },
       { campX with _id := 4, currentOccupancy := 10 },
       campY],
    refugees := [pendingRefugee 5 2], nextId := 6 }

/-- The single-camp scenario: X holds 8 of 10, one pending family of three. -/
def nearlyFullState : State :=
  { camps := [{ campX with currentOccupancy := 8 }], refugees := [pendingRefugee 1 3],
    nextId := 2 }

/-- A creation payload with default occupancy and status. -/
def campBody (capacity : Int) : CampBody :=
  { _id := none, latitude := 0, longitude := 0, capacity := capacity,
    currentOccupancy := none, connectedCamps := [], status := none }

/-- A registration payload that carries only an address and a family size. -/
def refugeeBody (familyMembers : Int) : RefugeeBody :=
  { address := some "Main Street", familyMembers := some familyMembers, assignedCamp := none,
    status := none }

/-- The geocoded environment of the scenarios. -/
noncomputable def scenarioEnv : Env ℝ := realEnv geocodeFixed

/-- An environment of limited precision: distances are the real haversine
distances, except that the distance of two antipodal points (haversine term 1)
is NaN, as in double arithmetic when the term rounds above 1 and
`Math.sqrt(1 - a)` is taken of a negative number. -/
noncomputable def antipodeEnv : Env ℝ :=
  { calculateDistance := fun lat1 lon1 lat2 lon2 =>
      if 1 ≤ haversineTerm lat1 lon1 lat2 lon2 then none
      else some (calculateDistance lat1 lon1 lat2 lon2)
    toFixed2 := toFixed2
    toFixed2_monotone := scenarioEnv.toFixed2_monotone
    geocodeAddress := geocodeFixed }

/-- A camp at (34.689, -78.031), the antipode of the point (-34.689, 101.969). -/
def antipodeCamp : Camp :=
  { _id := 0, latitude := 34689 / 1000, longitude := -78031 / 1000, capacity := 10,
    currentOccupancy := 0, connectedCamps := [], status := CampStatus.Active }

/-- A camp at the point (-34.689, 101.969) itself. -/
def pointCamp : Camp :=
  { _id := 1, latitude := -34689 / 1000, longitude := 101969 / 1000, capacity := 10,
    currentOccupancy := 0, connectedCamps := [], status := CampStatus.Active }

/-- The requests that fill a camp of capacity one and then register one more
family of the given size: the camp keeps status Active while full. -/
def fullCampRequests (familyMembers : Int) : List Request :=
  [Request.createCamp (campBody 1),
   Request.registerAndAssignRefugee (refugeeBody 1),
   Request.registerAndAssignRefugee (refugeeBody familyMembers)]

/-- The requests that create a camp of capacity ten and register a family
whose size is given as minus three. -/
def negativeFamilyRequests : List Request :=
  [Request.createCamp (campBody 10), Request.registerAndAssignRefugee (refugeeBody (-3))]

/-- The requests that create a camp of capacity ten, register a family whose
size is given as minus three, and create a second camp of capacity ten. -/
def negativeOccupancyRequests : List Request :=
  [Request.createCamp (campBody 10), Request.registerAndAssignRefugee (refugeeBody (-3)),
   Request.createCamp (campBody 10)]

/-- A registration payload that presets `status` and `assignedCamp`. -/
def presetBody : RefugeeBody :=
  { address := some "Main Street", familyMembers := none, assignedCamp := some 5,
    status := some RefugeeStatus.Relocated }

/-- A registration payload that presets only `status`. -/
def presetStatusBody : RefugeeBody :=
  { address := some "Main Street", familyMembers := none, assignedCamp := none,
    status := some RefugeeStatus.Assigned }

/-- An inactive camp of capacity 10, empty. -/
def inactiveCamp : Camp :=
  { campX with status := CampStatus.Inactive }

/-- The requests that create a camp of capacity one and register one family
of one, which fills the camp. -/
def fillCampRequests : List Request :=
  [Request.createCamp (campBody 1), Request.registerAndAssignRefugee (refugeeBody 1)]

/-- A store with one empty camp of capacity one and two pending families of
one person each. -/
def raceState : State :=
  { camps := [{ campX with capacity := 1 }],
    refugees := [pendingRefugee 1 1, pendingRefugee 2 1], nextId := 3 }

/-- A schedule of two calls in which both run `Camp.find` before either
writes. -/
def raceSchedule : List Nat := [0, 1, 0, 1, 0, 1, 0, 1]

/-- A twin of camp X: another camp at the same place. -/
def campXTwin : Camp :=
  { campX with _id := 7 }

/-- A camp three hundred-thousandths of a degree north of the point (1, 1):
about 3.3 m away. -/
def campNear : Camp :=
  { campX with _id := 0, latitude := 100003 / 100000, longitude := 1 }

/-- A camp exactly at the point (1, 1). -/
def campHere : Camp :=
  { campX with _id := 1, latitude := 1, longitude := 1 }

/-- A camp-graph request whose creation payload carries no initial
connections and no `_id` of its own. -/
def CampRequest.plainCreation : CampRequest → Prop
  | CampRequest.createCamp body => body.connectedCamps = [] ∧ body._id = none
  | _ => True

/-- The invariant of the camp graph on a store: every stored camp id and
every id listed in a stored `connectedCamps` is below the next fresh id, every
stored camp passes the validators of `save()`, and among stored camps the
relation is symmetric. -/
structure GraphInvariant (s : State) : Prop where
  fresh : ∀ id l, connectionsOf s.camps id = some l → id < s.nextId ∧ ∀ x ∈ l, x < s.nextId
  valid : ∀ c ∈ s.camps, validatesOnSave c = true
  symm : ∀ A B la lb, connectionsOf s.camps A = some la → connectionsOf s.camps B = some lb →
    (B ∈ la ↔ A ∈ lb)

/-- The requests that create two camps, connect them and delete the second. -/
def danglingRequests : List CampRequest :=
  [CampRequest.createCamp (campBody 1), CampRequest.createCamp (campBody 1),
   CampRequest.connectCamps 0 1, CampRequest.deleteCamp 1]

/-- The requests that create two camps, connect them, delete the second and
create a camp whose payload carries the `_id` of the deleted one. -/
def reuseRequests : List CampRequest :=
  [CampRequest.createCamp (campBody 1), CampRequest.createCamp (campBody 1),
   CampRequest.connectCamps 0 1, CampRequest.deleteCamp 1,
   CampRequest.createCamp { campBody 1 with _id := some 1 }]

/-- The requests that create two camps and connect them. -/
def connectRequests : List CampRequest :=
  [CampRequest.createCamp (campBody 1), CampRequest.createCamp (campBody 1),
   CampRequest.connectCamps 0 1]

/-- What a refugee adds to the load of a camp id: its `familyMembers` when its
`assignedCamp` is that id, and nothing otherwise. -/
def contribution (r : Refugee) (campId : Nat) : Int :=
  if r.assignedCamp = some campId then r.familyMembers else 0

/-- The sum of `familyMembers` over the refugees whose `assignedCamp` is the
given camp id. -/
def assignedLoad (refugees : List Refugee) (campId : Nat) : Int :=
  (refugees.map (fun r => contribution r campId)).sum

/-- A request of the assignment engine whose camp payload leaves the occupancy
at 0 and whose registration payload carries no `assignedCamp`. -/
def Request.accountable : Request → Prop
  | Request.createCamp body => body.currentOccupancy.getD 0 = 0
  | Request.registerAndAssignRefugee body => body.assignedCamp = none
  | _ => True

/-- The accounting invariant of a store: refugee ids are distinct and, like
the camp ids and the ids in `assignedCamp`, below the next fresh id; every id
in an `assignedCamp` is that of a stored camp; and every camp's occupancy is
the load assigned to its id. -/
structure Accounting (s : State) : Prop where
  refugee_ids : ∀ r ∈ s.refugees, r._id < s.nextId
  refugee_nodup : (s.refugees.map (fun r => r._id)).Nodup
  camp_ids : ∀ c ∈ s.camps, c._id < s.nextId
  assigned_ids : ∀ r ∈ s.refugees, ∀ k, r.assignedCamp = some k → k < s.nextId
  assigned_stored : ∀ r ∈ s.refugees, ∀ k, r.assignedCamp = some k →
    ∃ c ∈ s.camps, c._id = k
  occupancy : ∀ c ∈ s.camps, c.currentOccupancy = assignedLoad s.refugees c._id

/-- A registration payload for a family of five that presets `assignedCamp`
to camp 0. -/
def presetCampBody : RefugeeBody :=
  { address := some "Main Street", familyMembers := some 5, assignedCamp := some 0,
    status := none }

/-! # Properties -/

/-! ## Nearest selection -/

theorem findNearestCampStep_nan {D : Type} [LinearOrder D] (E : Env D) (lat lon : ℚ)
    (acc : Option (D × CampWithDistance D)) (camp : Camp)
    (h : distanceTo E lat lon camp = none) :
    findNearestCampStep E lat lon acc camp = acc := by
  unfold distanceTo at h
  unfold findNearestCampStep
  rw [h]

theorem findNearestCampStep_none {D : Type} [LinearOrder D] (E : Env D) (lat lon : ℚ)
    (camp : Camp) (d : D) (h : distanceTo E lat lon camp = some d) :
    findNearestCampStep E lat lon none camp = some (d, withDistance E lat lon camp) := by
  unfold withDistance
  unfold distanceTo at h ⊢
  unfold findNearestCampStep
  rw [h]
  rfl

theorem findNearestCampStep_some {D : Type} [LinearOrder D] (E : Env D) (lat lon : ℚ)
    (m : D) (n : CampWithDistance D) (camp : Camp) (d : D)
    (h : distanceTo E lat lon camp = some d) :
    findNearestCampStep E lat lon (some (m, n)) camp
      = if d < m then some (d, withDistance E lat lon camp) else some (m, n) := by
  unfold withDistance
  unfold distanceTo at h ⊢
  unfold findNearestCampStep
  rw [h]
  rfl

/-- The loop of `findNearestCamp` ends with `null` when every distance is NaN,
and otherwise on the first camp of least distance among those whose distance
is a number. -/
theorem foldl_findNearestCampStep {D : Type} [LinearOrder D] (E : Env D) (lat lon : ℚ)
    (camps : List Camp) :
    (camps.foldl (findNearestCampStep E lat lon) none = none ∧
        ∀ x ∈ camps, distanceTo E lat lon x = none) ∨
      ∃ pre c post d, camps = pre ++ c :: post ∧ distanceTo E lat lon c = some d ∧
        camps.foldl (findNearestCampStep E lat lon) none
          = some (d, withDistance E lat lon c) ∧
        (∀ x ∈ pre, ∀ dx, distanceTo E lat lon x = some dx → d < dx) ∧
        (∀ x ∈ post, ∀ dx, distanceTo E lat lon x = some dx → d ≤ dx) := by
  induction camps using List.reverseRecOn with
  | nil => exact Or.inl ⟨rfl, by simp⟩
  | append_singleton l a ih =>
    rw [List.foldl_append]
    simp only [List.foldl_cons, List.foldl_nil]
    cases ha : distanceTo E lat lon a with
    | none =>
      rw [findNearestCampStep_nan E lat lon _ a ha]
      rcases ih with ⟨hf, hall⟩ | ⟨pre, c, post, d, hsplit, hc, hfold, hpre, hpost⟩
      · refine Or.inl ⟨hf, ?_⟩
        intro x hx
        rcases List.mem_append.mp hx with hx | hx
        · exact hall x hx
        · rw [List.mem_singleton.mp hx]; exact ha
      · refine Or.inr ⟨pre, c, post ++ [a], d, by simp [hsplit], hc, hfold, hpre, ?_⟩
        intro x hx dx hdx
        rcases List.mem_append.mp hx with hx | hx
        · exact hpost x hx dx hdx
        · rw [List.mem_singleton.mp hx, ha] at hdx
          cases hdx
    | some da =>
      rcases ih with ⟨hf, hall⟩ | ⟨pre, c, post, d, hsplit, hc, hfold, hpre, hpost⟩
      · rw [hf, findNearestCampStep_none E lat lon a da ha]
        refine Or.inr ⟨l, a, [], da, by simp, ha, rfl, ?_, by simp⟩
        intro x hx dx hdx
        rw [hall x hx] at hdx
        cases hdx
      · rw [hfold, findNearestCampStep_some E lat lon d _ a da ha]
        by_cases hlt : da < d
        · rw [if_pos hlt]
          refine Or.inr ⟨l, a, [], da, by simp, ha, rfl, ?_, by simp⟩
          intro x hx dx hdx
          rw [hsplit] at hx
          rcases List.mem_append.mp hx with hx | hx
          · exact lt_trans hlt (hpre x hx dx hdx)
          · rcases List.mem_cons.mp hx with hx | hx
            · rw [hx, hc] at hdx
              cases hdx
              exact hlt
            · exact lt_of_lt_of_le hlt (hpost x hx dx hdx)
        · rw [if_neg hlt]
          refine Or.inr ⟨pre, c, post ++ [a], d, by simp [hsplit], hc, rfl, hpre, ?_⟩
          intro x hx dx hdx
          rcases List.mem_append.mp hx with hx | hx
          · exact hpost x hx dx hdx
          · rw [List.mem_singleton.mp hx, ha] at hdx
            cases hdx
            exact not_lt.mp hlt

theorem findNearestCamp_eq_foldl {D : Type} [LinearOrder D] (E : Env D) (lat lon : ℚ)
    (camps : List Camp) :
    findNearestCamp E lat lon camps
      = (camps.foldl (findNearestCampStep E lat lon) none).map Prod.snd := by
  unfold findNearestCamp
  cases camps with
  | nil => rfl
  | cons a l => simp

/-- The result of `findNearestCamp`: `null` exactly when no candidate has a
number for its distance (in particular on the empty list), and otherwise the
first candidate of least distance among those whose distance is a number,
with its rounded distance attached: every earlier candidate is strictly
farther or at NaN, every later one is at least as far or at NaN. -/
theorem findNearestCamp_cases {D : Type} [LinearOrder D] (E : Env D) (lat lon : ℚ)
    (camps : List Camp) :
    (findNearestCamp E lat lon camps = none ∧ ∀ x ∈ camps, distanceTo E lat lon x = none) ∨
      ∃ pre c post d, camps = pre ++ c :: post ∧ distanceTo E lat lon c = some d ∧
        findNearestCamp E lat lon camps = some (withDistance E lat lon c) ∧
        (∀ x ∈ pre, ∀ dx, distanceTo E lat lon x = some dx → d < dx) ∧
        (∀ x ∈ post, ∀ dx, distanceTo E lat lon x = some dx → d ≤ dx) := by
  rw [findNearestCamp_eq_foldl]
  rcases foldl_findNearestCampStep E lat lon camps with
    ⟨hf, hall⟩ | ⟨pre, c, post, d, hsplit, hc, hfold, hpre, hpost⟩
  · exact Or.inl ⟨by rw [hf]; rfl, hall⟩
  · exact Or.inr ⟨pre, c, post, d, hsplit, hc, by rw [hfold]; rfl, hpre, hpost⟩

/-- When some candidate has a number for its distance, `findNearestCamp`
returns one of the candidates, with its rounded distance attached. -/
theorem findNearestCamp_eq_some {D : Type} [LinearOrder D] (E : Env D) (lat lon : ℚ)
    (camps : List Camp) (h : ∃ x ∈ camps, distanceTo E lat lon x ≠ none) :
    ∃ c ∈ camps, findNearestCamp E lat lon camps = some (withDistance E lat lon c) := by
  rcases findNearestCamp_cases E lat lon camps with
    ⟨-, hall⟩ | ⟨pre, c, post, d, hsplit, -, hn, -, -⟩
  · obtain ⟨x, hx, hne⟩ := h
    exact absurd (hall x hx) hne
  · exact ⟨c, by rw [hsplit]; simp, hn⟩

/-- The result of `findNearestCamp` is `null` or one of the candidates with
its rounded distance attached. -/
theorem findNearestCamp_none_or_mem {D : Type} [LinearOrder D] (E : Env D) (lat lon : ℚ)
    (camps : List Camp) :
    findNearestCamp E lat lon camps = none ∨
      ∃ c ∈ camps, findNearestCamp E lat lon camps = some (withDistance E lat lon c) := by
  rcases findNearestCamp_cases E lat lon camps with
    ⟨hn, -⟩ | ⟨pre, c, post, d, hsplit, -, hn, -, -⟩
  · exact Or.inl hn
  · exact Or.inr ⟨c, by rw [hsplit]; simp, hn⟩

/-- A candidate that is strictly nearer than every earlier candidate with a
number for its distance, and at least as near as every later one, is the one
that `findNearestCamp` returns. -/
theorem findNearestCamp_of_first_minimum {D : Type} [LinearOrder D] (E : Env D) (lat lon : ℚ)
    (pre post : List Camp) (c : Camp) (d : D) (hc : distanceTo E lat lon c = some d)
    (hpre : ∀ x ∈ pre, ∀ dx, distanceTo E lat lon x = some dx → d < dx)
    (hpost : ∀ x ∈ post, ∀ dx, distanceTo E lat lon x = some dx → d ≤ dx) :
    findNearestCamp E lat lon (pre ++ c :: post) = some (withDistance E lat lon c) := by
  rw [findNearestCamp_eq_foldl, List.foldl_append, List.foldl_cons]
  have hstep : findNearestCampStep E lat lon
      (pre.foldl (findNearestCampStep E lat lon) none) c
        = some (d, withDistance E lat lon c) := by
    rcases foldl_findNearestCampStep E lat lon pre with
      ⟨hf, -⟩ | ⟨p, x, q, dx, hsplit, hx, hfold, -, -⟩
    · rw [hf, findNearestCampStep_none E lat lon c d hc]
    · have hlt : d < dx := hpre x (by rw [hsplit]; simp) dx hx
      rw [hfold, findNearestCampStep_some E lat lon dx _ c d hc, if_pos hlt]
  rw [hstep]
  have hskip : ∀ l : List Camp, (∀ x ∈ l, ∀ dx, distanceTo E lat lon x = some dx → d ≤ dx) →
      l.foldl (findNearestCampStep E lat lon) (some (d, withDistance E lat lon c))
        = some (d, withDistance E lat lon c) := by
    intro l
    induction l with
    | nil => intro _; rfl
    | cons a l ih =>
      intro hl
      rw [List.foldl_cons]
      have hstepa : findNearestCampStep E lat lon (some (d, withDistance E lat lon c)) a
          = some (d, withDistance E lat lon c) := by
        cases ha : distanceTo E lat lon a with
        | none => exact findNearestCampStep_nan E lat lon _ a ha
        | some da =>
          rw [findNearestCampStep_some E lat lon d _ a da ha,
            if_neg (not_lt.mpr (hl a (List.mem_cons_self a l) da ha))]
      rw [hstepa]
      exact ih (fun x hx => hl x (List.mem_cons_of_mem a hx))
  rw [hskip post hpost]
  rfl

/-- C3. Whenever `calculateDistance` yields NaN for every candidate, the test
`distance < minDistance` never passes and `findNearestCamp` returns `null`,
also on a non-empty list: no candidate is returned. -/
theorem findNearestCamp_null_on_nan {D : Type} [LinearOrder D] (E : Env D) (lat lon : ℚ)
    (camps : List Camp) (h : ∀ c ∈ camps, distanceTo E lat lon c = none) :
    findNearestCamp E lat lon camps = none := by
  rcases findNearestCamp_cases E lat lon camps with
    ⟨hn, -⟩ | ⟨pre, c, post, d, hsplit, hc, -, -, -⟩
  · exact hn
  · rw [h c (by rw [hsplit]; simp)] at hc
    cases hc

/-! ## Eligibility -/

/-- For a family of at least one person, the two filters of the controller
(the query on status and free space, then the capacity filter) keep exactly
the eligible camps of the specification. -/
theorem filterByCapacity_findAvailableCamps (camps : List Camp) (familyMembers : Int)
    (h : 1 ≤ familyMembers) :
    filterByCapacity (findAvailableCamps camps) familyMembers
      = eligibleCamps camps familyMembers := by
  unfold filterByCapacity findAvailableCamps eligibleCamps
  rw [List.filter_filter]
  apply List.filter_congr
  intro c _
  unfold Eligible
  by_cases h1 : c.capacity - c.currentOccupancy ≥ familyMembers
  · have h2 : c.currentOccupancy < c.capacity := by omega
    simp [h1, h2]
  · simp [h1]

/-! ## The controller `assignRefugeeToNearestCamp`, case by case -/

theorem assign_missing_id {D : Type} [LinearOrder D] (E : Env D) (s : State) :
    assignRefugeeToNearestCamp E s none = (s, Response.failure 400 "Please provide refugee ID") :=
  rfl

theorem assign_not_found {D : Type} [LinearOrder D] (E : Env D) (s : State) (id : Nat)
    (h : findRefugeeById s.refugees id = none) :
    assignRefugeeToNearestCamp E s (some id) = (s, Response.failure 404 "Refugee not found") := by
  simp [assignRefugeeToNearestCamp, h]

theorem assign_already_assigned {D : Type} [LinearOrder D] (E : Env D) (s : State) (id : Nat)
    (r : Refugee) (h : findRefugeeById s.refugees id = some r) (ha : r.assignedCamp ≠ none) :
    assignRefugeeToNearestCamp E s (some id)
      = (s, Response.failure 400 "Refugee already assigned to a camp") := by
  have : r.assignedCamp.isSome = true := by
    cases hc : r.assignedCamp with
    | none => exact absurd hc ha
    | some _ => rfl
  simp [assignRefugeeToNearestCamp, h, this]

theorem assign_no_camps {D : Type} [LinearOrder D] (E : Env D) (s : State) (id : Nat)
    (r : Refugee) (h : findRefugeeById s.refugees id = some r) (ha : r.assignedCamp = none)
    (hc : findAvailableCamps s.camps = []) :
    assignRefugeeToNearestCamp E s (some id)
      = (s, Response.failure 404 "No available camps found") := by
  simp [assignRefugeeToNearestCamp, h, ha, hc]

theorem assign_no_capacity {D : Type} [LinearOrder D] (E : Env D) (s : State) (id : Nat)
    (r : Refugee) (h : findRefugeeById s.refugees id = some r) (ha : r.assignedCamp = none)
    (hc : findAvailableCamps s.camps ≠ [])
    (hf : filterByCapacity (findAvailableCamps s.camps) r.familyMembers = []) :
    assignRefugeeToNearestCamp E s (some id)
      = (s, Response.failure 404 "No camps with sufficient capacity found") := by
  simp [assignRefugeeToNearestCamp, h, ha, hc, hf]

/-- With a non-empty candidate list the controller answers by the result of
`findNearestCamp` on it: status 500 with nothing written when that is `null`,
and the committed assignment otherwise. -/
theorem assign_nearest {D : Type} [LinearOrder D] (E : Env D) (s : State) (id : Nat)
    (r : Refugee) (h : findRefugeeById s.refugees id = some r) (ha : r.assignedCamp = none)
    (hf : filterByCapacity (findAvailableCamps s.camps) r.familyMembers ≠ []) :
    assignRefugeeToNearestCamp E s (some id)
      = match findNearestCamp E r.latitude r.longitude
            (filterByCapacity (findAvailableCamps s.camps) r.familyMembers) with
        | none => (s, Response.failure 500 "Cannot read properties of null")
        | some nearestCamp =>
          ((commitAssignment s r nearestCamp).1,
            Response.assigned 200 "Refugee successfully assigned to camp"
              (commitAssignment s r nearestCamp).2 (some nearestCamp)) := by
  have hc0 : findAvailableCamps s.camps ≠ [] := by
    intro h0; apply hf; simp [filterByCapacity, h0]
  simp [assignRefugeeToNearestCamp, h, ha, hc0, hf]

theorem assign_ok {D : Type} [LinearOrder D] (E : Env D) (s : State) (id : Nat)
    (r : Refugee) (h : findRefugeeById s.refugees id = some r) (ha : r.assignedCamp = none)
    (hf : filterByCapacity (findAvailableCamps s.camps) r.familyMembers ≠ []) :
    (findNearestCamp E r.latitude r.longitude
          (filterByCapacity (findAvailableCamps s.camps) r.familyMembers) = none ∧
        assignRefugeeToNearestCamp E s (some id)
          = (s, Response.failure 500 "Cannot read properties of null")) ∨
    ∃ c ∈ filterByCapacity (findAvailableCamps s.camps) r.familyMembers,
      findNearestCamp E r.latitude r.longitude
          (filterByCapacity (findAvailableCamps s.camps) r.familyMembers)
        = some (withDistance E r.latitude r.longitude c) ∧
      assignRefugeeToNearestCamp E s (some id)
        = ((commitAssignment s r (withDistance E r.latitude r.longitude c)).1,
            Response.assigned 200 "Refugee successfully assigned to camp"
              (commitAssignment s r (withDistance E r.latitude r.longitude c)).2
              (some (withDistance E r.latitude r.longitude c))) := by
  have hres := assign_nearest E s id r h ha hf
  rcases findNearestCamp_none_or_mem E r.latitude r.longitude
      (filterByCapacity (findAvailableCamps s.camps) r.familyMembers) with hn | ⟨c, hc, hn⟩
  · rw [hn] at hres
    exact Or.inl ⟨hn, hres⟩
  · rw [hn] at hres
    exact Or.inr ⟨c, hc, hn, hres⟩

/-! ## Occupancy bounds -/

/-- C1. Serving `createCamp` (capacity 10, default occupancy) and then
`registerAndAssignRefugee` with `familyMembers = -3` from the empty store
leaves the camp with `currentOccupancy = -3`: the family passes the capacity
filter (10 - 0 >= -3) and the increment is applied without validation, so the
bound `0 <= currentOccupancy` does not hold in this reachable state. -/
theorem occupancy_negative_after_negative_family :
    (run scenarioEnv State.empty negativeFamilyRequests).camps.map
        (fun c => (c.capacity, c.currentOccupancy)) = [(10, -3)] ∧
      ∃ c ∈ (run scenarioEnv State.empty negativeFamilyRequests).camps,
        c.currentOccupancy < 0 := by
  have h : (run scenarioEnv State.empty negativeFamilyRequests).camps
      = [{ _id := 0, latitude := 0, longitude := 0, capacity := 10, currentOccupancy := -3,
           connectedCamps := [], status := CampStatus.Active }] := by
    rfl
  rw [h]
  exact ⟨rfl, _, List.mem_singleton.mpr rfl, by decide⟩

/-! ## Store lemmas -/

theorem findRefugeeById_id (refugees : List Refugee) (id : Nat) (r : Refugee)
    (h : findRefugeeById refugees id = some r) : r._id = id := by
  have := List.find?_some h
  simpa using this

theorem findRefugeeById_mem (refugees : List Refugee) (id : Nat) (r : Refugee)
    (h : findRefugeeById refugees id = some r) : r ∈ refugees :=
  List.mem_of_find?_eq_some h

theorem findRefugeeById_saveRefugee (refugees : List Refugee) (id : Nat) (r x : Refugee)
    (h : findRefugeeById refugees id = some r) (hx : x._id = id) :
    findRefugeeById (saveRefugee refugees x) id = some x := by
  induction refugees with
  | nil => simp [findRefugeeById] at h
  | cons a l ih =>
    simp only [findRefugeeById, saveRefugee, List.map_cons, List.find?_cons] at h ih ⊢
    by_cases ha : a._id = id
    · have hax : a._id = x._id := by rw [hx]; exact ha
      simp [hax, hx]
    · have hax : ¬ a._id = x._id := by rw [hx]; exact ha
      have hb : (a._id == id) = false := by simpa using ha
      simp only [if_neg hax, hb] at h ⊢
      exact ih h

theorem findCampById_incOccupancy (camps : List Camp) (campId id : Nat) (delta : Int) :
    findCampById (incOccupancy camps campId delta) id
      = (findCampById camps id).map (fun c =>
          if c._id = campId then { c with currentOccupancy := c.currentOccupancy + delta }
          else c) := by
  induction camps with
  | nil => rfl
  | cons a l ih =>
    simp only [findCampById, incOccupancy, List.map_cons, List.find?_cons] at ih ⊢
    by_cases ha : a._id = id
    · have hb : (a._id == id) = true := by simpa using ha
      by_cases hc : a._id = campId
      · simp only [if_pos hc, hb, Option.map_some']
      · simp only [if_neg hc, hb, Option.map_some']
    · have hb : (a._id == id) = false := by simpa using ha
      by_cases hc : a._id = campId
      · simp only [if_pos hc, hb]
        exact ih
      · simp only [if_neg hc, hb]
        exact ih

/-- The increment touches the occupancy of the addressed camp only. -/
theorem occupancyOf_incOccupancy (camps : List Camp) (campId id : Nat) (delta : Int) :
    occupancyOf (incOccupancy camps campId delta) id
      = if id = campId then (occupancyOf camps id).map (fun o => o + delta)
        else occupancyOf camps id := by
  unfold occupancyOf
  rw [findCampById_incOccupancy]
  cases hf : findCampById camps id with
  | none => simp
  | some c =>
    have hid : c._id = id := by
      have := List.find?_some hf
      simpa using this
    by_cases h : id = campId
    · simp [h, hid ▸ h]
    · have : ¬ c._id = campId := by rw [hid]; exact h
      simp [h, this]

theorem mem_incOccupancy (camps : List Camp) (c : Camp) (delta : Int) (h : c ∈ camps) :
    { c with currentOccupancy := c.currentOccupancy + delta }
      ∈ incOccupancy camps c._id delta := by
  unfold incOccupancy
  exact List.mem_map.mpr ⟨c, h, by simp⟩

theorem mem_findAvailableCamps (camps : List Camp) (c : Camp) :
    c ∈ findAvailableCamps camps ↔
      c ∈ camps ∧ c.currentOccupancy < c.capacity ∧
        (c.status = CampStatus.Active ∨ c.status = CampStatus.Emergency) := by
  simp [findAvailableCamps]

theorem mem_filterByCapacity (camps : List Camp) (familyMembers : Int) (c : Camp) :
    c ∈ filterByCapacity camps familyMembers ↔
      c ∈ camps ∧ familyMembers ≤ c.capacity - c.currentOccupancy := by
  simp [filterByCapacity]

theorem mem_eligibleCamps (camps : List Camp) (familyMembers : Int) (c : Camp) :
    c ∈ eligibleCamps camps familyMembers ↔ c ∈ camps ∧ Eligible familyMembers c := by
  simp [eligibleCamps]

/-! ## Assignment -/

/-- C4. For every camp list and every existing, unassigned refugee with
`familyMembers >= 1`, the candidate list built by `assignRefugeeToNearestCamp`
is exactly the sublist, in repository order, of the camps with status Active
or Emergency and `capacity - currentOccupancy >= familyMembers`; and when that
sublist is non-empty it is the list handed to `findNearestCamp`: the answer of
the controller is determined by the result of `findNearestCamp` on it (the
assignment to the camp returned, or status 500 if `null` is returned). -/
theorem assign_candidates_are_eligible {D : Type} [LinearOrder D] (E : Env D) (s : State)
    (id : Nat) (r : Refugee) (hr : findRefugeeById s.refugees id = some r)
    (ha : r.assignedCamp = none) (hfm : 1 ≤ r.familyMembers) :
    filterByCapacity (findAvailableCamps s.camps) r.familyMembers
        = s.camps.filter (fun camp =>
            decide ((camp.status = CampStatus.Active ∨ camp.status = CampStatus.Emergency) ∧
              camp.capacity - camp.currentOccupancy ≥ r.familyMembers)) ∧
      (s.camps.filter (fun camp =>
            decide ((camp.status = CampStatus.Active ∨ camp.status = CampStatus.Emergency) ∧
              camp.capacity - camp.currentOccupancy ≥ r.familyMembers)) ≠ [] →
        assignRefugeeToNearestCamp E s (some id)
          = match findNearestCamp E r.latitude r.longitude
                (s.camps.filter (fun camp =>
                  decide ((camp.status = CampStatus.Active ∨
                      camp.status = CampStatus.Emergency) ∧
                    camp.capacity - camp.currentOccupancy ≥ r.familyMembers))) with
            | none => (s, Response.failure 500 "Cannot read properties of null")
            | some nearestCamp =>
              ((commitAssignment s r nearestCamp).1,
                Response.assigned 200 "Refugee successfully assigned to camp"
                  (commitAssignment s r nearestCamp).2 (some nearestCamp))) := by
  have heq : filterByCapacity (findAvailableCamps s.camps) r.familyMembers
      = s.camps.filter (fun camp =>
          decide ((camp.status = CampStatus.Active ∨ camp.status = CampStatus.Emergency) ∧
            camp.capacity - camp.currentOccupancy ≥ r.familyMembers)) :=
    filterByCapacity_findAvailableCamps s.camps r.familyMembers hfm
  refine ⟨heq, ?_⟩
  intro hne
  rw [← heq] at hne ⊢
  exact assign_nearest E s id r hr ha hne

/-- The witness of C4: a store with camp X, a camp that holds 9 of 10, an
inactive camp, a full camp still marked Active, and camp Y; for a family of
two the candidate list is [X, Y]. -/
theorem assign_candidates_are_eligible_witness :
    findRefugeeById mixedCampState.refugees 5 = some (pendingRefugee 5 2) ∧
      filterByCapacity (findAvailableCamps mixedCampState.camps) 2 = [campX, campY] ∧
      mixedCampState.camps.length = 5 := by
  have h := assign_candidates_are_eligible scenarioEnv mixedCampState 5 (pendingRefugee 5 2)
    rfl rfl (by decide)
  exact ⟨rfl, h.1.trans (by decide), rfl⟩

/-- C5. For every state and every request to `assignRefugeeToNearestCamp`,
if the controller answers with a failure (no refugee id, refugee not found,
already assigned, no camps available, no sufficient capacity), the whole store
is unchanged: every camp keeps its `currentOccupancy` and every refugee its
`assignedCamp` and `status`. -/
theorem assign_failure_leaves_state {D : Type} [LinearOrder D] (E : Env D) (s : State)
    (refugeeId : Option Nat)
    (h : (assignRefugeeToNearestCamp E s refugeeId).2.success = false) :
    (assignRefugeeToNearestCamp E s refugeeId).1 = s := by
  cases refugeeId with
  | none => rfl
  | some id =>
    cases hr : findRefugeeById s.refugees id with
    | none => rw [assign_not_found E s id hr]
    | some r =>
      by_cases ha : r.assignedCamp = none
      · by_cases hc : findAvailableCamps s.camps = []
        · rw [assign_no_camps E s id r hr ha hc]
        · by_cases hf : filterByCapacity (findAvailableCamps s.camps) r.familyMembers = []
          · rw [assign_no_capacity E s id r hr ha hc hf]
          · rcases assign_ok E s id r hr ha hf with ⟨-, hres⟩ | ⟨c, -, -, hres⟩
            · rw [hres]
            · rw [hres] at h
              simp [Response.success] at h
      · rw [assign_already_assigned E s id r hr ha]

/-- The witness of C5: one camp with capacity 10 and occupancy 8, a refugee
with `familyMembers = 3`; the call fails with the no-sufficient-capacity error
and the occupancy stays 8. -/
theorem assign_failure_leaves_state_witness :
    (assignRefugeeToNearestCamp scenarioEnv nearlyFullState (some 1)).2
        = Response.failure 404 "No camps with sufficient capacity found" ∧
      (assignRefugeeToNearestCamp scenarioEnv nearlyFullState (some 1)).1 = nearlyFullState ∧
      occupancyOf (assignRefugeeToNearestCamp scenarioEnv nearlyFullState (some 1)).1.camps 0
        = some 8 := by
  have h := assign_failure_leaves_state scenarioEnv nearlyFullState (some 1) rfl
  exact ⟨rfl, h, by rw [h]; rfl⟩

/-- C7. Whenever the refugee's `assignedCamp` is set,
`assignRefugeeToNearestCamp` answers 'Refugee already assigned to a camp' and
leaves the store unchanged; consequently, after a successful assignment a
second call for the same refugee is refused and leaves the store exactly as
the first call left it (the chosen camp is incremented once and stays the
refugee's camp). -/
theorem assign_refuses_assigned {D : Type} [LinearOrder D] (E : Env D) (s : State)
    (id : Nat) (r : Refugee) (hr : findRefugeeById s.refugees id = some r) :
    (r.assignedCamp ≠ none →
        assignRefugeeToNearestCamp E s (some id)
          = (s, Response.failure 400 "Refugee already assigned to a camp")) ∧
      ((assignRefugeeToNearestCamp E s (some id)).2.success = true →
        assignRefugeeToNearestCamp E (assignRefugeeToNearestCamp E s (some id)).1 (some id)
          = ((assignRefugeeToNearestCamp E s (some id)).1,
              Response.failure 400 "Refugee already assigned to a camp")) := by
  refine ⟨fun ha => assign_already_assigned E s id r hr ha, ?_⟩
  intro hs
  by_cases ha : r.assignedCamp = none
  · by_cases hf : filterByCapacity (findAvailableCamps s.camps) r.familyMembers = []
    · exfalso
      by_cases hc : findAvailableCamps s.camps = []
      · rw [assign_no_camps E s id r hr ha hc] at hs
        simp [Response.success] at hs
      · rw [assign_no_capacity E s id r hr ha hc hf] at hs
        simp [Response.success] at hs
    · rcases assign_ok E s id r hr ha hf with ⟨-, hres⟩ | ⟨c, -, -, hres⟩
      · rw [hres] at hs
        simp [Response.success] at hs
      · rw [hres]
        apply assign_already_assigned E _ id
          { r with assignedCamp := some c._id, status := RefugeeStatus.Assigned }
        · exact findRefugeeById_saveRefugee s.refugees id r _ hr (findRefugeeById_id _ _ r hr)
        · simp
  · rw [assign_already_assigned E s id r hr ha] at hs ⊢
    exact assign_already_assigned E s id r hr ha

/-! ## The haversine instance -/

/-- The function `calculateDistance` in terms of its haversine term. -/
theorem calculateDistance_eq (lat1 lon1 lat2 lon2 : ℝ) :
    calculateDistance lat1 lon1 lat2 lon2
      = 6371 * (2 * atan2 (Real.sqrt (haversineTerm lat1 lon1 lat2 lon2))
          (Real.sqrt (1 - haversineTerm lat1 lon1 lat2 lon2))) := rfl

theorem atan2_sqrt_eq_arcsin (a : ℝ) (h0 : 0 ≤ a) (h1 : a ≤ 1) :
    atan2 (Real.sqrt a) (Real.sqrt (1 - a)) = Real.arcsin (Real.sqrt a) := by
  unfold atan2
  rw [Complex.arg_of_re_nonneg (by simp)]
  have habs : Complex.abs ⟨Real.sqrt (1 - a), Real.sqrt a⟩ = 1 := by
    rw [Complex.abs_apply, Complex.normSq_mk, Real.mul_self_sqrt (by linarith),
      Real.mul_self_sqrt h0]
    simp
  rw [habs]
  simp

theorem haversineTerm_eq (lat1 lon1 lat2 lon2 : ℝ) :
    haversineTerm lat1 lon1 lat2 lon2
      = (1 - (Real.sin (toRad lat1) * Real.sin (toRad lat2)
          + Real.cos (toRad lat1) * Real.cos (toRad lat2) * Real.cos (toRad (lon2 - lon1)))) / 2 := by
  have hsub : toRad (lat2 - lat1) = toRad lat2 - toRad lat1 := by unfold toRad; ring
  have h1 : Real.sin (toRad (lat2 - lat1) / 2) * Real.sin (toRad (lat2 - lat1) / 2)
      = (1 - Real.cos (toRad (lat2 - lat1))) / 2 := by
    have h := Real.sin_sq_eq_half_sub (toRad (lat2 - lat1) / 2)
    rw [mul_div_cancel₀ _ (two_ne_zero)] at h
    rw [← sq, h]; ring
  have h2 : Real.sin (toRad (lon2 - lon1) / 2) * Real.sin (toRad (lon2 - lon1) / 2)
      = (1 - Real.cos (toRad (lon2 - lon1))) / 2 := by
    have h := Real.sin_sq_eq_half_sub (toRad (lon2 - lon1) / 2)
    rw [mul_div_cancel₀ _ (two_ne_zero)] at h
    rw [← sq, h]; ring
  unfold haversineTerm
  rw [mul_assoc (Real.cos (toRad lat1) * Real.cos (toRad lat2)), h1, h2, hsub, Real.cos_sub]
  ring

theorem haversineTerm_nonneg (lat1 lon1 lat2 lon2 : ℝ) :
    0 ≤ haversineTerm lat1 lon1 lat2 lon2 := by
  rw [haversineTerm_eq]
  have hs1 := Real.sin_sq_add_cos_sq (toRad lat1)
  have hs2 := Real.sin_sq_add_cos_sq (toRad lat2)
  have hk := Real.cos_le_one (toRad (lon2 - lon1))
  have hk' := Real.neg_one_le_cos (toRad (lon2 - lon1))
  nlinarith [sq_nonneg (Real.sin (toRad lat1) - Real.sin (toRad lat2)),
    sq_nonneg (Real.cos (toRad lat1) - Real.cos (toRad lat2)),
    sq_nonneg (Real.cos (toRad lat1) + Real.cos (toRad lat2)),
    sq_nonneg (Real.cos (toRad lat1)), sq_nonneg (Real.cos (toRad lat2)),
    mul_nonneg (sub_nonneg.mpr hk) (sq_nonneg (Real.cos (toRad lat1) + Real.cos (toRad lat2))),
    mul_nonneg (sub_nonneg.mpr hk) (sq_nonneg (Real.cos (toRad lat1) - Real.cos (toRad lat2))),
    mul_nonneg (sub_nonneg.mpr hk') (sq_nonneg (Real.cos (toRad lat1) + Real.cos (toRad lat2))),
    mul_nonneg (sub_nonneg.mpr hk') (sq_nonneg (Real.cos (toRad lat1) - Real.cos (toRad lat2)))]

theorem haversineTerm_le_one (lat1 lon1 lat2 lon2 : ℝ) :
    haversineTerm lat1 lon1 lat2 lon2 ≤ 1 := by
  rw [haversineTerm_eq]
  have hs1 := Real.sin_sq_add_cos_sq (toRad lat1)
  have hs2 := Real.sin_sq_add_cos_sq (toRad lat2)
  have hk := Real.cos_le_one (toRad (lon2 - lon1))
  have hk' := Real.neg_one_le_cos (toRad (lon2 - lon1))
  nlinarith [sq_nonneg (Real.sin (toRad lat1) + Real.sin (toRad lat2)),
    sq_nonneg (Real.cos (toRad lat1) - Real.cos (toRad lat2)),
    sq_nonneg (Real.cos (toRad lat1) + Real.cos (toRad lat2)),
    mul_nonneg (sub_nonneg.mpr hk) (sq_nonneg (Real.cos (toRad lat1) + Real.cos (toRad lat2))),
    mul_nonneg (sub_nonneg.mpr hk) (sq_nonneg (Real.cos (toRad lat1) - Real.cos (toRad lat2))),
    mul_nonneg (sub_nonneg.mpr hk') (sq_nonneg (Real.cos (toRad lat1) + Real.cos (toRad lat2))),
    mul_nonneg (sub_nonneg.mpr hk') (sq_nonneg (Real.cos (toRad lat1) - Real.cos (toRad lat2)))]

theorem calculateDistance_mono (p1 q1 p2 q2 r1 s1 r2 s2 : ℝ)
    (h : haversineTerm p1 q1 p2 q2 ≤ haversineTerm r1 s1 r2 s2) :
    calculateDistance p1 q1 p2 q2 ≤ calculateDistance r1 s1 r2 s2 := by
  rw [calculateDistance_eq, calculateDistance_eq,
    atan2_sqrt_eq_arcsin _ (haversineTerm_nonneg _ _ _ _) (haversineTerm_le_one _ _ _ _),
    atan2_sqrt_eq_arcsin _ (haversineTerm_nonneg _ _ _ _) (haversineTerm_le_one _ _ _ _)]
  have := Real.monotone_arcsin (Real.sqrt_le_sqrt h)
  linarith

theorem sin_mul_self_le (x : ℝ) : Real.sin x * Real.sin x ≤ x * x := by
  have h := Real.sin_sq_le_sq (x := x)
  nlinarith [h]

/-- The haversine term between (0.01, 0.01) and camp X at (0, 0) is at most
one millionth. -/
theorem haversineTerm_near : haversineTerm (1/100) (1/100) 0 0 ≤ 1 / 1000000 := by
  have hpi3 := Real.pi_gt_three
  have hpi4 := Real.pi_le_four
  have hpos := Real.pi_pos
  unfold haversineTerm
  set u : ℝ := toRad (0 - 1/100) / 2 with hu
  have hsq : Real.sin u * Real.sin u ≤ u * u := sin_mul_self_le u
  have hsq0 : 0 ≤ Real.sin u * Real.sin u := mul_self_nonneg _
  have huu : u * u ≤ 1 / 2000000 := by
    rw [hu]; unfold toRad
    nlinarith
  have hc1 : Real.cos (toRad (1/100)) * Real.cos (toRad 0) ≤ 1 := by
    have a1 := Real.cos_le_one (toRad (1/100))
    have a2 := Real.cos_le_one (toRad 0)
    have b1 := Real.neg_one_le_cos (toRad (1/100))
    have b2 := Real.neg_one_le_cos (toRad 0)
    nlinarith
  have : Real.cos (toRad (1/100)) * Real.cos (toRad 0) * Real.sin u * Real.sin u
      ≤ Real.sin u * Real.sin u := by
    rw [mul_assoc]
    nlinarith
  linarith

/-- The haversine term between (0.01, 0.01) and camp Y at (10, 10) is at
least one thousandth. -/
theorem haversineTerm_far : (1 : ℝ) / 1000 ≤ haversineTerm (1/100) (1/100) 10 10 := by
  have hpi3 := Real.pi_gt_three
  have hpi4 := Real.pi_le_four
  have hpos := Real.pi_pos
  unfold haversineTerm
  set v : ℝ := toRad (10 - 1/100) / 2 with hv
  have hv0 : 0 ≤ v := by rw [hv]; unfold toRad; positivity
  have hv1 : v ≤ Real.pi / 2 := by rw [hv]; unfold toRad; nlinarith
  have hsin : 2 / Real.pi * v ≤ Real.sin v := Real.mul_le_sin hv0 hv1
  have hval : 2 / Real.pi * v = 999 / 18000 := by
    rw [hv]; unfold toRad; field_simp; ring
  rw [hval] at hsin
  have hsq : (1 : ℝ) / 1000 ≤ Real.sin v * Real.sin v := by nlinarith
  have hc1 : 0 ≤ Real.cos (toRad (1/100)) := by
    apply Real.cos_nonneg_of_neg_pi_div_two_le_of_le <;> unfold toRad <;> nlinarith
  have hc2 : 0 ≤ Real.cos (toRad 10) := by
    apply Real.cos_nonneg_of_neg_pi_div_two_le_of_le <;> unfold toRad <;> nlinarith
  have : 0 ≤ Real.cos (toRad (1/100)) * Real.cos (toRad 10) * Real.sin v * Real.sin v := by
    rw [mul_assoc]
    exact mul_nonneg (mul_nonneg hc1 hc2) (mul_self_nonneg _)
  linarith

theorem haversineTerm_scenario :
    haversineTerm (1/100) (1/100) 0 0 ≤ haversineTerm (1/100) (1/100) 10 10 := by
  have hu := haversineTerm_near
  have hl := haversineTerm_far
  linarith

/-- In the environment of exact arithmetic every distance is a number: the
real haversine distance. -/
theorem distanceTo_realEnv (geocodeAddress : String → Except String Location) (lat lon : ℚ)
    (camp : Camp) :
    distanceTo (realEnv geocodeAddress) lat lon camp
      = some (calculateDistance lat lon camp.latitude camp.longitude) := rfl

/-- In the two-camp scenario camp X (about 1.5 km away) is not farther from
the refugee than camp Y (about 1500 km away). -/
theorem distance_campX_le_campY :
    calculateDistance ((1 / 100 : ℚ) : ℝ) ((1 / 100 : ℚ) : ℝ) (campX.latitude : ℝ)
        (campX.longitude : ℝ)
      ≤ calculateDistance ((1 / 100 : ℚ) : ℝ) ((1 / 100 : ℚ) : ℝ) (campY.latitude : ℝ)
        (campY.longitude : ℝ) := by
  have h := calculateDistance_mono (1/100) (1/100) 0 0 (1/100) (1/100) 10 10
    haversineTerm_scenario
  simpa [campX, campY] using h

/-- In the two-camp scenario `findNearestCamp` selects camp X. -/
theorem findNearestCamp_twoCamp :
    findNearestCamp scenarioEnv (1 / 100) (1 / 100) [campX, campY]
      = some (withDistance scenarioEnv (1 / 100) (1 / 100) campX) := by
  apply findNearestCamp_of_first_minimum scenarioEnv (1 / 100) (1 / 100) [] [campY] campX _
    (distanceTo_realEnv geocodeFixed (1 / 100) (1 / 100) campX)
  · intro x hx
    simp at hx
  · intro x hx dx hdx
    rw [List.mem_singleton.mp hx] at hdx
    have hy : distanceTo scenarioEnv (1 / 100) (1 / 100) campY = _ :=
      distanceTo_realEnv geocodeFixed (1 / 100) (1 / 100) campY
    rw [hdx] at hy
    cases hy
    exact distance_campX_le_campY

/-- The outcome of `assignRefugeeToNearestCamp` in the two-camp scenario. -/
theorem assign_twoCamp :
    assignRefugeeToNearestCamp scenarioEnv twoCampState (some 2)
      = ({ camps := [{ campX with currentOccupancy := 2 }, campY]
           refugees := [{ pendingRefugee 2 2 with
                            assignedCamp := some 0, status := RefugeeStatus.Assigned }]
           nextId := 3 },
          Response.assigned 200 "Refugee successfully assigned to camp"
            { pendingRefugee 2 2 with assignedCamp := some 0, status := RefugeeStatus.Assigned }
            (some (withDistance scenarioEnv (1 / 100) (1 / 100) campX))) := by
  have hl : filterByCapacity (findAvailableCamps twoCampState.camps)
      (pendingRefugee 2 2).familyMembers = [campX, campY] := rfl
  have hne : filterByCapacity (findAvailableCamps twoCampState.camps)
      (pendingRefugee 2 2).familyMembers ≠ [] := by rw [hl]; simp
  have hres := assign_nearest scenarioEnv twoCampState 2 (pendingRefugee 2 2) rfl rfl hne
  rw [hl] at hres
  have hn : findNearestCamp scenarioEnv (pendingRefugee 2 2).latitude
      (pendingRefugee 2 2).longitude [campX, campY]
        = some (withDistance scenarioEnv (1 / 100) (1 / 100) campX) := findNearestCamp_twoCamp
  rw [hn] at hres
  rw [hres]
  rfl

/-! ## Outcomes of `assignRefugeeToNearestCamp` -/

/-- The state reached by `fullCampRequests`: the only camp is full and still
Active, the second family is pending. -/
theorem run_fullCampRequests (familyMembers : Int) :
    run scenarioEnv State.empty (fullCampRequests familyMembers)
      = { camps := [{ _id := 0, latitude := 0, longitude := 0, capacity := 1,
                      currentOccupancy := 1, connectedCamps := [],
                      status := CampStatus.Active }]
          refugees := [{ _id := 1, latitude := 1 / 100, longitude := 1 / 100,
                         assignedCamp := some 0, familyMembers := 1,
                         status := RefugeeStatus.Assigned },
                       pendingRefugee 2 familyMembers]
          nextId := 3 } := rfl

/-- The counterexample of C2: in the state reached by filling a camp of
capacity one and registering a family of size zero, the refugee exists and is
unassigned and the camp is eligible in the words of the specification
(Active, 1 - 1 >= 0), yet `assignRefugeeToNearestCamp` fails with
'No available camps found'. -/
theorem assign_fails_for_empty_family :
    findRefugeeById (run scenarioEnv State.empty (fullCampRequests 0)).refugees 2
        = some (pendingRefugee 2 0) ∧
      (pendingRefugee 2 0).assignedCamp = none ∧
      (∃ c ∈ (run scenarioEnv State.empty (fullCampRequests 0)).camps,
        Eligible (pendingRefugee 2 0).familyMembers c) ∧
      (assignRefugeeToNearestCamp scenarioEnv
          (run scenarioEnv State.empty (fullCampRequests 0)) (some 2)).2
        = Response.failure 404 "No available camps found" := by
  rw [run_fullCampRequests]
  refine ⟨rfl, rfl, ⟨_, List.mem_singleton.mpr rfl, ?_⟩, rfl⟩
  exact ⟨Or.inl rfl, by decide⟩

/-- C2, amended. For every state in which the refugee exists, has
`assignedCamp = null` and `familyMembers >= 1`, and at least one camp is
eligible and at a distance from the refugee that is a number (not NaN),
`assignRefugeeToNearestCamp` succeeds with the camp that `findNearestCamp`
selects among the eligible camps; in the resulting state the
refugee is stored with `assignedCamp` equal to that camp's id and status
Assigned, the occupancy stored under that id is its old value plus
`familyMembers` (the selected camp document is in the store with its occupancy
so increased), and the occupancy of every other id is unchanged. -/
theorem assign_success_postcondition {D : Type} [LinearOrder D] (E : Env D) (s : State)
    (id : Nat) (r : Refugee) (hr : findRefugeeById s.refugees id = some r)
    (ha : r.assignedCamp = none) (hfm : 1 ≤ r.familyMembers)
    (he : ∃ c ∈ s.camps, Eligible r.familyMembers c ∧
      distanceTo E r.latitude r.longitude c ≠ none) :
    ∃ sel ∈ eligibleCamps s.camps r.familyMembers,
      findNearestCamp E r.latitude r.longitude (eligibleCamps s.camps r.familyMembers)
        = some (withDistance E r.latitude r.longitude sel) ∧
      (assignRefugeeToNearestCamp E s (some id)).2
        = Response.assigned 200 "Refugee successfully assigned to camp"
            { r with assignedCamp := some sel._id, status := RefugeeStatus.Assigned }
            (some (withDistance E r.latitude r.longitude sel)) ∧
      findRefugeeById (assignRefugeeToNearestCamp E s (some id)).1.refugees id
        = some { r with assignedCamp := some sel._id, status := RefugeeStatus.Assigned } ∧
      occupancyOf (assignRefugeeToNearestCamp E s (some id)).1.camps sel._id
        = (occupancyOf s.camps sel._id).map (fun o => o + r.familyMembers) ∧
      { sel with currentOccupancy := sel.currentOccupancy + r.familyMembers }
        ∈ (assignRefugeeToNearestCamp E s (some id)).1.camps ∧
      ∀ other, other ≠ sel._id →
        occupancyOf (assignRefugeeToNearestCamp E s (some id)).1.camps other
          = occupancyOf s.camps other := by
  have heq := filterByCapacity_findAvailableCamps s.camps r.familyMembers hfm
  obtain ⟨c0, hc0, hel0, hd0⟩ := he
  have hmem0 : c0 ∈ filterByCapacity (findAvailableCamps s.camps) r.familyMembers := by
    rw [heq]
    exact (mem_eligibleCamps _ _ _).mpr ⟨hc0, hel0⟩
  have hne : filterByCapacity (findAvailableCamps s.camps) r.familyMembers ≠ [] :=
    List.ne_nil_of_mem hmem0
  obtain ⟨sel, hsel, hn⟩ := findNearestCamp_eq_some E r.latitude r.longitude
    (filterByCapacity (findAvailableCamps s.camps) r.familyMembers) ⟨c0, hmem0, hd0⟩
  have hres := assign_nearest E s id r hr ha hne
  rw [hn] at hres
  rw [heq] at hsel hn
  refine ⟨sel, hsel, hn, ?_, ?_, ?_, ?_, ?_⟩
  · rw [hres]; rfl
  · rw [hres]
    exact findRefugeeById_saveRefugee s.refugees id r _ hr (findRefugeeById_id _ _ r hr)
  · rw [hres]
    have := occupancyOf_incOccupancy s.camps sel._id sel._id r.familyMembers
    simpa [commitAssignment, withDistance] using this
  · rw [hres]
    exact mem_incOccupancy s.camps sel r.familyMembers ((mem_eligibleCamps _ _ _).mp hsel).1
  · intro other hother
    rw [hres]
    have := occupancyOf_incOccupancy s.camps sel._id other r.familyMembers
    simpa [commitAssignment, withDistance, hother] using this

/-- The witness of C2: camps X(0,0) and Y(10,10), both of capacity 10 and
empty, and a refugee at (0.01, 0.01) with `familyMembers = 2`; X is selected,
its occupancy becomes 2 and the refugee is Assigned to X. -/
theorem assign_success_postcondition_witness :
    (∃ sel ∈ eligibleCamps twoCampState.camps 2,
        findNearestCamp scenarioEnv (1 / 100) (1 / 100) (eligibleCamps twoCampState.camps 2)
          = some (withDistance scenarioEnv (1 / 100) (1 / 100) sel) ∧ sel = campX) ∧
      occupancyOf (assignRefugeeToNearestCamp scenarioEnv twoCampState (some 2)).1.camps 0
        = some 2 ∧
      findRefugeeById (assignRefugeeToNearestCamp scenarioEnv twoCampState (some 2)).1.refugees 2
        = some { pendingRefugee 2 2 with
                   assignedCamp := some 0, status := RefugeeStatus.Assigned } := by
  obtain ⟨sel, hsel, hn, -, hfind, hocc, -, -⟩ :=
    assign_success_postcondition scenarioEnv twoCampState 2 (pendingRefugee 2 2) rfl rfl
      (by decide) ⟨campX, by simp [twoCampState], ⟨Or.inl rfl, by decide⟩,
        by rw [show distanceTo scenarioEnv (pendingRefugee 2 2).latitude
            (pendingRefugee 2 2).longitude campX = some _ from rfl]; simp⟩
  have hn2 : findNearestCamp scenarioEnv (1 / 100) (1 / 100) [campX, campY]
      = some (withDistance scenarioEnv (1 / 100) (1 / 100) sel) := hn
  have hx : sel = campX := by
    rw [findNearestCamp_twoCamp] at hn2
    have := congrArg (fun o => o.map (fun n => n.camp)) hn2
    simpa [withDistance] using this.symm
  subst hx
  exact ⟨⟨campX, hsel, hn, rfl⟩, hocc.trans rfl, hfind⟩

/-- The witness of C7: in the two-camp scenario the first call assigns the
refugee to X, and the second call is refused and changes nothing (X holds 2). -/
theorem assign_refuses_assigned_witness :
    assignRefugeeToNearestCamp scenarioEnv
        (assignRefugeeToNearestCamp scenarioEnv twoCampState (some 2)).1 (some 2)
      = ((assignRefugeeToNearestCamp scenarioEnv twoCampState (some 2)).1,
          Response.failure 400 "Refugee already assigned to a camp") ∧
      occupancyOf (assignRefugeeToNearestCamp scenarioEnv twoCampState (some 2)).1.camps 0
        = some 2 := by
  have h := (assign_refuses_assigned scenarioEnv twoCampState 2 (pendingRefugee 2 2) rfl).2
    (by rw [assign_twoCamp]; rfl)
  refine ⟨h, ?_⟩
  rw [assign_twoCamp]
  rfl

theorem findAvailableCamps_eq_nil (camps : List Camp) :
    findAvailableCamps camps = [] ↔ ∀ c ∈ camps, ¬ Available c := by
  unfold findAvailableCamps Available
  rw [List.filter_eq_nil_iff]
  constructor
  · intro h c hc hav
    apply h c hc
    simp [hav.2, hav.1]
  · intro h c hc hdec
    apply h c hc
    simp only [Bool.and_eq_true, Bool.or_eq_true, decide_eq_true_eq] at hdec
    exact ⟨hdec.2, hdec.1⟩

theorem filterByCapacity_available_eq_nil (camps : List Camp) (familyMembers : Int) :
    filterByCapacity (findAvailableCamps camps) familyMembers = [] ↔
      ∀ c ∈ camps, Available c → ¬ c.capacity - c.currentOccupancy ≥ familyMembers := by
  unfold filterByCapacity
  rw [List.filter_eq_nil_iff]
  constructor
  · intro h c hc hav hcap
    apply h c ((mem_findAvailableCamps camps c).mpr ⟨hc, hav.2, hav.1⟩)
    simpa using hcap
  · intro h c hc hdec
    obtain ⟨hmem, hlt, hst⟩ := (mem_findAvailableCamps camps c).mp hc
    apply h c hmem ⟨hst, hlt⟩
    simpa using hdec

/-- The counterexample of C6: after a camp of capacity one has been filled it
is still stored with status Active, yet for a further unassigned refugee
`assignRefugeeToNearestCamp` answers 'No available camps found' and not
'No camps with sufficient capacity found'. -/
theorem no_camps_error_despite_active_camp :
    findRefugeeById (run scenarioEnv State.empty (fullCampRequests 1)).refugees 2
        = some (pendingRefugee 2 1) ∧
      (pendingRefugee 2 1).assignedCamp = none ∧
      (∃ c ∈ (run scenarioEnv State.empty (fullCampRequests 1)).camps,
        c.status = CampStatus.Active) ∧
      (assignRefugeeToNearestCamp scenarioEnv
          (run scenarioEnv State.empty (fullCampRequests 1)) (some 2)).2
        = Response.failure 404 "No available camps found" ∧
      (assignRefugeeToNearestCamp scenarioEnv
          (run scenarioEnv State.empty (fullCampRequests 1)) (some 2)).2
        ≠ Response.failure 404 "No camps with sufficient capacity found" := by
  rw [run_fullCampRequests]
  refine ⟨rfl, rfl, ⟨_, List.mem_singleton.mpr rfl, rfl⟩, rfl, ?_⟩
  intro h
  have h2 : (Response.failure 404 "No available camps found" : Response ℝ)
      = Response.failure 404 "No camps with sufficient capacity found" := h
  simp at h2

/-- C6, amended. For an existing, unassigned refugee,
`assignRefugeeToNearestCamp` answers 'No available camps found' if and only if
no camp has status Active or Emergency together with
`currentOccupancy < capacity`, and answers
'No camps with sufficient capacity found' if and only if at least one camp has
such a status and free space but none of those has
`capacity - currentOccupancy >= familyMembers`. -/
theorem assign_error_distinction {D : Type} [LinearOrder D] (E : Env D) (s : State)
    (id : Nat) (r : Refugee) (hr : findRefugeeById s.refugees id = some r)
    (ha : r.assignedCamp = none) :
    ((assignRefugeeToNearestCamp E s (some id)).2
        = Response.failure 404 "No available camps found" ↔
      ∀ c ∈ s.camps, ¬ Available c) ∧
    ((assignRefugeeToNearestCamp E s (some id)).2
        = Response.failure 404 "No camps with sufficient capacity found" ↔
      (∃ c ∈ s.camps, Available c) ∧
        ∀ c ∈ s.camps, Available c → ¬ c.capacity - c.currentOccupancy ≥ r.familyMembers) := by
  by_cases hc : findAvailableCamps s.camps = []
  · rw [assign_no_camps E s id r hr ha hc]
    have hnone := (findAvailableCamps_eq_nil s.camps).mp hc
    constructor
    · exact ⟨fun _ => hnone, fun _ => rfl⟩
    · constructor
      · intro h
        simp at h
      · rintro ⟨⟨c, hmem, hav⟩, -⟩
        exact absurd hav (hnone c hmem)
  · have hsome : ∃ c ∈ s.camps, Available c := by
      by_contra hno
      apply hc
      rw [findAvailableCamps_eq_nil]
      intro c hmem hav
      exact hno ⟨c, hmem, hav⟩
    have hnot : ¬ ∀ c ∈ s.camps, ¬ Available c := by
      intro hall
      obtain ⟨c, hmem, hav⟩ := hsome
      exact hall c hmem hav
    by_cases hf : filterByCapacity (findAvailableCamps s.camps) r.familyMembers = []
    · rw [assign_no_capacity E s id r hr ha hc hf]
      constructor
      · constructor
        · intro h
          simp at h
        · intro h
          exact absurd h hnot
      · exact ⟨fun _ => ⟨hsome, (filterByCapacity_available_eq_nil _ _).mp hf⟩, fun _ => rfl⟩
    · rcases assign_ok E s id r hr ha hf with ⟨-, hres⟩ | ⟨c, -, -, hres⟩
      all_goals
        rw [hres]
        constructor
        · constructor
          · intro h
            simp at h
          · intro h
            exact absurd h hnot
        · constructor
          · intro h
            simp at h
          · rintro ⟨-, hall⟩
            exact absurd ((filterByCapacity_available_eq_nil _ _).mpr hall) hf

/-- The witness of C6: with one camp holding 8 of 10 and a family of three the
answer is the no-sufficient-capacity error, and the camp is available. -/
theorem assign_error_distinction_witness :
    (assignRefugeeToNearestCamp scenarioEnv nearlyFullState (some 1)).2
        ≠ Response.failure 404 "No available camps found" ∧
      ((∃ c ∈ nearlyFullState.camps, Available c) ∧
        ∀ c ∈ nearlyFullState.camps, Available c →
          ¬ c.capacity - c.currentOccupancy ≥ (pendingRefugee 1 3).familyMembers) := by
  have h := assign_error_distinction scenarioEnv nearlyFullState 1 (pendingRefugee 1 3) rfl rfl
  refine ⟨?_, h.2.mp rfl⟩
  intro hno
  have hall := h.1.mp hno
  exact hall _ (List.mem_singleton.mpr rfl) ⟨Or.inl rfl, by decide⟩

/-! ## The controller `registerAndAssignRefugee`, case by case -/

theorem register_no_candidate {D : Type} [LinearOrder D] (E : Env D) (s : State)
    (body : RefugeeBody) (address : String) (location : Location)
    (haddr : body.address = some address) (hne : address ≠ "")
    (hgeo : E.geocodeAddress address = Except.ok location)
    (hf : filterByCapacity (findAvailableCamps s.camps) (body.familyMembers.getD 1) = []) :
    registerAndAssignRefugee E s body
      = (afterCreate s (registeredRefugee s body location),
          Response.assigned 201 "Refugee registered but no available camps found"
            (registeredRefugee s body location) none) := by
  unfold registerAndAssignRefugee
  simp only [haddr, hne, if_false, hgeo]
  by_cases hc : (findAvailableCamps s.camps).length > 0
  · simp only [hc, if_true, hf, List.length_nil, gt_iff_lt, lt_self_iff_false, if_false]
    rfl
  · simp only [hc, if_false]
    rfl

theorem register_candidate {D : Type} [LinearOrder D] (E : Env D) (s : State)
    (body : RefugeeBody) (address : String) (location : Location)
    (haddr : body.address = some address) (hne : address ≠ "")
    (hgeo : E.geocodeAddress address = Except.ok location)
    (hf : filterByCapacity (findAvailableCamps s.camps) (body.familyMembers.getD 1) ≠ []) :
    registerAndAssignRefugee E s body
        = (afterCreate s (registeredRefugee s body location),
            Response.failure 400 "Cannot read properties of null") ∨
    ∃ c ∈ filterByCapacity (findAvailableCamps s.camps) (body.familyMembers.getD 1),
      registerAndAssignRefugee E s body
        = ((commitAssignment (afterCreate s (registeredRefugee s body location))
              (registeredRefugee s body location)
              (withDistance E location.latitude location.longitude c)).1,
            Response.assigned 201 "Refugee registered and assigned to nearest camp"
              (commitAssignment (afterCreate s (registeredRefugee s body location))
                (registeredRefugee s body location)
                (withDistance E location.latitude location.longitude c)).2
              (some (withDistance E location.latitude location.longitude c))) := by
  have hc0 : (findAvailableCamps s.camps).length > 0 := by
    apply List.length_pos.mpr
    intro h0; apply hf; simp [filterByCapacity, h0]
  have hf0 : (filterByCapacity (findAvailableCamps s.camps)
      (body.familyMembers.getD 1)).length > 0 := List.length_pos.mpr hf
  rcases findNearestCamp_none_or_mem E location.latitude location.longitude
      (filterByCapacity (findAvailableCamps s.camps) (body.familyMembers.getD 1))
    with hn | ⟨c, hc, hn⟩
  · left
    unfold registerAndAssignRefugee
    simp only [haddr, hne, if_false, hgeo, hc0, if_true, hf0, hn]
    rfl
  · right
    refine ⟨c, hc, ?_⟩
    unfold registerAndAssignRefugee
    simp only [haddr, hne, if_false, hgeo, hc0, if_true, hf0, hn]
    rfl

/-- A registration leaves the store unchanged, or inserts the new document
only, or inserts it and commits its assignment to some camp. -/
theorem register_state_cases {D : Type} [LinearOrder D] (E : Env D) (s : State)
    (body : RefugeeBody) :
    (registerAndAssignRefugee E s body).1 = s ∨
      ∃ location,
        (registerAndAssignRefugee E s body).1
            = afterCreate s (registeredRefugee s body location) ∨
          ∃ n : CampWithDistance D,
            (registerAndAssignRefugee E s body).1
              = (commitAssignment (afterCreate s (registeredRefugee s body location))
                  (registeredRefugee s body location) n).1 := by
  cases haddr : body.address with
  | none => left; simp [registerAndAssignRefugee, haddr]
  | some address =>
    by_cases hne : address = ""
    · left; simp [registerAndAssignRefugee, haddr, hne]
    · cases hgeo : E.geocodeAddress address with
      | error message => left; simp [registerAndAssignRefugee, haddr, hne, hgeo]
      | ok location =>
        right
        refine ⟨location, ?_⟩
        by_cases hf : filterByCapacity (findAvailableCamps s.camps)
            (body.familyMembers.getD 1) = []
        · left
          rw [register_no_candidate E s body address location haddr hne hgeo hf]
        · rcases register_candidate E s body address location haddr hne hgeo hf with
            hres | ⟨c, -, hres⟩
          · left
            rw [hres]
          · right
            exact ⟨_, by rw [hres]⟩

/-! ## The refugee invariant -/

theorem commitAssignment_refugeeInvariant {D : Type} (s : State) (refugee : Refugee)
    (n : CampWithDistance D) (hs : ∀ r ∈ s.refugees, RefugeeInvariant r) :
    ∀ r ∈ (commitAssignment s refugee n).1.refugees, RefugeeInvariant r := by
  intro r hr
  simp only [commitAssignment, saveRefugee, List.mem_map] at hr
  obtain ⟨x, hx, hxr⟩ := hr
  by_cases hid : x._id = refugee._id
  · rw [if_pos hid] at hxr
    rw [← hxr]
    simp [RefugeeInvariant]
  · rw [if_neg hid] at hxr
    rw [← hxr]
    exact hs x hx

theorem handle_refugeeInvariant {D : Type} [LinearOrder D] (E : Env D) (s : State)
    (q : Request) (hq : q.defaultsOnly) (hs : ∀ r ∈ s.refugees, RefugeeInvariant r) :
    ∀ r ∈ (handle E s q).1.refugees, RefugeeInvariant r := by
  cases q with
  | createCamp body =>
    simp only [handle, createCamp]
    split
    · exact hs
    · split
      · exact hs
      · split
        · exact hs
        · exact hs
  | registerAndAssignRefugee body =>
    simp only [handle]
    have hnew : ∀ location, ∀ r ∈ (afterCreate s (registeredRefugee s body location)).refugees,
        RefugeeInvariant r := by
      intro location r hr
      simp only [afterCreate, List.mem_append, List.mem_singleton] at hr
      rcases hr with hr | hr
      · exact hs r hr
      · rw [hr]
        simp [RefugeeInvariant, registeredRefugee, hq.1, hq.2]
    rcases register_state_cases E s body with h | ⟨location, h | ⟨n, h⟩⟩
    · rw [h]; exact hs
    · rw [h]; exact hnew location
    · rw [h]; exact commitAssignment_refugeeInvariant _ _ n (hnew location)
  | assignRefugeeToNearestCamp refugeeId =>
    simp only [handle]
    cases refugeeId with
    | none => exact hs
    | some id =>
      cases hr : findRefugeeById s.refugees id with
      | none => rw [assign_not_found E s id hr]; exact hs
      | some r =>
        by_cases ha : r.assignedCamp = none
        · by_cases hf : filterByCapacity (findAvailableCamps s.camps) r.familyMembers = []
          · by_cases hc : findAvailableCamps s.camps = []
            · rw [assign_no_camps E s id r hr ha hc]; exact hs
            · rw [assign_no_capacity E s id r hr ha hc hf]; exact hs
          · rcases assign_ok E s id r hr ha hf with ⟨-, hres⟩ | ⟨c, -, -, hres⟩
            · rw [hres]; exact hs
            · rw [hres]
              exact commitAssignment_refugeeInvariant _ _ _ hs
        · rw [assign_already_assigned E s id r hr ha]; exact hs
  | deleteRefugee id =>
    simp only [handle, deleteRefugee]
    split
    · exact hs
    · intro r hr
      simp only [deleteRefugeeDoc, List.mem_filter] at hr
      exact hs r hr.1

theorem run_refugeeInvariant {D : Type} [LinearOrder D] (E : Env D)
    (requests : List Request) (s : State) (hq : ∀ q ∈ requests, q.defaultsOnly)
    (hs : ∀ r ∈ s.refugees, RefugeeInvariant r) :
    ∀ r ∈ (run E s requests).refugees, RefugeeInvariant r := by
  induction requests generalizing s with
  | nil => exact hs
  | cons q rest ih =>
    simp only [run, List.foldl_cons]
    exact ih _ (fun x hx => hq x (List.mem_cons_of_mem _ hx))
      (handle_refugeeInvariant E s q (hq q (List.mem_cons_self _ _)) hs)

/-- The counterexample of C8: a registration whose payload carries
`status: 'Assigned'`, served on the empty store (no camp to assign), stores a
refugee with `assignedCamp = null` and status Assigned. -/
theorem refugee_invariant_broken_by_preset_status :
    ∃ r ∈ (run scenarioEnv State.empty
            [Request.registerAndAssignRefugee presetStatusBody]).refugees,
      r.assignedCamp = none ∧ r.status = RefugeeStatus.Assigned ∧ ¬ RefugeeInvariant r := by
  refine ⟨{ _id := 0, latitude := 1 / 100, longitude := 1 / 100, assignedCamp := none,
            familyMembers := 1, status := RefugeeStatus.Assigned }, ?_, rfl, rfl, ?_⟩
  · exact List.mem_singleton.mpr rfl
  · simp [RefugeeInvariant]

/-- C8, amended. In every state reachable from the empty store by any sequence
of `createCamp`, `registerAndAssignRefugee`, `assignRefugeeToNearestCamp` and
`deleteRefugee` in which the registration payloads leave `assignedCamp` and
`status` to their schema defaults, every refugee satisfies
`assignedCamp != null` if and only if `status = 'Assigned'`. -/
theorem refugee_invariant_reachable {D : Type} [LinearOrder D] (E : Env D)
    (requests : List Request) (hq : ∀ q ∈ requests, q.defaultsOnly) :
    ∀ r ∈ (run E State.empty requests).refugees, RefugeeInvariant r :=
  run_refugeeInvariant E requests State.empty hq (by simp [State.empty])

/-- The witness of C8: the requests that fill a camp and register one more
family keep the invariant (one refugee Assigned with a camp, one Pending
without). -/
theorem refugee_invariant_reachable_witness :
    (∀ q ∈ fullCampRequests 1, q.defaultsOnly) ∧
      ∀ r ∈ (run scenarioEnv State.empty (fullCampRequests 1)).refugees, RefugeeInvariant r := by
  have hq : ∀ q ∈ fullCampRequests 1, q.defaultsOnly := by
    intro q hq
    simp only [fullCampRequests, List.mem_cons, List.mem_singleton, List.not_mem_nil,
      or_false] at hq
    rcases hq with h | h | h <;> rw [h] <;> simp [Request.defaultsOnly, refugeeBody]
  exact ⟨hq, refugee_invariant_reachable scenarioEnv (fullCampRequests 1) hq⟩

/-! ## Registration without a camp -/

/-- The counterexample of C9: on the empty store (so no camp is eligible) a
registration whose payload carries `status: 'Relocated'` and an `assignedCamp`
succeeds and stores the refugee with that status and that `assignedCamp`, not
with Pending and null. -/
theorem register_keeps_preset_fields :
    (registerAndAssignRefugee scenarioEnv State.empty presetBody).2.success = true ∧
      (registerAndAssignRefugee scenarioEnv State.empty presetBody).1.refugees
        = [{ _id := 0, latitude := 1 / 100, longitude := 1 / 100, assignedCamp := some 5,
             familyMembers := 1, status := RefugeeStatus.Relocated }] ∧
      ∀ c ∈ State.empty.camps, ¬ Eligible 1 c := by
  refine ⟨rfl, rfl, ?_⟩
  intro c hc
  simp [State.empty] at hc

/-- C9, amended. For every registration payload that does not itself carry
`assignedCamp` or `status`, and every resolved coordinate, if no camp is
eligible (no Active or Emergency camp with
`capacity - currentOccupancy >= familyMembers`), `registerAndAssignRefugee`
answers with success (201, camp null), the refugee is appended to the store
with status Pending and `assignedCamp` null, and the camps are unchanged. -/
theorem register_without_camp {D : Type} [LinearOrder D] (E : Env D) (s : State)
    (body : RefugeeBody) (address : String) (location : Location)
    (haddr : body.address = some address) (hne : address ≠ "")
    (hgeo : E.geocodeAddress address = Except.ok location)
    (hcamp : body.assignedCamp = none) (hstatus : body.status = none)
    (hnone : ∀ c ∈ s.camps, ¬ Eligible (body.familyMembers.getD 1) c) :
    (registerAndAssignRefugee E s body).2
        = Response.assigned 201 "Refugee registered but no available camps found"
            { _id := s.nextId, latitude := location.latitude, longitude := location.longitude,
              assignedCamp := none, familyMembers := body.familyMembers.getD 1,
              status := RefugeeStatus.Pending } none ∧
      (registerAndAssignRefugee E s body).2.success = true ∧
      (registerAndAssignRefugee E s body).1.refugees
        = s.refugees ++
            [{ _id := s.nextId, latitude := location.latitude,
               longitude := location.longitude, assignedCamp := none,
               familyMembers := body.familyMembers.getD 1,
               status := RefugeeStatus.Pending }] ∧
      (registerAndAssignRefugee E s body).1.camps = s.camps := by
  have hf : filterByCapacity (findAvailableCamps s.camps) (body.familyMembers.getD 1) = [] := by
    rw [filterByCapacity_available_eq_nil]
    intro c hc hav hcap
    exact hnone c hc ⟨hav.1, hcap⟩
  rw [register_no_candidate E s body address location haddr hne hgeo hf]
  simp [registeredRefugee, afterCreate, hcamp, hstatus, Response.success]

/-- The witness of C9: a family of three registered while the only camp holds
8 of 10 is stored as Pending and the camp keeps its occupancy of 8. -/
theorem register_without_camp_witness :
    (registerAndAssignRefugee scenarioEnv nearlyFullState (refugeeBody 3)).2.success = true ∧
      (registerAndAssignRefugee scenarioEnv nearlyFullState (refugeeBody 3)).1.refugees
        = [pendingRefugee 1 3, pendingRefugee 2 3] ∧
      (registerAndAssignRefugee scenarioEnv nearlyFullState (refugeeBody 3)).1.camps
        = nearlyFullState.camps := by
  have h := register_without_camp scenarioEnv nearlyFullState (refugeeBody 3) "Main Street"
    { latitude := 1 / 100, longitude := 1 / 100 } rfl (by decide) rfl rfl rfl
    (by
      intro c hc
      rw [List.mem_singleton.mp hc]
      intro hel
      exact absurd hel.2 (by decide))
  exact ⟨h.2.1, h.2.2.1.trans rfl, h.2.2.2⟩

/-! ## Release on deletion -/

theorem findRefugeeById_deleteRefugeeDoc (refugees : List Refugee) (id : Nat) :
    findRefugeeById (deleteRefugeeDoc refugees id) id = none := by
  unfold findRefugeeById deleteRefugeeDoc
  rw [List.find?_eq_none]
  intro x hx
  have := (List.mem_filter.mp hx).2
  simpa using this

/-- C10. For every existing refugee, `deleteRefugee` answers with success and
removes the record (no document with that id is left, every other document is
kept); if `assignedCamp` is set, the occupancy stored under that camp id
decreases by exactly `familyMembers` and the occupancy of every other camp id
is unchanged; if `assignedCamp` is null the camps are unchanged. -/
theorem deleteRefugee_releases {D : Type} (s : State) (id : Nat) (r : Refugee)
    (hr : findRefugeeById s.refugees id = some r) :
    (deleteRefugee s id : State × Response D).2 = Response.deleted 200 ∧
      findRefugeeById (deleteRefugee s id : State × Response D).1.refugees id = none ∧
      (∀ x, x ∈ (deleteRefugee s id : State × Response D).1.refugees ↔
        x ∈ s.refugees ∧ x._id ≠ id) ∧
      (∀ campId, r.assignedCamp = some campId →
        ∀ other, occupancyOf (deleteRefugee s id : State × Response D).1.camps other
          = if other = campId then (occupancyOf s.camps other).map (fun o => o - r.familyMembers)
            else occupancyOf s.camps other) ∧
      (r.assignedCamp = none → (deleteRefugee s id : State × Response D).1.camps = s.camps) := by
  have hid := findRefugeeById_id _ _ r hr
  simp only [deleteRefugee, hr, hid]
  refine ⟨trivial, findRefugeeById_deleteRefugeeDoc _ _, ?_, ?_, ?_⟩
  · intro x
    simp [deleteRefugeeDoc]
  · intro campId hcamp other
    rw [hcamp]
    simp only []
    rw [occupancyOf_incOccupancy]
    by_cases ho : other = campId
    · simp only [if_pos ho]
      congr 1
    · simp only [if_neg ho]
  · intro hcamp
    rw [hcamp]

/-- The witness of C10: deleting the refugee assigned in the two-camp scenario
removes the record and brings camp X back from 2 to 0 while Y stays at 0. -/
theorem deleteRefugee_releases_witness :
    findRefugeeById (deleteRefugee (D := ℝ)
        (assignRefugeeToNearestCamp scenarioEnv twoCampState (some 2)).1 2).1.refugees 2 = none ∧
      occupancyOf (deleteRefugee (D := ℝ)
        (assignRefugeeToNearestCamp scenarioEnv twoCampState (some 2)).1 2).1.camps 0 = some 0 ∧
      occupancyOf (deleteRefugee (D := ℝ)
        (assignRefugeeToNearestCamp scenarioEnv twoCampState (some 2)).1 2).1.camps 1 = some 0 := by
  rw [assign_twoCamp]
  have h := deleteRefugee_releases (D := ℝ)
    { camps := [{ campX with currentOccupancy := 2 }, campY]
      refugees := [{ pendingRefugee 2 2 with
                       assignedCamp := some 0, status := RefugeeStatus.Assigned }]
      nextId := 3 } 2
    { pendingRefugee 2 2 with assignedCamp := some 0, status := RefugeeStatus.Assigned } rfl
  exact ⟨h.2.1, (h.2.2.2.1 0 rfl 0).trans rfl, (h.2.2.2.1 0 rfl 1).trans rfl⟩

/-! ## The occupancy rule -/

/-- The hook changes the status only. -/
theorem preSave_fields (camp : Camp) :
    (preSave camp)._id = camp._id ∧ (preSave camp).capacity = camp.capacity ∧
      (preSave camp).currentOccupancy = camp.currentOccupancy ∧
      (preSave camp).latitude = camp.latitude ∧ (preSave camp).longitude = camp.longitude ∧
      (preSave camp).connectedCamps = camp.connectedCamps := by
  unfold preSave
  split_ifs <;> simp

theorem preSave_status (camp : Camp) :
    (preSave camp).status
      = if camp.currentOccupancy ≥ camp.capacity then CampStatus.Full
        else if camp.status = CampStatus.Full then CampStatus.Active
        else camp.status := by
  unfold preSave
  by_cases h1 : camp.currentOccupancy ≥ camp.capacity
  · simp [h1]
  · have h2 : camp.currentOccupancy < camp.capacity := not_le.mp h1
    by_cases h3 : camp.status = CampStatus.Full
    · simp [h1, h2, h3]
    · simp [h1, h3]

/-- C11. Filling a camp through the controllers leaves its stored status at
Active: after `createCamp` (capacity 1) and `registerAndAssignRefugee`
(family of 1) the camp holds 1 of 1 with status Active, and after
`assignRefugeeToNearestCamp` of a family of 2 to a camp holding 8 of 10 the
camp holds 10 of 10 with status Active; in both cases saving the document
(the `pre('save')` hook) would have produced Full. -/
theorem status_not_recomputed_after_assignment :
    (run scenarioEnv State.empty fillCampRequests).camps.map
        (fun c => (c.capacity, c.currentOccupancy, c.status))
      = [(1, 1, CampStatus.Active)] ∧
    (assignRefugeeToNearestCamp scenarioEnv
        { nearlyFullState with refugees := [pendingRefugee 1 2] } (some 1)).1.camps.map
        (fun c => (c.capacity, c.currentOccupancy, c.status))
      = [(10, 10, CampStatus.Active)] ∧
    (assignRefugeeToNearestCamp scenarioEnv
        { nearlyFullState with refugees := [pendingRefugee 1 2] } (some 1)).2.success = true ∧
    ((run scenarioEnv State.empty fillCampRequests).camps.map
        (fun c => (preSave c).status)) = [CampStatus.Full] := by
  refine ⟨rfl, rfl, rfl, ?_⟩
  have h : (run scenarioEnv State.empty fillCampRequests).camps
      = [{ _id := 0, latitude := 0, longitude := 0, capacity := 1, currentOccupancy := 1,
           connectedCamps := [], status := CampStatus.Active }] := rfl
  rw [h]
  simp [preSave]

/-- C12. For every camp with status `s`, occupancy `o` and capacity `c`, the
`pre('save')` rule yields Full if `o >= c`, Active if `s` is Full and `o < c`,
and `s` otherwise, and changes no other field; in particular an Emergency camp
with `o >= c` becomes Full, and after the rule the status is Full if and only
if `o >= c`. -/
theorem preSave_rule (camp : Camp) :
    (preSave camp).status
        = (if camp.currentOccupancy ≥ camp.capacity then CampStatus.Full
           else if camp.status = CampStatus.Full then CampStatus.Active
           else camp.status) ∧
      (camp.status = CampStatus.Emergency → camp.currentOccupancy ≥ camp.capacity →
        (preSave camp).status = CampStatus.Full) ∧
      ((preSave camp).status = CampStatus.Full ↔ camp.currentOccupancy ≥ camp.capacity) ∧
      (preSave camp).currentOccupancy = camp.currentOccupancy ∧
      (preSave camp).capacity = camp.capacity := by
  have hs := preSave_status camp
  have hf := preSave_fields camp
  refine ⟨hs, ?_, ?_, hf.2.2.1, hf.2.1⟩
  · intro _ hge
    rw [hs, if_pos hge]
  · rw [hs]
    by_cases h1 : camp.currentOccupancy ≥ camp.capacity
    · simp [h1]
    · by_cases h3 : camp.status = CampStatus.Full
      · simp [h1, h3]
      · simp [h1, h3]

/-- The witness of C12: an Emergency camp holding 10 of 10 becomes Full. -/
theorem preSave_rule_witness :
    (preSave { campX with currentOccupancy := 10, status := CampStatus.Emergency }).status
      = CampStatus.Full :=
  (preSave_rule { campX with currentOccupancy := 10, status := CampStatus.Emergency }).2.1
    rfl (by decide)

/-- The counterexample of C13: an Inactive camp of capacity 10 whose occupancy
is set to 10 and then to 5, each change followed by the rule, is Full after the
first change and Active after the second. -/
theorem inactive_camp_reactivated_through_full :
    inactiveCamp.status = CampStatus.Inactive ∧
      (occupancyHistory inactiveCamp [10, 5]).map (fun c => c.status)
        = [CampStatus.Inactive, CampStatus.Full, CampStatus.Active] := by
  refine ⟨rfl, ?_⟩
  simp [occupancyHistory, List.scanl, saveWithOccupancy, preSave, inactiveCamp, campX]

theorem saveWithOccupancy_inactive (camp : Camp) (occupancy : Int)
    (hs : camp.status = CampStatus.Inactive) (ho : occupancy < camp.capacity) :
    (saveWithOccupancy camp occupancy).status = CampStatus.Inactive ∧
      (saveWithOccupancy camp occupancy).capacity = camp.capacity := by
  unfold saveWithOccupancy
  refine ⟨?_, (preSave_fields _).2.1⟩
  rw [preSave_status]
  have h1 : ¬ occupancy ≥ camp.capacity := not_le.mpr ho
  simp [h1, hs]

/-- C13, amended. For every camp whose status is Inactive and every finite
sequence of occupancy changes that each stay below the capacity, each followed
by the status rule, the camp's status is Inactive (so never Active) at every
point of the sequence. -/
theorem inactive_stays_inactive_below_capacity (camp : Camp) (occupancies : List Int)
    (hs : camp.status = CampStatus.Inactive)
    (ho : ∀ o ∈ occupancies, o < camp.capacity) :
    ∀ c ∈ occupancyHistory camp occupancies, c.status = CampStatus.Inactive := by
  unfold occupancyHistory
  induction occupancies generalizing camp with
  | nil =>
    intro c hc
    simp only [List.scanl, List.mem_singleton] at hc
    rw [hc]; exact hs
  | cons o rest ih =>
    intro c hc
    simp only [List.scanl, List.mem_cons] at hc
    rcases hc with hc | hc
    · rw [hc]; exact hs
    · have hstep := saveWithOccupancy_inactive camp o hs (ho o (List.mem_cons_self _ _))
      apply ih (saveWithOccupancy camp o) hstep.1 _ c hc
      intro o' ho'
      rw [hstep.2]
      exact ho o' (List.mem_cons_of_mem _ ho')

/-- The witness of C13: an Inactive camp of capacity 10 taken to 9 and back to
3 stays Inactive. -/
theorem inactive_stays_inactive_below_capacity_witness :
    inactiveCamp.status = CampStatus.Inactive ∧
      ∀ c ∈ occupancyHistory inactiveCamp [9, 3], c.status = CampStatus.Inactive :=
  ⟨rfl, inactive_stays_inactive_below_capacity inactiveCamp [9, 3] rfl (by
    intro o ho
    simp only [List.mem_cons, List.mem_singleton, List.not_mem_nil, or_false] at ho
    rcases ho with h | h <;> rw [h] <;> decide)⟩

/-! ## Ranking -/

theorem slice0_natCast {α : Type} (array : List α) (n : Nat) :
    slice0 array (n : Int) = array.take n := by
  unfold slice0
  have h : ¬ ((n : Int) < 0) := by omega
  simp [h]

/-- Every slice from the start is a prefix of the array. -/
theorem slice0_eq_take {α : Type} (array : List α) (count : Int) :
    ∃ n, slice0 array count = array.take n := by
  unfold slice0
  split_ifs
  · exact ⟨_, rfl⟩
  · exact ⟨_, rfl⟩

/-- The full ranking: the candidates with their rounded distances, stably
sorted by that distance. -/
theorem findNearestCamps_eq {D : Type} [LinearOrder D] (E : Env D) (lat lon : ℚ)
    (camps : List Camp) (count : Option Int) :
    findNearestCamps E lat lon camps count
      = slice0 ((camps.map (withDistance E lat lon)).insertionSort DistanceLE)
          (count.getD 5) := by
  unfold findNearestCamps
  by_cases h : camps.length = 0
  · have hnil : camps = [] := List.length_eq_zero.mp h
    subst hnil
    obtain ⟨n, hn⟩ := slice0_eq_take
      ((([] : List Camp).map (withDistance E lat lon)).insertionSort DistanceLE) (count.getD 5)
    rw [hn]
    simp
  · rw [if_neg h]
    rfl

theorem jsLt_irrefl {D : Type} [LinearOrder D] (x : Option D) : ¬ jsLt x x := by
  cases x with
  | none => exact fun h => h
  | some a => exact lt_irrefl a

theorem jsLt_asymm {D : Type} [LinearOrder D] (x y : Option D) (h : jsLt x y) : ¬ jsLt y x := by
  cases x with
  | none => exact absurd h (fun h => h)
  | some a =>
    cases y with
    | none => exact absurd h (fun h => h)
    | some b => exact lt_asymm h

theorem not_jsLe_nan_left {D : Type} [LinearOrder D] (y : Option D) : ¬ jsLe none y :=
  fun h => h

theorem not_jsLe_nan_right {D : Type} [LinearOrder D] (x : Option D) : ¬ jsLe x none := by
  cases x with
  | none => exact fun h => h
  | some a => exact fun h => h

/-- Between two numbers the order of the comparator is the order of `D`. -/
theorem distanceLE_iff {D : Type} [LinearOrder D] (a b : CampWithDistance D) (x y : D)
    (ha : a.distance = some x) (hb : b.distance = some y) :
    DistanceLE a b ↔ x ≤ y := by
  unfold DistanceLE
  rw [ha, hb]
  exact not_lt

/-- Inserting an entry into a sorted list keeps it sorted when no distance is
NaN. -/
theorem pairwise_orderedInsert {D : Type} [LinearOrder D] (a : CampWithDistance D)
    (l : List (CampWithDistance D)) (ha : a.distance ≠ none)
    (hl : ∀ x ∈ l, x.distance ≠ none) (hs : l.Pairwise DistanceLE) :
    (l.orderedInsert DistanceLE a).Pairwise DistanceLE := by
  induction l with
  | nil => simp
  | cons b l ih =>
    obtain ⟨da, hda⟩ := Option.ne_none_iff_exists'.mp ha
    obtain ⟨db, hdb⟩ := Option.ne_none_iff_exists'.mp (hl b (List.mem_cons_self b l))
    have hsb := List.pairwise_cons.mp hs
    simp only [List.orderedInsert]
    by_cases hab : DistanceLE a b
    · rw [if_pos hab]
      refine List.pairwise_cons.mpr ⟨?_, hs⟩
      intro x hx
      rcases List.mem_cons.mp hx with hx | hx
      · rw [hx]; exact hab
      · obtain ⟨dx, hdx⟩ := Option.ne_none_iff_exists'.mp (hl x (List.mem_cons_of_mem b hx))
        have h1 := (distanceLE_iff a b da db hda hdb).mp hab
        have h2 := (distanceLE_iff b x db dx hdb hdx).mp (hsb.1 x hx)
        exact (distanceLE_iff a x da dx hda hdx).mpr (le_trans h1 h2)
    · rw [if_neg hab]
      refine List.pairwise_cons.mpr ⟨?_, ih (fun x hx => hl x (List.mem_cons_of_mem b hx)) hsb.2⟩
      intro x hx
      rcases (List.mem_orderedInsert DistanceLE).mp hx with hx | hx
      · rw [hx]
        have h1 : ¬ da ≤ db := fun h => hab ((distanceLE_iff a b da db hda hdb).mpr h)
        exact (distanceLE_iff b a db da hdb hda).mpr (le_of_lt (not_le.mp h1))
      · exact hsb.1 x hx

/-- When no candidate's distance is NaN, the `distance` values attached to the
camps returned by `findNearestCamps` are non-decreasing along the returned
list, for every count. -/
theorem findNearestCamps_sorted_of_numbers {D : Type} [LinearOrder D] (E : Env D)
    (lat lon : ℚ) (camps : List Camp) (count : Option Int)
    (h : ∀ c ∈ camps, distanceTo E lat lon c ≠ none) :
    ((findNearestCamps E lat lon camps count).map (fun c => c.distance)).Pairwise jsLe := by
  rw [findNearestCamps_eq]
  obtain ⟨n, hn⟩ := slice0_eq_take
    ((camps.map (withDistance E lat lon)).insertionSort DistanceLE) (count.getD 5)
  rw [hn, List.pairwise_map]
  have hnum : ∀ l : List (CampWithDistance D), (∀ x ∈ l, x.distance ≠ none) →
      (l.insertionSort DistanceLE).Pairwise DistanceLE ∧
        ∀ x ∈ l.insertionSort DistanceLE, x.distance ≠ none := by
    intro l
    induction l with
    | nil => intro _; simp
    | cons a l ih =>
      intro hl
      have ih2 := ih (fun x hx => hl x (List.mem_cons_of_mem a hx))
      refine ⟨pairwise_orderedInsert a _ (hl a (List.mem_cons_self a l)) ih2.2 ih2.1, ?_⟩
      intro x hx
      exact hl x ((List.mem_insertionSort DistanceLE).mp hx)
  have hdist : ∀ x ∈ camps.map (withDistance E lat lon), x.distance ≠ none := by
    intro x hx
    obtain ⟨c, hc, rfl⟩ := List.mem_map.mp hx
    obtain ⟨d, hd⟩ := Option.ne_none_iff_exists'.mp (h c hc)
    simp [withDistance, hd]
  obtain ⟨hsorted, hall⟩ := hnum _ hdist
  have htake := List.Pairwise.sublist (List.take_sublist n _) hsorted
  refine List.Pairwise.imp_of_mem ?_ htake
  intro a b ha hb hle
  obtain ⟨da, hda⟩ := Option.ne_none_iff_exists'.mp (hall a (List.mem_of_mem_take ha))
  obtain ⟨db, hdb⟩ := Option.ne_none_iff_exists'.mp (hall b (List.mem_of_mem_take hb))
  rw [hda, hdb]
  exact (distanceLE_iff a b da db hda hdb).mp hle

/-- A list of at least two JavaScript numbers one of which is NaN is not
non-decreasing: `NaN <= x` and `x <= NaN` are false. -/
theorem not_pairwise_jsLe_of_nan {D : Type} [LinearOrder D] (l : List (Option D))
    (hnan : none ∈ l) (hlen : 2 ≤ l.length) : ¬ l.Pairwise jsLe := by
  intro hp
  induction l with
  | nil => simp at hlen
  | cons a t ih =>
    have hc := List.pairwise_cons.mp hp
    rcases List.mem_cons.mp hnan with ha | ht
    · cases t with
      | nil => simp at hlen
      | cons b t2 =>
        have := hc.1 b (List.mem_cons_self b t2)
        rw [← ha] at this
        exact not_jsLe_nan_left b this
    · exact not_jsLe_nan_right a (hc.1 none ht)

/-- C15. Whenever `calculateDistance` yields NaN for one of at least two
candidates, that candidate stays in the full ranking of `findNearestCamps`
with the `distance` value NaN, so the attached distances are not
non-decreasing along the returned list. -/
theorem findNearestCamps_unsorted_on_nan {D : Type} [LinearOrder D] (E : Env D)
    (lat lon : ℚ) (camps : List Camp) (hnan : ∃ c ∈ camps, distanceTo E lat lon c = none)
    (hlen : 2 ≤ camps.length) :
    ¬ ((findNearestCamps E lat lon camps (some (camps.length : Int))).map
        (fun c => c.distance)).Pairwise jsLe := by
  have hl : ((camps.map (withDistance E lat lon)).insertionSort DistanceLE).length
      = camps.length := by
    rw [List.length_insertionSort, List.length_map]
  have heq : findNearestCamps E lat lon camps (some (camps.length : Int))
      = (camps.map (withDistance E lat lon)).insertionSort DistanceLE := by
    rw [findNearestCamps_eq]
    simp only [Option.getD_some, slice0_natCast]
    exact List.take_of_length_le (by rw [hl])
  rw [heq]
  apply not_pairwise_jsLe_of_nan
  · obtain ⟨c, hc, hd⟩ := hnan
    refine List.mem_map.mpr ⟨withDistance E lat lon c, ?_, ?_⟩
    · exact (List.mem_insertionSort DistanceLE).mpr (List.mem_map.mpr ⟨c, hc, rfl⟩)
    · simp [withDistance, hd]
  · rw [List.length_map, hl]
    exact hlen

/-- C16. For every point, candidate list `cs` and natural number `n`,
`findNearestCamps(point, cs, n)` is the prefix of
`findNearestCamps(point, cs, len(cs))` of length `min(n, len(cs))`; for the
empty candidate list the result is the empty list. -/
theorem findNearestCamps_prefix {D : Type} [LinearOrder D] (E : Env D) (lat lon : ℚ)
    (camps : List Camp) (n : Nat) :
    findNearestCamps E lat lon camps (some (n : Int))
        = (findNearestCamps E lat lon camps (some (camps.length : Int))).take
            (min n camps.length) ∧
      (findNearestCamps E lat lon camps (some (n : Int))).length = min n camps.length ∧
      ∀ count, findNearestCamps E lat lon [] count = [] := by
  have hlen : ((camps.map (withDistance E lat lon)).insertionSort DistanceLE).length
      = camps.length := by
    rw [List.length_insertionSort, List.length_map]
  refine ⟨?_, ?_, fun count => rfl⟩
  · rw [findNearestCamps_eq, findNearestCamps_eq]
    simp only [Option.getD_some, slice0_natCast]
    have hfull : ((camps.map (withDistance E lat lon)).insertionSort DistanceLE).take
        camps.length = (camps.map (withDistance E lat lon)).insertionSort DistanceLE :=
      List.take_of_length_le (by rw [hlen])
    rw [hfull]
    by_cases h : n ≤ camps.length
    · rw [min_eq_left h]
    · have h2 : camps.length ≤ n := le_of_not_le h
      rw [min_eq_right h2, hfull]
      exact List.take_of_length_le (by rw [hlen]; exact h2)
  · rw [findNearestCamps_eq]
    simp only [Option.getD_some, slice0_natCast, List.length_take, hlen]

/-- C17. For every point and candidate list, two candidates at equal distance
from the point (the first before the second in the input) appear in the full
`findNearestCamps` ranking in the same relative order. -/
theorem findNearestCamps_stable {D : Type} [LinearOrder D] (E : Env D) (lat lon : ℚ)
    (camps : List Camp) (a b : Camp) (hab : [a, b].Sublist camps)
    (hd : distanceTo E lat lon a = distanceTo E lat lon b) :
    [withDistance E lat lon a, withDistance E lat lon b].Sublist
      (findNearestCamps E lat lon camps (some (camps.length : Int))) := by
  rw [findNearestCamps_eq]
  simp only [Option.getD_some, slice0_natCast]
  have hlen : ((camps.map (withDistance E lat lon)).insertionSort DistanceLE).length
      = camps.length := by
    rw [List.length_insertionSort, List.length_map]
  rw [List.take_of_length_le (by rw [hlen])]
  apply List.pair_sublist_insertionSort
  · show ¬ jsLt (withDistance E lat lon b).distance (withDistance E lat lon a).distance
    have he : (withDistance E lat lon a).distance = (withDistance E lat lon b).distance := by
      simp [withDistance, hd]
    rw [he]
    exact jsLt_irrefl _
  · have := List.Sublist.map (withDistance E lat lon) hab
    simpa using this

/-- The witness of C17: camp X, camp Y and a twin of X at the same place; X
stays before its twin in the ranking. -/
theorem findNearestCamps_stable_witness :
    [campX, campXTwin].Sublist [campX, campY, campXTwin] ∧
      [withDistance scenarioEnv (1 / 100) (1 / 100) campX,
        withDistance scenarioEnv (1 / 100) (1 / 100) campXTwin].Sublist
        (findNearestCamps scenarioEnv (1 / 100) (1 / 100) [campX, campY, campXTwin]
          (some 3)) := by
  have hsub : [campX, campXTwin].Sublist [campX, campY, campXTwin] :=
    List.Sublist.cons₂ _ (List.Sublist.cons _ (List.Sublist.refl _))
  exact ⟨hsub, findNearestCamps_stable scenarioEnv (1 / 100) (1 / 100)
    [campX, campY, campXTwin] campX campXTwin hsub rfl⟩

/-! ## The distance function -/

/-- The distance as an arcsine of the haversine term. -/
theorem calculateDistance_eq_arcsin (lat1 lon1 lat2 lon2 : ℝ) :
    calculateDistance lat1 lon1 lat2 lon2
      = 6371 * (2 * Real.arcsin (Real.sqrt (haversineTerm lat1 lon1 lat2 lon2))) := by
  rw [calculateDistance_eq,
    atan2_sqrt_eq_arcsin _ (haversineTerm_nonneg _ _ _ _) (haversineTerm_le_one _ _ _ _)]

theorem haversineTerm_symm (lat1 lon1 lat2 lon2 : ℝ) :
    haversineTerm lat1 lon1 lat2 lon2 = haversineTerm lat2 lon2 lat1 lon1 := by
  have h1 : toRad (lat1 - lat2) / 2 = -(toRad (lat2 - lat1) / 2) := by unfold toRad; ring
  have h2 : toRad (lon1 - lon2) / 2 = -(toRad (lon2 - lon1) / 2) := by unfold toRad; ring
  unfold haversineTerm
  rw [h1, h2, Real.sin_neg, Real.sin_neg]
  ring

theorem haversineTerm_self (lat lon : ℝ) : haversineTerm lat lon lat lon = 0 := by
  unfold haversineTerm toRad
  simp

/-- C18. For all real coordinates (in particular latitudes in [-90, 90] and
longitudes in [-180, 180]), `calculateDistance(lat1, lon1, lat2, lon2)` equals
`2 * 6371 * arcsin(sqrt(h))` with
`h = sin^2((lat2-lat1)*pi/360) + cos(lat1*pi/180) * cos(lat2*pi/180) * sin^2((lon2-lon1)*pi/360)`:
the `atan2(sqrt(h), sqrt(1-h))` form of the code is the haversine great-circle
distance with Earth radius 6371 km. -/
theorem calculateDistance_haversine (lat1 lon1 lat2 lon2 : ℝ) :
    calculateDistance lat1 lon1 lat2 lon2
      = 2 * 6371 * Real.arcsin (Real.sqrt
          (Real.sin ((lat2 - lat1) * Real.pi / 360) ^ 2
            + Real.cos (lat1 * Real.pi / 180) * Real.cos (lat2 * Real.pi / 180)
              * Real.sin ((lon2 - lon1) * Real.pi / 360) ^ 2)) := by
  rw [calculateDistance_eq_arcsin]
  have hterm : haversineTerm lat1 lon1 lat2 lon2
      = Real.sin ((lat2 - lat1) * Real.pi / 360) ^ 2
          + Real.cos (lat1 * Real.pi / 180) * Real.cos (lat2 * Real.pi / 180)
            * Real.sin ((lon2 - lon1) * Real.pi / 360) ^ 2 := by
    have a1 : toRad (lat2 - lat1) / 2 = (lat2 - lat1) * Real.pi / 360 := by
      unfold toRad; ring
    have a2 : toRad (lon2 - lon1) / 2 = (lon2 - lon1) * Real.pi / 360 := by
      unfold toRad; ring
    have a3 : toRad lat1 = lat1 * Real.pi / 180 := by unfold toRad; ring
    have a4 : toRad lat2 = lat2 * Real.pi / 180 := by unfold toRad; ring
    unfold haversineTerm
    rw [a1, a2, a3, a4]
    ring
  rw [hterm]
  ring

/-- C19. For every coordinate `(lat, lon)`,
`calculateDistance(lat, lon, lat, lon) = 0`. -/
theorem calculateDistance_self (lat lon : ℝ) : calculateDistance lat lon lat lon = 0 := by
  rw [calculateDistance_eq_arcsin, haversineTerm_self]
  simp

/-- C20. For all coordinates `(lat1, lon1)` and `(lat2, lon2)`,
`calculateDistance(lat1, lon1, lat2, lon2) = calculateDistance(lat2, lon2, lat1, lon1)`. -/
theorem calculateDistance_symm (lat1 lon1 lat2 lon2 : ℝ) :
    calculateDistance lat1 lon1 lat2 lon2 = calculateDistance lat2 lon2 lat1 lon1 := by
  rw [calculateDistance_eq, calculateDistance_eq, haversineTerm_symm]

/-! ## Interleaved assignment calls -/

theorem runAssignTask_done {D : Type} [LinearOrder D] (E : Env D) (n : Nat) (s : State)
    (response : Response D) :
    runAssignTask E n (s, AssignTask.done response) = (s, AssignTask.done response) := by
  induction n with
  | zero => rfl
  | succ k ih => simpa [runAssignTask, stepAssignTask] using ih

/-- A call that runs its four stretches without interruption is the
controller `assignRefugeeToNearestCamp`. -/
theorem runAssignTask_eq_controller {D : Type} [LinearOrder D] (E : Env D) (s : State)
    (refugeeId : Option Nat) :
    runAssignTask E 4 (s, AssignTask.start refugeeId)
      = ((assignRefugeeToNearestCamp E s refugeeId).1,
          AssignTask.done (assignRefugeeToNearestCamp E s refugeeId).2) := by
  cases refugeeId with
  | none => rfl
  | some id =>
    cases hr : findRefugeeById s.refugees id with
    | none =>
      rw [assign_not_found E s id hr]
      simp [runAssignTask, stepAssignTask, hr]
    | some r =>
      by_cases ha : r.assignedCamp = none
      · by_cases hc : findAvailableCamps s.camps = []
        · rw [assign_no_camps E s id r hr ha hc]
          simp [runAssignTask, stepAssignTask, hr, ha, hc]
        · by_cases hf : filterByCapacity (findAvailableCamps s.camps) r.familyMembers = []
          · rw [assign_no_capacity E s id r hr ha hc hf]
            simp [runAssignTask, stepAssignTask, hr, ha, hc, hf]
          · rcases assign_ok E s id r hr ha hf with ⟨hn, hres⟩ | ⟨c, -, hn, hres⟩
            · rw [hres]
              simp [runAssignTask, stepAssignTask, hr, ha, hc, hf, hn]
            · rw [hres]
              simp [runAssignTask, stepAssignTask, hr, ha, hc, hf, hn, commitAssignment]
      · rw [assign_already_assigned E s id r hr ha]
        have hsome : r.assignedCamp.isSome = true := by
          cases hcamp : r.assignedCamp with
          | none => exact absurd hcamp ha
          | some _ => rfl
        simp [runAssignTask, stepAssignTask, hr, hsome]

/-- C14. Two concurrent calls of `assignRefugeeToNearestCamp` for two
families of one person against a single empty camp of capacity 1: under the
schedule in which both calls run `Camp.find` before either runs
`Camp.findByIdAndUpdate`, both calls answer with success and the camp ends
with `currentOccupancy = 2`, above its capacity 1 (and above min(2, 1) = 1);
when the two calls run one after the other, one succeeds and the camp ends
with occupancy 1. -/
theorem concurrent_assign_exceeds_capacity :
    ((Concurrent.run scenarioEnv
        { state := raceState,
          tasks := [AssignTask.start (some 1), AssignTask.start (some 2)] }
        raceSchedule).state.camps.map (fun c => (c.capacity, c.currentOccupancy))
      = [(1, 2)]) ∧
    ((Concurrent.run scenarioEnv
        { state := raceState,
          tasks := [AssignTask.start (some 1), AssignTask.start (some 2)] }
        raceSchedule).tasks.map AssignTask.succeeded = [true, true]) ∧
    ((Concurrent.run scenarioEnv
        { state := raceState,
          tasks := [AssignTask.start (some 1), AssignTask.start (some 2)] }
        [0, 0, 0, 0, 1, 1, 1, 1]).state.camps.map (fun c => (c.capacity, c.currentOccupancy))
      = [(1, 1)]) ∧
    ((Concurrent.run scenarioEnv
        { state := raceState,
          tasks := [AssignTask.start (some 1), AssignTask.start (some 2)] }
        [0, 0, 0, 0, 1, 1, 1, 1]).tasks.map AssignTask.succeeded = [true, false]) :=
  ⟨rfl, rfl, rfl, rfl⟩

/-! ## Validation of weights -/

/-- A camp whose capacity is below 1 is rejected and nothing is stored. -/
theorem createCamp_rejects_capacity {D : Type} (s : State) (body : CampBody)
    (h : body.capacity < 1) :
    (createCamp s body : State × Response D)
      = (s, Response.failure 400 "Camp validation failed: capacity") := by
  simp [createCamp, h]

/-- C25. Creating a refugee with `familyMembers = 0` through `createRefugee`
succeeds and stores the record, and so does `registerAndAssignRefugee` with
`familyMembers = -3`; creating a camp with `capacity = 0` is rejected with a
validation error and stores nothing. -/
theorem refugee_weight_not_validated :
    createRefugee State.empty
        { latitude := 0, longitude := 0, familyMembers := some 0, assignedCamp := none,
          status := none }
      = ({ camps := [],
           refugees := [{ _id := 0, latitude := 0, longitude := 0, assignedCamp := none,
                          familyMembers := 0, status := RefugeeStatus.Pending }],
           nextId := 1 },
          RefugeeResponse.created 201
            { _id := 0, latitude := 0, longitude := 0, assignedCamp := none,
              familyMembers := 0, status := RefugeeStatus.Pending }) ∧
      (registerAndAssignRefugee scenarioEnv State.empty (refugeeBody (-3))).2.success = true ∧
      (registerAndAssignRefugee scenarioEnv State.empty (refugeeBody (-3))).1.refugees.map
          (fun r => r.familyMembers) = [-3] ∧
      (createCamp State.empty (campBody 0) : State × Response ℝ)
        = (State.empty, Response.failure 400 "Camp validation failed: capacity") :=
  ⟨rfl, rfl, rfl, rfl⟩

/-! ## The ranking keeps every candidate -/

/-- C28. For every point and candidate list `cs`,
`findNearestCamps(point, cs, len(cs))` is a permutation of the candidates,
each carried with all its fields and a `distance` field equal to
`calculateDistance` from the point to that camp rounded to two decimals: no
candidate is dropped or duplicated. -/
theorem findNearestCamps_perm {D : Type} [LinearOrder D] (E : Env D) (lat lon : ℚ)
    (camps : List Camp) :
    (findNearestCamps E lat lon camps (some (camps.length : Int))).Perm
        (camps.map (fun camp =>
          ({ camp := camp,
             distance := (E.calculateDistance lat lon camp.latitude camp.longitude).map
               E.toFixed2 } :
            CampWithDistance D))) ∧
      ((findNearestCamps E lat lon camps (some (camps.length : Int))).map
        (fun c => c.camp)).Perm camps := by
  have hlen : ((camps.map (withDistance E lat lon)).insertionSort DistanceLE).length
      = camps.length := by
    rw [List.length_insertionSort, List.length_map]
  have hperm : (findNearestCamps E lat lon camps (some (camps.length : Int))).Perm
      (camps.map (withDistance E lat lon)) := by
    rw [findNearestCamps_eq]
    simp only [Option.getD_some, slice0_natCast]
    rw [List.take_of_length_le (by rw [hlen])]
    exact List.perm_insertionSort DistanceLE _
  refine ⟨hperm, ?_⟩
  have h2 := hperm.map (fun c => c.camp)
  have h3 : (camps.map (withDistance E lat lon)).map (fun c => c.camp) = camps := by
    rw [List.map_map]
    exact List.map_id'' (fun _ => rfl) camps
  rw [h3] at h2
  exact h2

/-! ## Bounds of the distance -/

/-- In exact arithmetic the haversine term satisfies `0 <= a <= 1`, so both
square roots are taken of non-negative numbers, and
`0 <= calculateDistance(...) <= 6371 * pi`. -/
theorem calculateDistance_bounds (lat1 lon1 lat2 lon2 : ℝ) :
    0 ≤ haversineTerm lat1 lon1 lat2 lon2 ∧ haversineTerm lat1 lon1 lat2 lon2 ≤ 1 ∧
      0 ≤ 1 - haversineTerm lat1 lon1 lat2 lon2 ∧
      0 ≤ calculateDistance lat1 lon1 lat2 lon2 ∧
      calculateDistance lat1 lon1 lat2 lon2 ≤ 6371 * Real.pi := by
  have h0 := haversineTerm_nonneg lat1 lon1 lat2 lon2
  have h1 := haversineTerm_le_one lat1 lon1 lat2 lon2
  refine ⟨h0, h1, by linarith, ?_, ?_⟩
  · rw [calculateDistance_eq_arcsin]
    have := Real.arcsin_nonneg.mpr (Real.sqrt_nonneg (haversineTerm lat1 lon1 lat2 lon2))
    positivity
  · rw [calculateDistance_eq_arcsin]
    have := Real.arcsin_le_pi_div_two (Real.sqrt (haversineTerm lat1 lon1 lat2 lon2))
    nlinarith

/-- The haversine term of a point and its antipode is exactly 1. -/
theorem haversineTerm_antipode (lat lon : ℝ) :
    haversineTerm lat lon (-lat) (lon - 180) = 1 := by
  rw [haversineTerm_eq]
  have h1 : toRad (-lat) = -toRad lat := by unfold toRad; ring
  have h2 : toRad (lon - 180 - lon) = -Real.pi := by unfold toRad; ring
  rw [h1, h2, Real.sin_neg, Real.cos_neg, Real.cos_neg, Real.cos_pi]
  have hs := Real.sin_sq_add_cos_sq (toRad lat)
  nlinarith

/-- C29. At the in-range input (-34.689, 101.969, 34.689, -78.031), a point
and its antipode, the haversine term is exactly 1 in exact arithmetic and the
distance is `6371 * pi`: the bounds `a <= 1` and `0 <= 1 - a` are attained
with no margin, so the rounding of the double computation (which yields
`a = 1.0000000000000002`) takes `a` above 1, `Math.sqrt(1 - a)` is NaN and
so is the distance returned. -/
theorem haversineTerm_attains_one :
    haversineTerm (-34689 / 1000) (101969 / 1000) (34689 / 1000) (-78031 / 1000) = 1 ∧
      1 - haversineTerm (-34689 / 1000) (101969 / 1000) (34689 / 1000) (-78031 / 1000) = 0 ∧
      calculateDistance (-34689 / 1000) (101969 / 1000) (34689 / 1000) (-78031 / 1000)
        = 6371 * Real.pi := by
  have h := haversineTerm_antipode (-34689 / 1000) (101969 / 1000)
  have e1 : -(-34689 / 1000 : ℝ) = 34689 / 1000 := by norm_num
  have e2 : (101969 / 1000 : ℝ) - 180 = -78031 / 1000 := by norm_num
  rw [e1, e2] at h
  refine ⟨h, by rw [h]; norm_num, ?_⟩
  rw [calculateDistance_eq_arcsin, h, Real.sqrt_one, Real.arcsin_one]
  ring

/-- In the environment of limited precision the distance from the point
(-34.689, 101.969) to the camp at its antipode is NaN. -/
theorem distanceTo_antipodeCamp :
    distanceTo antipodeEnv (-34689 / 1000) (101969 / 1000) antipodeCamp = none := by
  have h := haversineTerm_antipode (-34689 / 1000) (101969 / 1000)
  have e1 : -(-34689 / 1000 : ℝ) = 34689 / 1000 := by norm_num
  have e2 : (101969 / 1000 : ℝ) - 180 = -78031 / 1000 := by norm_num
  rw [e1, e2] at h
  have hc : haversineTerm ((-34689 / 1000 : ℚ) : ℝ) ((101969 / 1000 : ℚ) : ℝ)
      (antipodeCamp.latitude : ℝ) (antipodeCamp.longitude : ℝ) = 1 := by
    simp only [antipodeCamp]
    push_cast
    exact h
  show (if 1 ≤ haversineTerm ((-34689 / 1000 : ℚ) : ℝ) ((101969 / 1000 : ℚ) : ℝ)
      (antipodeCamp.latitude : ℝ) (antipodeCamp.longitude : ℝ) then none
    else some (calculateDistance ((-34689 / 1000 : ℚ) : ℝ) ((101969 / 1000 : ℚ) : ℝ)
      (antipodeCamp.latitude : ℝ) (antipodeCamp.longitude : ℝ))) = none
  rw [if_pos (le_of_eq hc.symm)]

/-- The witness of C3: the single candidate at the antipode of the point
(-34.689, 101.969); the list is non-empty and the result is `null`. -/
theorem findNearestCamp_null_on_nan_witness :
    [antipodeCamp] ≠ [] ∧
      findNearestCamp antipodeEnv (-34689 / 1000) (101969 / 1000) [antipodeCamp] = none :=
  ⟨by simp, findNearestCamp_null_on_nan antipodeEnv (-34689 / 1000) (101969 / 1000)
    [antipodeCamp] (by
      intro c hc
      rw [List.mem_singleton.mp hc]
      exact distanceTo_antipodeCamp)⟩

/-- The witness of C15: the candidates at the antipode of the point
(-34.689, 101.969) and at the point itself. -/
theorem findNearestCamps_unsorted_on_nan_witness :
    [antipodeCamp, pointCamp].length = 2 ∧
      ¬ ((findNearestCamps antipodeEnv (-34689 / 1000) (101969 / 1000)
            [antipodeCamp, pointCamp] (some 2)).map (fun c => c.distance)).Pairwise jsLe :=
  ⟨rfl, findNearestCamps_unsorted_on_nan antipodeEnv (-34689 / 1000) (101969 / 1000)
    [antipodeCamp, pointCamp] ⟨antipodeCamp, by simp, distanceTo_antipodeCamp⟩
    (by simp)⟩

/-! ## The presence check of the endpoints -/

/-- C30. The body `{ lat1: 0, lon1: 0, lat2: 10, lon2: 10 }` carries all four
coordinates, yet `getDistance` answers 400 'Please provide all coordinates';
the same holds when only `lat1` is 0, and `getNearestCamps` answers 400 for
`latitude: 0` without an address; with four non-zero coordinates `getDistance`
answers with the rounded distance. -/
theorem getDistance_rejects_zero :
    getDistance scenarioEnv { lat1 := some 0, lon1 := some 0, lat2 := some 10, lon2 := some 10 }
        = DistanceResponse.failure 400
            "Please provide all coordinates (lat1, lon1, lat2, lon2)" ∧
      getDistance scenarioEnv
          { lat1 := some 0, lon1 := some 20, lat2 := some 10, lon2 := some 10 }
        = DistanceResponse.failure 400
            "Please provide all coordinates (lat1, lon1, lat2, lon2)" ∧
      getNearestCamps scenarioEnv twoCampState
          { latitude := some 0, longitude := some 20, address := none, count := none }
        = NearestResponse.failure 400 "Please provide either coordinates or address" ∧
      getDistance scenarioEnv
          { lat1 := some 5, lon1 := some 20, lat2 := some 10, lon2 := some 10 }
        = DistanceResponse.distance 200 (toFixed2 (calculateDistance 5 20 10 10))
            "kilometers" := by
  refine ⟨rfl, rfl, rfl, ?_⟩
  simp [getDistance, falsy, scenarioEnv, realEnv]

/-! ## The camp graph -/

theorem findCampById_id (camps : List Camp) (id : Nat) (c : Camp)
    (h : findCampById camps id = some c) : c._id = id := by
  have := List.find?_some h
  simpa using this

theorem findCampById_mem (camps : List Camp) (id : Nat) (c : Camp)
    (h : findCampById camps id = some c) : c ∈ camps :=
  List.mem_of_find?_eq_some h

/-- A lookup by `_id` commutes with an update that keeps every `_id`. -/
theorem findCampById_map (camps : List Camp) (f : Camp → Camp) (hf : ∀ c, (f c)._id = c._id)
    (id : Nat) : findCampById (camps.map f) id = (findCampById camps id).map f := by
  induction camps with
  | nil => rfl
  | cons a l ih =>
    simp only [findCampById, List.map_cons, List.find?_cons] at ih ⊢
    rw [hf a]
    by_cases ha : a._id = id
    · have hb : (a._id == id) = true := by simpa using ha
      simp only [hb, Option.map_some']
    · have hb : (a._id == id) = false := by simpa using ha
      simp only [hb]
      exact ih

theorem connectionsOf_pushed (camps : List Camp) (camp : Camp) (x id : Nat) :
    connectionsOf (pushed camps camp x).1 id
      = (connectionsOf camps id).map (fun l => if id = camp._id then l ++ [x] else l) := by
  unfold connectionsOf pushed
  simp only []
  rw [findCampById_map _ _ (by intro c; by_cases h : c._id = camp._id <;> simp [h])]
  cases hf : findCampById camps id with
  | none => rfl
  | some c =>
    have hid := findCampById_id camps id c hf
    by_cases h : id = camp._id
    · have hc : c._id = camp._id := by rw [hid]; exact h
      simp [h, hc]
    · have hc : ¬ c._id = camp._id := by rw [hid]; exact h
      simp [h, hc]

/-- When both documents pass the validators, `connectCamps` makes its two
conditional writes and answers with success. -/
theorem connectCamps_valid (s : State) (id targetId : Nat) (camp1 camp2 : Camp)
    (h1 : findCampById s.camps id = some camp1)
    (h2 : findCampById s.camps targetId = some camp2)
    (hv1 : validatesOnSave camp1 = true) (hv2 : validatesOnSave camp2 = true) :
    connectCamps s id targetId
      = ({ s with camps :=
            (if camp1._id ∈ camp2.connectedCamps then
                ((if camp2._id ∈ camp1.connectedCamps then (s.camps, camp1)
                  else pushed s.camps camp1 camp2._id).1, camp2)
              else pushed (if camp2._id ∈ camp1.connectedCamps then (s.camps, camp1)
                  else pushed s.camps camp1 camp2._id).1 camp2 camp1._id).1 },
          CampResponse.connected 200
            (if camp2._id ∈ camp1.connectedCamps then (s.camps, camp1)
              else pushed s.camps camp1 camp2._id).2
            (if camp1._id ∈ camp2.connectedCamps then
                ((if camp2._id ∈ camp1.connectedCamps then (s.camps, camp1)
                  else pushed s.camps camp1 camp2._id).1, camp2)
              else pushed (if camp2._id ∈ camp1.connectedCamps then (s.camps, camp1)
                  else pushed s.camps camp1 camp2._id).1 camp2 camp1._id).2) := by
  unfold connectCamps
  simp only [h1, h2, pushAndSave, hv1, hv2, if_true]
  by_cases ha : camp2._id ∈ camp1.connectedCamps <;>
    by_cases hb : camp1._id ∈ camp2.connectedCamps <;> simp [ha, hb]

/-- The effect of `connectCamps` on every stored `connectedCamps`, when both
camps exist and pass the validators. -/
theorem connectionsOf_connectCamps (s : State) (id targetId : Nat) (camp1 camp2 : Camp)
    (h1 : findCampById s.camps id = some camp1)
    (h2 : findCampById s.camps targetId = some camp2)
    (hv1 : validatesOnSave camp1 = true) (hv2 : validatesOnSave camp2 = true) (other : Nat) :
    connectionsOf (connectCamps s id targetId).1.camps other
      = (connectionsOf s.camps other).map (connectedAfter camp1 camp2 other) := by
  rw [connectCamps_valid s id targetId camp1 camp2 h1 h2 hv1 hv2]
  unfold connectedAfter
  by_cases ha : camp2._id ∈ camp1.connectedCamps
  · by_cases hb : camp1._id ∈ camp2.connectedCamps
    · simp [ha, hb]
    · simp only [ha, hb, if_true, if_false, not_true_eq_false, and_false, not_false_eq_true,
        and_true]
      rw [connectionsOf_pushed]
  · by_cases hb : camp1._id ∈ camp2.connectedCamps
    · simp only [ha, hb, if_true, if_false, not_true_eq_false, and_false, not_false_eq_true,
        and_true]
      rw [connectionsOf_pushed]
    · simp only [ha, hb, if_false, not_false_eq_true, and_true]
      rw [connectionsOf_pushed, connectionsOf_pushed]
      cases connectionsOf s.camps other <;> simp

theorem connectCamps_success (s : State) (id targetId : Nat) (camp1 camp2 : Camp)
    (h1 : findCampById s.camps id = some camp1)
    (h2 : findCampById s.camps targetId = some camp2)
    (hv1 : validatesOnSave camp1 = true) (hv2 : validatesOnSave camp2 = true) :
    (connectCamps s id targetId).2.success = true := by
  rw [connectCamps_valid s id targetId camp1 camp2 h1 h2 hv1 hv2]
  rfl

theorem connectCamps_not_found (s : State) (id targetId : Nat)
    (h : findCampById s.camps id = none ∨ findCampById s.camps targetId = none) :
    connectCamps s id targetId = (s, CampResponse.failure 404 "One or both camps not found") := by
  unfold connectCamps
  rcases h with h | h
  · rw [h]
  · rw [h]
    cases findCampById s.camps id <;> rfl

/-- A call for two camps that already list each other writes nothing. -/
theorem connectCamps_connected (s : State) (id targetId : Nat) (camp1 camp2 : Camp)
    (h1 : findCampById s.camps id = some camp1)
    (h2 : findCampById s.camps targetId = some camp2)
    (ha : camp2._id ∈ camp1.connectedCamps) (hb : camp1._id ∈ camp2.connectedCamps) :
    (connectCamps s id targetId).1 = s := by
  simp [connectCamps, h1, h2, ha, hb]

theorem connectionsOf_of_find (camps : List Camp) (id : Nat) (c : Camp)
    (h : findCampById camps id = some c) : connectionsOf camps id = some c.connectedCamps := by
  simp [connectionsOf, h]

theorem find_of_connectionsOf (camps : List Camp) (id : Nat) (l : List Nat)
    (h : connectionsOf camps id = some l) :
    ∃ c, findCampById camps id = some c ∧ c.connectedCamps = l ∧ c._id = id := by
  unfold connectionsOf at h
  cases hf : findCampById camps id with
  | none => rw [hf] at h; simp at h
  | some c =>
    rw [hf] at h
    exact ⟨c, rfl, by simpa using h, findCampById_id camps id c hf⟩

/-- After a call for two distinct existing camps that pass the validators,
the first lists the second: its stored list is the old one, with the second id
appended if it was missing. -/
theorem connectionsOf_connectCamps_first (s : State) (A B : Nat) (campA campB : Camp)
    (hA : findCampById s.camps A = some campA) (hB : findCampById s.camps B = some campB)
    (hvA : validatesOnSave campA = true) (hvB : validatesOnSave campB = true)
    (hne : A ≠ B) :
    connectionsOf (connectCamps s A B).1.camps A
      = some (if B ∈ campA.connectedCamps then campA.connectedCamps
              else campA.connectedCamps ++ [B]) := by
  have ha := findCampById_id _ _ _ hA
  have hb := findCampById_id _ _ _ hB
  rw [connectionsOf_connectCamps s A B campA campB hA hB hvA hvB,
    connectionsOf_of_find _ _ _ hA]
  simp only [Option.map_some', connectedAfter, ha, hb, hne, false_and, if_false, true_and]
  by_cases h : B ∈ campA.connectedCamps <;> simp [h]

theorem connectionsOf_connectCamps_second (s : State) (A B : Nat) (campA campB : Camp)
    (hA : findCampById s.camps A = some campA) (hB : findCampById s.camps B = some campB)
    (hvA : validatesOnSave campA = true) (hvB : validatesOnSave campB = true)
    (hne : A ≠ B) :
    connectionsOf (connectCamps s A B).1.camps B
      = some (if A ∈ campB.connectedCamps then campB.connectedCamps
              else campB.connectedCamps ++ [A]) := by
  have ha := findCampById_id _ _ _ hA
  have hb := findCampById_id _ _ _ hB
  have hne2 : ¬ B = A := fun h => hne h.symm
  rw [connectionsOf_connectCamps s A B campA campB hA hB hvA hvB,
    connectionsOf_of_find _ _ _ hB]
  simp only [Option.map_some', connectedAfter, ha, hb, hne2, false_and, if_false, true_and]
  by_cases h : A ∈ campB.connectedCamps <;> simp [h]

theorem connectionsOf_connectCamps_other (s : State) (A B : Nat) (campA campB : Camp)
    (hA : findCampById s.camps A = some campA) (hB : findCampById s.camps B = some campB)
    (hvA : validatesOnSave campA = true) (hvB : validatesOnSave campB = true)
    (other : Nat) (h1 : other ≠ A) (h2 : other ≠ B) :
    connectionsOf (connectCamps s A B).1.camps other = connectionsOf s.camps other := by
  have ha := findCampById_id _ _ _ hA
  have hb := findCampById_id _ _ _ hB
  rw [connectionsOf_connectCamps s A B campA campB hA hB hvA hvB]
  cases connectionsOf s.camps other with
  | none => rfl
  | some l => simp [connectedAfter, ha, hb, h1, h2]

/-- The store reached by `negativeOccupancyRequests`: camp 0 is stored with
`currentOccupancy = -3`, camp 2 is empty. -/
theorem run_negativeOccupancyRequests :
    run scenarioEnv State.empty negativeOccupancyRequests
      = { camps := [{ _id := 0, latitude := 0, longitude := 0, capacity := 10,
                      currentOccupancy := -3, connectedCamps := [],
                      status := CampStatus.Active },
                    { _id := 2, latitude := 0, longitude := 0, capacity := 10,
                      currentOccupancy := 0, connectedCamps := [],
                      status := CampStatus.Active }]
          refugees := [{ _id := 1, latitude := 1 / 100, longitude := 1 / 100,
                         assignedCamp := some 0, familyMembers := -3,
                         status := RefugeeStatus.Assigned }]
          nextId := 3 } := rfl

/-- The counterexample of C21: in the store reached by creating a camp,
registering a family whose size is given as -3 and creating a second camp,
camps 0 and 2 both exist, yet `connectCamps(2, 0)` answers with status 500:
`camp1.save()` has already stored camp 0 in the list of camp 2 when
`camp2.save()` fails the validator of `currentOccupancy` (-3 is below
`min: 0`), so camp 2 lists camp 0 and camp 0 does not list camp 2. -/
theorem connect_one_sided_on_invalid_document :
    (findCampById (run scenarioEnv State.empty negativeOccupancyRequests).camps 2).isSome
        = true ∧
      (findCampById (run scenarioEnv State.empty negativeOccupancyRequests).camps 0).isSome
        = true ∧
      (connectCamps (run scenarioEnv State.empty negativeOccupancyRequests) 2 0).2
        = CampResponse.failure 500 "Camp validation failed" ∧
      connectionsOf
          (connectCamps (run scenarioEnv State.empty negativeOccupancyRequests) 2 0).1.camps 2
        = some [0] ∧
      connectionsOf
          (connectCamps (run scenarioEnv State.empty negativeOccupancyRequests) 2 0).1.camps 0
        = some [] := by
  rw [run_negativeOccupancyRequests]
  exact ⟨rfl, rfl, rfl, rfl, rfl⟩

/-- C21, amended. For every state and every two distinct existing camp ids A
and B whose stored documents pass the validators of `save()`
(`capacity >= 1`, `currentOccupancy >= 0`), `connectCamps(A, B)` answers with
success, and in the resulting state B is in the `connectedCamps` stored for A
and A is in the `connectedCamps` stored for B, while the `connectedCamps` of
every other camp id is unchanged. -/
theorem connectCamps_mutual (s : State) (A B : Nat) (campA campB : Camp)
    (hA : findCampById s.camps A = some campA) (hB : findCampById s.camps B = some campB)
    (hvA : validatesOnSave campA = true) (hvB : validatesOnSave campB = true)
    (hne : A ≠ B) :
    (connectCamps s A B).2.success = true ∧
      (∃ l, connectionsOf (connectCamps s A B).1.camps A = some l ∧ B ∈ l) ∧
      (∃ l, connectionsOf (connectCamps s A B).1.camps B = some l ∧ A ∈ l) ∧
      ∀ other, other ≠ A → other ≠ B →
        connectionsOf (connectCamps s A B).1.camps other = connectionsOf s.camps other := by
  refine ⟨connectCamps_success s A B campA campB hA hB hvA hvB,
    ⟨_, connectionsOf_connectCamps_first s A B campA campB hA hB hvA hvB hne, ?_⟩,
    ⟨_, connectionsOf_connectCamps_second s A B campA campB hA hB hvA hvB hne, ?_⟩,
    fun other h1 h2 =>
      connectionsOf_connectCamps_other s A B campA campB hA hB hvA hvB other h1 h2⟩
  · by_cases h : B ∈ campA.connectedCamps <;> simp [h]
  · by_cases h : A ∈ campB.connectedCamps <;> simp [h]

/-- The witness of C21: connecting camps X and Y of the two-camp scenario. -/
theorem connectCamps_mutual_witness :
    (connectCamps twoCampState 0 1).2.success = true ∧
      (∃ l, connectionsOf (connectCamps twoCampState 0 1).1.camps 0 = some l ∧ 1 ∈ l) ∧
      (∃ l, connectionsOf (connectCamps twoCampState 0 1).1.camps 1 = some l ∧ 0 ∈ l) := by
  have h := connectCamps_mutual twoCampState 0 1 campX campY rfl rfl rfl rfl (by decide)
  exact ⟨h.1, h.2.1, h.2.2.1⟩

/-- The counterexample of C22: in the store reached by
`negativeOccupancyRequests` no `connectedCamps` list has a duplicate and camps
0 and 2 are distinct existing camps, yet `connectCamps(0, 2)` answers with
status 500 and writes nothing, because `camp1.save()` fails the validator of
`currentOccupancy` on camp 0: afterwards the list stored for camp 0 does not
contain camp 2 at all, and a second call changes nothing either. -/
theorem connect_refused_on_invalid_document :
    (∀ c ∈ (run scenarioEnv State.empty negativeOccupancyRequests).camps,
        c.connectedCamps.Nodup) ∧
      (findCampById (run scenarioEnv State.empty negativeOccupancyRequests).camps 0).isSome
        = true ∧
      (findCampById (run scenarioEnv State.empty negativeOccupancyRequests).camps 2).isSome
        = true ∧
      connectCamps (run scenarioEnv State.empty negativeOccupancyRequests) 0 2
        = (run scenarioEnv State.empty negativeOccupancyRequests,
            CampResponse.failure 500 "Camp validation failed") ∧
      (∃ l, connectionsOf
          (connectCamps (run scenarioEnv State.empty negativeOccupancyRequests) 0 2).1.camps 0
            = some l ∧ l.count 2 = 0) := by
  rw [run_negativeOccupancyRequests]
  refine ⟨?_, rfl, rfl, rfl, [], rfl, rfl⟩
  intro c hc
  simp only [List.mem_cons, List.mem_singleton, List.not_mem_nil, or_false] at hc
  rcases hc with hc | hc <;> rw [hc] <;> simp

/-- C22, amended. For every state whose `connectedCamps` lists have no
duplicate entries and every two distinct existing camps A and B whose stored
documents pass the validators of `save()`, the state after `connectCamps(A, B)`
followed by `connectCamps(A, B)` or by `connectCamps(B, A)` is the state after
the single `connectCamps(A, B)`, in which the list stored for A contains B
exactly once and the list stored for B contains A exactly once. -/
theorem connectCamps_idempotent (s : State) (A B : Nat) (campA campB : Camp)
    (hA : findCampById s.camps A = some campA) (hB : findCampById s.camps B = some campB)
    (hvA : validatesOnSave campA = true) (hvB : validatesOnSave campB = true)
    (hne : A ≠ B) (hnodup : ∀ c ∈ s.camps, c.connectedCamps.Nodup) :
    (connectCamps (connectCamps s A B).1 A B).1 = (connectCamps s A B).1 ∧
      (connectCamps (connectCamps s A B).1 B A).1 = (connectCamps s A B).1 ∧
      (∃ l, connectionsOf (connectCamps s A B).1.camps A = some l ∧ l.count B = 1) ∧
      (∃ l, connectionsOf (connectCamps s A B).1.camps B = some l ∧ l.count A = 1) := by
  have h1 := connectionsOf_connectCamps_first s A B campA campB hA hB hvA hvB hne
  have h2 := connectionsOf_connectCamps_second s A B campA campB hA hB hvA hvB hne
  obtain ⟨a, hfa, hla, hida⟩ := find_of_connectionsOf _ _ _ h1
  obtain ⟨b, hfb, hlb, hidb⟩ := find_of_connectionsOf _ _ _ h2
  have hBa : B ∈ a.connectedCamps := by
    rw [hla]; by_cases h : B ∈ campA.connectedCamps <;> simp [h]
  have hAb : A ∈ b.connectedCamps := by
    rw [hlb]; by_cases h : A ∈ campB.connectedCamps <;> simp [h]
  refine ⟨connectCamps_connected _ A B a b hfa hfb (by rw [hidb]; exact hBa)
      (by rw [hida]; exact hAb),
    connectCamps_connected _ B A b a hfb hfa (by rw [hida]; exact hAb)
      (by rw [hidb]; exact hBa), ⟨_, h1, ?_⟩, ⟨_, h2, ?_⟩⟩
  · have hn := hnodup campA (findCampById_mem _ _ _ hA)
    by_cases h : B ∈ campA.connectedCamps
    · rw [if_pos h]; exact List.count_eq_one_of_mem hn h
    · rw [if_neg h]; simp [List.count_eq_zero_of_not_mem h]
  · have hn := hnodup campB (findCampById_mem _ _ _ hB)
    by_cases h : A ∈ campB.connectedCamps
    · rw [if_pos h]; exact List.count_eq_one_of_mem hn h
    · rw [if_neg h]; simp [List.count_eq_zero_of_not_mem h]

/-- The witness of C22: connecting X and Y twice, in either direction. -/
theorem connectCamps_idempotent_witness :
    (connectCamps (connectCamps twoCampState 0 1).1 0 1).1 = (connectCamps twoCampState 0 1).1 ∧
      (connectCamps (connectCamps twoCampState 0 1).1 1 0).1
        = (connectCamps twoCampState 0 1).1 ∧
      (∃ l, connectionsOf (connectCamps twoCampState 0 1).1.camps 0 = some l ∧
        l.count 1 = 1) := by
  have h := connectCamps_idempotent twoCampState 0 1 campX campY rfl rfl rfl rfl
    (by decide) (by
    intro c hc
    simp only [twoCampState, List.mem_cons, List.mem_singleton, List.not_mem_nil,
      or_false] at hc
    rcases hc with hc | hc <;> rw [hc] <;> simp [campX, campY])
  exact ⟨h.1, h.2.1, h.2.2.1⟩

/-- The counterexample of C23: `connectCamps(0, 0)` on the two-camp scenario
answers with success and stores camp 0 in its own `connectedCamps`. -/
theorem self_connection_accepted :
    (connectCamps twoCampState 0 0).2.success = true ∧
      (connectCamps twoCampState 0 0).1 ≠ twoCampState ∧
      ∃ l, connectionsOf (connectCamps twoCampState 0 0).1.camps 0 = some l ∧ 0 ∈ l := by
  refine ⟨rfl, ?_, [0, 0], rfl, by simp⟩
  intro h
  have h2 := congrArg (fun st => connectionsOf st.camps 0) h
  have h3 : connectionsOf (connectCamps twoCampState 0 0).1.camps 0 = some [0, 0] := rfl
  have h4 : connectionsOf twoCampState.camps 0 = some [] := rfl
  simp only [h3, h4] at h2
  simp at h2

/-- C23, amended. For every existing camp id A whose stored document passes
the validators of `save()` (`capacity >= 1`, `currentOccupancy >= 0`),
`connectCamps(A, A)` is not rejected: it answers with success and afterwards A
is in the `connectedCamps` stored for A; and whenever either id is absent
`connectCamps` fails with 404 'One or both camps not found' and changes
nothing. -/
theorem connectCamps_self_and_missing (s : State) (A B : Nat) :
    (∀ campA, findCampById s.camps A = some campA → validatesOnSave campA = true →
      (connectCamps s A A).2.success = true ∧
        ∃ l, connectionsOf (connectCamps s A A).1.camps A = some l ∧ A ∈ l) ∧
    (findCampById s.camps A = none ∨ findCampById s.camps B = none →
      connectCamps s A B = (s, CampResponse.failure 404 "One or both camps not found")) := by
  refine ⟨?_, connectCamps_not_found s A B⟩
  intro campA hA hvA
  have ha := findCampById_id _ _ _ hA
  refine ⟨connectCamps_success s A A campA campA hA hA hvA hvA, ?_⟩
  rw [connectionsOf_connectCamps s A A campA campA hA hA hvA hvA,
    connectionsOf_of_find _ _ _ hA]
  refine ⟨_, rfl, ?_⟩
  simp only [connectedAfter, ha, true_and]
  by_cases h : A ∈ campA.connectedCamps <;> simp [h]

/-- The witness of C23: the self-connection of camp 0 and a call with the
absent id 9 on the two-camp scenario. -/
theorem connectCamps_self_and_missing_witness :
    ((connectCamps twoCampState 0 0).2.success = true ∧
        ∃ l, connectionsOf (connectCamps twoCampState 0 0).1.camps 0 = some l ∧ 0 ∈ l) ∧
      connectCamps twoCampState 0 9
        = (twoCampState, CampResponse.failure 404 "One or both camps not found") := by
  have h := connectCamps_self_and_missing twoCampState 0 9
  exact ⟨h.1 campX rfl rfl, h.2 (Or.inr rfl)⟩

/-! ## Single nearest versus top of the ranking -/

theorem toFixed2_monotone : Monotone toFixed2 := by
  intro x y hxy
  unfold toFixed2
  have h : round (x * 100) ≤ round (y * 100) := by
    rw [round_eq, round_eq]
    exact Int.floor_le_floor (by linarith)
  have h2 : ((round (x * 100) : ℤ) : ℝ) ≤ ((round (y * 100) : ℤ) : ℝ) := by exact_mod_cast h
  linarith

theorem toFixed2_eq_zero (d : ℝ) (h0 : 0 ≤ d) (h1 : d < 1 / 200) : toFixed2 d = 0 := by
  unfold toFixed2
  have h : round (d * 100) = 0 := by
    rw [round_eq_zero_iff]
    constructor <;> linarith
  rw [h]
  simp

/-- The distance between two points on the same meridian, the second at most
180 degrees north of the first. -/
theorem calculateDistance_meridian (lat1 lon lat2 : ℝ) (h0 : 0 ≤ lat2 - lat1)
    (h1 : lat2 - lat1 ≤ 180) :
    calculateDistance lat1 lon lat2 lon = 6371 * toRad (lat2 - lat1) := by
  have hpi := Real.pi_pos
  have hterm : haversineTerm lat1 lon lat2 lon
      = Real.sin (toRad (lat2 - lat1) / 2) * Real.sin (toRad (lat2 - lat1) / 2) := by
    unfold haversineTerm
    simp [toRad]
  have hu0 : 0 ≤ toRad (lat2 - lat1) / 2 := by unfold toRad; positivity
  have hu1 : toRad (lat2 - lat1) / 2 ≤ Real.pi / 2 := by unfold toRad; nlinarith
  have hsin : 0 ≤ Real.sin (toRad (lat2 - lat1) / 2) :=
    Real.sin_nonneg_of_nonneg_of_le_pi hu0 (by linarith)
  rw [calculateDistance_eq_arcsin, hterm, Real.sqrt_mul_self hsin,
    Real.arcsin_sin (by linarith) hu1]
  ring

theorem distance_campHere :
    calculateDistance ((1 : ℚ) : ℝ) ((1 : ℚ) : ℝ) (campHere.latitude : ℝ)
      (campHere.longitude : ℝ) = 0 := by
  have h : calculateDistance ((1 : ℚ) : ℝ) ((1 : ℚ) : ℝ) (campHere.latitude : ℝ)
      (campHere.longitude : ℝ) = calculateDistance 1 1 1 1 := by
    simp [campHere, campX]
  rw [h, calculateDistance_eq_arcsin, haversineTerm_self]
  simp

theorem distance_campNear :
    0 < calculateDistance ((1 : ℚ) : ℝ) ((1 : ℚ) : ℝ) (campNear.latitude : ℝ)
        (campNear.longitude : ℝ) ∧
      calculateDistance ((1 : ℚ) : ℝ) ((1 : ℚ) : ℝ) (campNear.latitude : ℝ)
        (campNear.longitude : ℝ) < 1 / 200 := by
  have h : calculateDistance ((1 : ℚ) : ℝ) ((1 : ℚ) : ℝ) (campNear.latitude : ℝ)
      (campNear.longitude : ℝ) = calculateDistance 1 1 (100003 / 100000) 1 := by
    simp [campNear, campX]
  rw [h, calculateDistance_meridian 1 1 (100003 / 100000) (by norm_num) (by norm_num)]
  have hpi3 := Real.pi_gt_three
  have hpi4 := Real.pi_le_four
  have hd : (100003 / 100000 : ℝ) - 1 = 3 / 100000 := by norm_num
  rw [hd]
  unfold toRad
  constructor <;> nlinarith

/-- The counterexample of C27: from the point (1, 1), with the candidates in
the order [camp about 3.3 m away, camp at the point], `findNearestCamp`
returns the camp at the point (exact distance 0), while
`findNearestCamps(..., 1)` returns the other one: both distances round to
0.00 and the stable sort keeps the input order. -/
theorem nearest_differs_from_top1 :
    findNearestCamp scenarioEnv 1 1 [campNear, campHere]
        = some (withDistance scenarioEnv 1 1 campHere) ∧
      findNearestCamps scenarioEnv 1 1 [campNear, campHere] (some 1)
        = [withDistance scenarioEnv 1 1 campNear] ∧
      (withDistance scenarioEnv 1 1 campHere).camp._id
        ≠ (withDistance scenarioEnv 1 1 campNear).camp._id := by
  have hnear := distance_campNear
  have hhere := distance_campHere
  refine ⟨?_, ?_, by decide⟩
  · apply findNearestCamp_of_first_minimum scenarioEnv 1 1 [campNear] [] campHere _
      (distanceTo_realEnv geocodeFixed 1 1 campHere)
    · intro x hx dx hdx
      rw [List.mem_singleton.mp hx] at hdx
      have hy : distanceTo scenarioEnv 1 1 campNear = _ :=
        distanceTo_realEnv geocodeFixed 1 1 campNear
      rw [hdx] at hy
      cases hy
      rw [hhere]
      exact hnear.1
    · intro x hx
      simp at hx
  · rw [findNearestCamps_eq]
    have e1 : (withDistance scenarioEnv 1 1 campNear).distance = some 0 := by
      show some (toFixed2 _) = some 0
      rw [toFixed2_eq_zero _ (le_of_lt hnear.1) hnear.2]
    have e2 : (withDistance scenarioEnv 1 1 campHere).distance = some 0 := by
      show some (toFixed2 _) = some 0
      rw [hhere, toFixed2_eq_zero 0 (le_refl 0) (by norm_num)]
    have hle : DistanceLE (withDistance scenarioEnv 1 1 campNear)
        (withDistance scenarioEnv 1 1 campHere) := by
      unfold DistanceLE
      rw [e1, e2]
      exact jsLt_irrefl _
    simp only [List.map_cons, List.map_nil, List.insertionSort, List.orderedInsert, hle,
      if_true, Option.getD_some]
    rfl

/-- The head of the ranking: a candidate whose rounded distance is strictly
below that of every earlier candidate (none of them at NaN) and not above that
of any later candidate at a number comes first. -/
theorem insertionSort_withDistance_head {D : Type} [LinearOrder D] (E : Env D)
    (lat lon : ℚ) (pre post : List Camp) (c : Camp) (d : D)
    (hc : distanceTo E lat lon c = some d)
    (hpre : ∀ x ∈ pre, ∃ dx, distanceTo E lat lon x = some dx ∧ E.toFixed2 d < E.toFixed2 dx)
    (hpost : ∀ x ∈ post, ∀ dx, distanceTo E lat lon x = some dx →
      E.toFixed2 d ≤ E.toFixed2 dx) :
    ∃ t, ((pre ++ c :: post).map (withDistance E lat lon)).insertionSort DistanceLE
      = withDistance E lat lon c :: t := by
  have hcd : (withDistance E lat lon c).distance = some (E.toFixed2 d) := by
    simp [withDistance, hc]
  induction pre with
  | nil =>
    refine ⟨(post.map (withDistance E lat lon)).insertionSort DistanceLE, ?_⟩
    simp only [List.nil_append, List.map_cons]
    apply List.insertionSort_cons DistanceLE
    intro y hy
    obtain ⟨x, hx, rfl⟩ := List.mem_map.mp hy
    unfold DistanceLE
    rw [hcd]
    cases hdx : distanceTo E lat lon x with
    | none =>
      have : (withDistance E lat lon x).distance = none := by simp [withDistance, hdx]
      rw [this]
      exact fun h => h
    | some dx =>
      have : (withDistance E lat lon x).distance = some (E.toFixed2 dx) := by
        simp [withDistance, hdx]
      rw [this]
      exact not_lt.mpr (hpost x hx dx hdx)
  | cons x pre ih =>
    obtain ⟨t, ht⟩ := ih (fun y hy => hpre y (List.mem_cons_of_mem x hy))
    obtain ⟨dx, hdx, hlt⟩ := hpre x (List.mem_cons_self x pre)
    have hxd : (withDistance E lat lon x).distance = some (E.toFixed2 dx) := by
      simp [withDistance, hdx]
    have hnot : ¬ DistanceLE (withDistance E lat lon x) (withDistance E lat lon c) := by
      unfold DistanceLE
      rw [hcd, hxd]
      exact fun h => h hlt
    refine ⟨t.orderedInsert DistanceLE (withDistance E lat lon x), ?_⟩
    have hstep : ((x :: pre ++ c :: post).map (withDistance E lat lon)).insertionSort
        DistanceLE
          = (((pre ++ c :: post).map (withDistance E lat lon)).insertionSort
              DistanceLE).orderedInsert DistanceLE (withDistance E lat lon x) := rfl
    rw [hstep, ht]
    simp only [List.orderedInsert, if_neg hnot]

/-- C27, amended. For every point and every candidate list, let `c` be the
first candidate of least distance among those whose distance is a number (the
camp that `findNearestCamp` returns).  If every candidate listed before `c`
has a number for its distance whose value rounded to two decimals differs from
the rounded distance of `c`, then `c` is also the first (and only) element of
`findNearestCamps(point, camps, 1)`. -/
theorem findNearestCamp_agrees_with_top1 {D : Type} [LinearOrder D] (E : Env D)
    (lat lon : ℚ) (pre post : List Camp) (c : Camp) (d : D)
    (hc : distanceTo E lat lon c = some d)
    (hpre : ∀ x ∈ pre, ∃ dx, distanceTo E lat lon x = some dx ∧ d < dx ∧
      E.toFixed2 dx ≠ E.toFixed2 d)
    (hpost : ∀ x ∈ post, ∀ dx, distanceTo E lat lon x = some dx → d ≤ dx) :
    findNearestCamp E lat lon (pre ++ c :: post) = some (withDistance E lat lon c) ∧
      findNearestCamps E lat lon (pre ++ c :: post) (some 1)
        = [withDistance E lat lon c] := by
  constructor
  · apply findNearestCamp_of_first_minimum E lat lon pre post c d hc _ hpost
    intro x hx dx hdx
    obtain ⟨dx2, h1, h2, -⟩ := hpre x hx
    rw [h1] at hdx
    cases hdx
    exact h2
  · obtain ⟨t, ht⟩ := insertionSort_withDistance_head E lat lon pre post c d hc
      (fun x hx => by
        obtain ⟨dx, h1, h2, h3⟩ := hpre x hx
        exact ⟨dx, h1, lt_of_le_of_ne (E.toFixed2_monotone (le_of_lt h2)) (Ne.symm h3)⟩)
      (fun x hx dx hdx => E.toFixed2_monotone (hpost x hx dx hdx))
    rw [findNearestCamps_eq, ht]
    simp [slice0]

/-- Bounds of the two distances of the scenario: camp X is within 26 km of the
point (0.01, 0.01) and camp Y is more than 382 km away. -/
theorem distance_scenario_bounds :
    calculateDistance (1/100) (1/100) 0 0 ≤ 26 ∧
      382 ≤ calculateDistance (1/100) (1/100) 10 10 := by
  have hpi4 := Real.pi_le_four
  have hpos := Real.pi_pos
  constructor
  · rw [calculateDistance_eq_arcsin]
    have hs : Real.sqrt (haversineTerm (1/100) (1/100) 0 0) ≤ 1 / 1000 := by
      rw [Real.sqrt_le_iff]
      refine ⟨by norm_num, ?_⟩
      have := haversineTerm_near
      norm_num at this ⊢
      linarith
    have hmono := Real.monotone_arcsin hs
    have h0 : 0 ≤ Real.arcsin (1 / 1000) := Real.arcsin_nonneg.mpr (by norm_num)
    have h1 : Real.arcsin (1 / 1000) ≤ Real.pi / 2 := Real.arcsin_le_pi_div_two _
    have hsin := Real.mul_le_sin h0 h1
    rw [Real.sin_arcsin (by norm_num) (by norm_num)] at hsin
    have hA : Real.arcsin (1 / 1000) ≤ Real.pi / 2000 := by
      have h2 : 2 / Real.pi * Real.arcsin (1 / 1000) * Real.pi
          ≤ 1 / 1000 * Real.pi := mul_le_mul_of_nonneg_right hsin (le_of_lt hpos)
      have h3 : 2 / Real.pi * Real.arcsin (1 / 1000) * Real.pi
          = 2 * Real.arcsin (1 / 1000) := by
        field_simp
      rw [h3] at h2
      linarith
    linarith
  · rw [calculateDistance_eq_arcsin]
    have ha1 := haversineTerm_le_one (1/100) (1/100) 10 10
    have ha0 := haversineTerm_nonneg (1/100) (1/100) 10 10
    have hs : (3 : ℝ) / 100 ≤ Real.sqrt (haversineTerm (1/100) (1/100) 10 10) := by
      apply Real.le_sqrt_of_sq_le
      have := haversineTerm_far
      norm_num at this ⊢
      linarith
    have hs1 : Real.sqrt (haversineTerm (1/100) (1/100) 10 10) ≤ 1 := by
      rw [Real.sqrt_le_iff]
      exact ⟨by norm_num, by linarith⟩
    have hs0 : 0 ≤ Real.sqrt (haversineTerm (1/100) (1/100) 10 10) := Real.sqrt_nonneg _
    have hA0 : 0 ≤ Real.arcsin (Real.sqrt (haversineTerm (1/100) (1/100) 10 10)) :=
      Real.arcsin_nonneg.mpr hs0
    have hsin := Real.sin_le hA0
    rw [Real.sin_arcsin (by linarith) hs1] at hsin
    linarith

theorem toFixed2_natCast (n : ℕ) : toFixed2 (n : ℝ) = n := by
  unfold toFixed2
  have h : ((n : ℝ) * 100) = ((n * 100 : ℕ) : ℝ) := by push_cast; ring
  rw [h, round_natCast]
  push_cast
  field_simp

/-- The witness of C27: from (0.01, 0.01) with the candidates in the order
[Y, X, twin of X]; X is the nearest, the only earlier candidate Y is farther
and rounds differently, and the twin listed after X ties with it. -/
theorem findNearestCamp_agrees_with_top1_witness :
    findNearestCamp scenarioEnv (1 / 100) (1 / 100) ([campY] ++ campX :: [campXTwin])
        = some (withDistance scenarioEnv (1 / 100) (1 / 100) campX) ∧
      findNearestCamps scenarioEnv (1 / 100) (1 / 100) ([campY] ++ campX :: [campXTwin])
          (some 1)
        = [withDistance scenarioEnv (1 / 100) (1 / 100) campX] := by
  have hb := distance_scenario_bounds
  have hX : calculateDistance ((1 / 100 : ℚ) : ℝ) ((1 / 100 : ℚ) : ℝ) (campX.latitude : ℝ)
      (campX.longitude : ℝ) = calculateDistance (1/100) (1/100) 0 0 := by
    simp [campX]
  have hY : calculateDistance ((1 / 100 : ℚ) : ℝ) ((1 / 100 : ℚ) : ℝ) (campY.latitude : ℝ)
      (campY.longitude : ℝ) = calculateDistance (1/100) (1/100) 10 10 := by
    simp [campY]
  apply findNearestCamp_agrees_with_top1 scenarioEnv (1 / 100) (1 / 100) [campY] [campXTwin]
    campX _ (distanceTo_realEnv geocodeFixed (1 / 100) (1 / 100) campX)
  · intro x hx
    rw [List.mem_singleton.mp hx]
    refine ⟨_, distanceTo_realEnv geocodeFixed (1 / 100) (1 / 100) campY, ?_, ?_⟩
    · rw [hX, hY]; linarith
    · show toFixed2 _ ≠ toFixed2 _
      rw [hX, hY]
      have h1 : toFixed2 (calculateDistance (1/100) (1/100) 0 0) ≤ 26 := by
        have := toFixed2_monotone hb.1
        have h26 := toFixed2_natCast 26
        norm_num at h26
        linarith
      have h2 : 382 ≤ toFixed2 (calculateDistance (1/100) (1/100) 10 10) := by
        have := toFixed2_monotone hb.2
        have h382 := toFixed2_natCast 382
        norm_num at h382
        linarith
      intro h
      linarith
  · intro x hx dx hdx
    rw [List.mem_singleton.mp hx] at hdx
    have hy : distanceTo scenarioEnv (1 / 100) (1 / 100) campXTwin = _ :=
      distanceTo_realEnv geocodeFixed (1 / 100) (1 / 100) campXTwin
    rw [hdx] at hy
    cases hy
    exact le_of_eq rfl

/-! ## Symmetry of the camp graph -/

theorem mem_connectedAfter (camp1 camp2 : Camp) (id : Nat) (l : List Nat) (y : Nat) :
    y ∈ connectedAfter camp1 camp2 id l ↔
      y ∈ l ∨ (id = camp1._id ∧ camp2._id ∉ camp1.connectedCamps ∧ y = camp2._id) ∨
        (id = camp2._id ∧ camp1._id ∉ camp2.connectedCamps ∧ y = camp1._id) := by
  unfold connectedAfter
  by_cases h1 : id = camp1._id ∧ camp2._id ∉ camp1.connectedCamps
  · by_cases h2 : id = camp2._id ∧ camp1._id ∉ camp2.connectedCamps
    · rw [if_pos h1, if_pos h2]
      simp only [List.mem_append, List.mem_singleton]
      tauto
    · rw [if_pos h1, if_neg h2]
      simp only [List.mem_append, List.mem_singleton]
      tauto
  · by_cases h2 : id = camp2._id ∧ camp1._id ∉ camp2.connectedCamps
    · rw [if_neg h1, if_pos h2]
      simp only [List.mem_append, List.mem_singleton]
      tauto
    · rw [if_neg h1, if_neg h2]
      tauto

theorem connectionsOf_append_singleton (camps : List Camp) (c : Camp) (id : Nat) :
    connectionsOf (camps ++ [c]) id
      = match connectionsOf camps id with
        | some l => some l
        | none => if c._id = id then some c.connectedCamps else none := by
  unfold connectionsOf findCampById
  rw [List.find?_append]
  cases h : List.find? (fun c => c._id == id) camps with
  | some a => simp
  | none =>
    by_cases hc : c._id = id
    · simp [hc]
    · simp [hc]

theorem connectionsOf_filter_ne (camps : List Camp) (d id : Nat) (l : List Nat)
    (h : connectionsOf (camps.filter (fun c => c._id != d)) id = some l) :
    connectionsOf camps id = some l := by
  induction camps with
  | nil => simp [connectionsOf, findCampById] at h
  | cons a rest ih =>
    unfold connectionsOf findCampById at h ih ⊢
    by_cases hd : a._id = d
    · have hf : (a :: rest).filter (fun c => c._id != d) = rest.filter (fun c => c._id != d) := by
        simp [List.filter_cons, hd]
      rw [hf] at h
      have hrest := ih h
      by_cases ha : a._id = id
      · exfalso
        obtain ⟨c, hc, -, hcid⟩ := find_of_connectionsOf (rest.filter (fun c => c._id != d)) id l
          (by unfold connectionsOf findCampById; exact h)
        have hmem := findCampById_mem _ _ _ hc
        have := (List.mem_filter.mp hmem).2
        rw [hcid, ← ha, hd] at this
        simp at this
      · have hb : (a._id == id) = false := by simpa using ha
        simp only [List.find?_cons, hb]
        exact hrest
    · have hf : (a :: rest).filter (fun c => c._id != d)
          = a :: rest.filter (fun c => c._id != d) := by
        simp [List.filter_cons, hd]
      rw [hf] at h
      by_cases ha : a._id = id
      · have hb : (a._id == id) = true := by simpa using ha
        simp only [List.find?_cons, hb] at h ⊢
        exact h
      · have hb : (a._id == id) = false := by simpa using ha
        simp only [List.find?_cons, hb] at h ⊢
        exact ih h

theorem graphInvariant_empty : GraphInvariant State.empty := by
  constructor
  · intro id l h
    simp [State.empty, connectionsOf, findCampById] at h
  · intro c hc
    simp [State.empty] at hc
  · intro A B la lb h
    simp [State.empty, connectionsOf, findCampById] at h

theorem validatesOnSave_preSave (camp : Camp) :
    validatesOnSave (preSave camp) = validatesOnSave camp := by
  unfold validatesOnSave
  rw [(preSave_fields camp).2.1, (preSave_fields camp).2.2.1]

theorem graphInvariant_createCamp (s : State) (body : CampBody)
    (hb : body.connectedCamps = [] ∧ body._id = none) (hs : GraphInvariant s) :
    GraphInvariant (createCamp s body : State × Response Unit).1 := by
  unfold createCamp
  simp only [hb.2, Option.getD_none, max_self]
  split_ifs with h1 h2 h3
  · exact hs
  · exact hs
  · exact hs
  · have hlook : ∀ id l,
        connectionsOf (s.camps ++ [preSave
          { _id := s.nextId, latitude := body.latitude, longitude := body.longitude,
            capacity := body.capacity, currentOccupancy := body.currentOccupancy.getD 0,
            connectedCamps := body.connectedCamps,
            status := body.status.getD CampStatus.Active }]) id = some l →
        connectionsOf s.camps id = some l ∨
          (connectionsOf s.camps id = none ∧ id = s.nextId ∧ l = []) := by
      intro id l h
      rw [connectionsOf_append_singleton] at h
      cases hold : connectionsOf s.camps id with
      | some l0 =>
        rw [hold] at h
        left
        simpa using h
      | none =>
        rw [hold] at h
        right
        simp only [(preSave_fields _).1, (preSave_fields _).2.2.2.2.2, hb.1] at h
        by_cases hid : s.nextId = id
        · rw [if_pos hid] at h
          exact ⟨rfl, hid.symm, by simpa using h.symm⟩
        · rw [if_neg hid] at h
          simp at h
    constructor
    · intro id l h
      rcases hlook id l h with hold | ⟨-, hid, hl⟩
      · obtain ⟨h1, h2⟩ := hs.fresh id l hold
        exact ⟨Nat.lt_succ_of_lt h1, fun x hx => Nat.lt_succ_of_lt (h2 x hx)⟩
      · subst hid; subst hl
        exact ⟨Nat.lt_succ_self _, fun x hx => by simp at hx⟩
    · intro c hc
      rcases List.mem_append.mp hc with hc | hc
      · exact hs.valid c hc
      · rw [List.mem_singleton.mp hc, validatesOnSave_preSave]
        simp only [validatesOnSave, Bool.and_eq_true, decide_eq_true_eq]
        exact ⟨by omega, by omega⟩
    · intro A B la lb hA hB
      rcases hlook A la hA with hoA | ⟨-, hidA, hlA⟩
      · rcases hlook B lb hB with hoB | ⟨-, hidB, hlB⟩
        · exact hs.symm A B la lb hoA hoB
        · subst hidB; subst hlB
          have := (hs.fresh A la hoA).2
          constructor
          · intro hmem
            exact absurd (this _ hmem) (Nat.lt_irrefl _)
          · intro hmem
            simp at hmem
      · rcases hlook B lb hB with hoB | ⟨-, hidB, hlB⟩
        · subst hidA; subst hlA
          have := (hs.fresh B lb hoB).2
          constructor
          · intro hmem
            simp at hmem
          · intro hmem
            exact absurd (this _ hmem) (Nat.lt_irrefl _)
        · subst hlA; subst hlB
          simp

theorem validatesOnSave_pushed (camps : List Camp) (camp : Camp) (id : Nat)
    (h : ∀ c ∈ camps, validatesOnSave c = true) :
    ∀ c ∈ (pushed camps camp id).1, validatesOnSave c = true := by
  intro c hc
  simp only [pushed, List.mem_map] at hc
  obtain ⟨x, hx, hxc⟩ := hc
  have hv := h x hx
  by_cases hid : x._id = camp._id
  · rw [if_pos hid] at hxc
    rw [← hxc]
    exact hv
  · rw [if_neg hid] at hxc
    rw [← hxc]
    exact hv

theorem graphInvariant_connectCamps (s : State) (id targetId : Nat) (hs : GraphInvariant s) :
    GraphInvariant (connectCamps s id targetId).1 := by
  cases h1 : findCampById s.camps id with
  | none => rw [connectCamps_not_found s id targetId (Or.inl h1)]; exact hs
  | some camp1 =>
    cases h2 : findCampById s.camps targetId with
    | none => rw [connectCamps_not_found s id targetId (Or.inr h2)]; exact hs
    | some camp2 =>
      have hid1 := findCampById_id _ _ _ h1
      have hid2 := findCampById_id _ _ _ h2
      have hc1 := connectionsOf_of_find _ _ _ h1
      have hc2 := connectionsOf_of_find _ _ _ h2
      have hv1 := hs.valid camp1 (findCampById_mem _ _ _ h1)
      have hv2 := hs.valid camp2 (findCampById_mem _ _ _ h2)
      have hnext : (connectCamps s id targetId).1.nextId = s.nextId := by
        rw [connectCamps_valid s id targetId camp1 camp2 h1 h2 hv1 hv2]
      have hlook : ∀ other l,
          connectionsOf (connectCamps s id targetId).1.camps other = some l →
          ∃ l0, connectionsOf s.camps other = some l0 ∧
            l = connectedAfter camp1 camp2 other l0 := by
        intro other l h
        rw [connectionsOf_connectCamps s id targetId camp1 camp2 h1 h2 hv1 hv2] at h
        cases hold : connectionsOf s.camps other with
        | none => rw [hold] at h; simp at h
        | some l0 =>
          rw [hold] at h
          exact ⟨l0, rfl, by simpa using h.symm⟩
      have hsym12 : camp2._id ∈ camp1.connectedCamps ↔ camp1._id ∈ camp2.connectedCamps := by
        have := hs.symm id targetId _ _ hc1 hc2
        rw [hid1, hid2]
        exact this
      constructor
      · intro other l h
        obtain ⟨l0, hold, hl⟩ := hlook other l h
        obtain ⟨f1, f2⟩ := hs.fresh other l0 hold
        rw [hnext]
        refine ⟨f1, ?_⟩
        intro x hx
        rw [hl, mem_connectedAfter] at hx
        rcases hx with hx | ⟨-, -, hx⟩ | ⟨-, -, hx⟩
        · exact f2 x hx
        · rw [hx, hid2]; exact (hs.fresh targetId _ hc2).1
        · rw [hx, hid1]; exact (hs.fresh id _ hc1).1
      · rw [connectCamps_valid s id targetId camp1 camp2 h1 h2 hv1 hv2]
        simp only []
        by_cases ha : camp2._id ∈ camp1.connectedCamps
        · by_cases hb : camp1._id ∈ camp2.connectedCamps
          · simp only [ha, hb, if_true]
            exact hs.valid
          · simp only [ha, hb, if_true, if_false]
            exact validatesOnSave_pushed _ _ _ hs.valid
        · by_cases hb : camp1._id ∈ camp2.connectedCamps
          · simp only [ha, hb, if_true, if_false]
            exact validatesOnSave_pushed _ _ _ hs.valid
          · simp only [ha, hb, if_false]
            exact validatesOnSave_pushed _ _ _ (validatesOnSave_pushed _ _ _ hs.valid)
      · intro A B la lb hA hB
        obtain ⟨la0, hoA, hla⟩ := hlook A la hA
        obtain ⟨lb0, hoB, hlb⟩ := hlook B lb hB
        have hold := hs.symm A B la0 lb0 hoA hoB
        rw [hla, hlb, mem_connectedAfter, mem_connectedAfter]
        constructor
        · rintro (h | ⟨ha, hn, hb⟩ | ⟨ha, hn, hb⟩)
          · exact Or.inl (hold.mp h)
          · exact Or.inr (Or.inr ⟨hb, fun hc => hn (hsym12.mpr hc), ha⟩)
          · exact Or.inr (Or.inl ⟨hb, fun hc => hn (hsym12.mp hc), ha⟩)
        · rintro (h | ⟨ha, hn, hb⟩ | ⟨ha, hn, hb⟩)
          · exact Or.inl (hold.mpr h)
          · exact Or.inr (Or.inr ⟨hb, fun hc => hn (hsym12.mpr hc), ha⟩)
          · exact Or.inr (Or.inl ⟨hb, fun hc => hn (hsym12.mp hc), ha⟩)

theorem graphInvariant_deleteCamp (s : State) (id : Nat) (hs : GraphInvariant s) :
    GraphInvariant (deleteCamp s id).1 := by
  unfold deleteCamp
  cases h : findCampById s.camps id with
  | none => exact hs
  | some camp =>
    simp only []
    constructor
    · intro other l hl
      exact hs.fresh other l (connectionsOf_filter_ne _ _ _ _ hl)
    · intro c hc
      exact hs.valid c (List.mem_filter.mp hc).1
    · intro A B la lb hA hB
      exact hs.symm A B la lb (connectionsOf_filter_ne _ _ _ _ hA)
        (connectionsOf_filter_ne _ _ _ _ hB)

theorem graphInvariant_runCamp (requests : List CampRequest) (s : State)
    (hq : ∀ q ∈ requests, q.plainCreation) (hs : GraphInvariant s) :
    GraphInvariant (runCamp s requests) := by
  induction requests generalizing s with
  | nil => exact hs
  | cons q rest ih =>
    simp only [runCamp, List.foldl_cons]
    apply ih _ (fun x hx => hq x (List.mem_cons_of_mem _ hx))
    have hq0 := hq q (List.mem_cons_self _ _)
    cases q with
    | createCamp body => exact graphInvariant_createCamp s body hq0 hs
    | connectCamps id targetId => exact graphInvariant_connectCamps s id targetId hs
    | deleteCamp id => exact graphInvariant_deleteCamp s id hs

/-- The counterexample of C24: after creating camps 0 and 1, connecting them
and deleting camp 1, camp 0 still lists camp 1, which no longer exists; and
when a camp is then created with a payload that carries the `_id` 1, camp 0
lists the new camp 1 while the new camp 1 does not list camp 0. -/
theorem dangling_connection_after_delete :
    connectionsOf (runCamp State.empty danglingRequests).camps 0 = some [1] ∧
      findCampById (runCamp State.empty danglingRequests).camps 1 = none ∧
      connectionsOf (runCamp State.empty reuseRequests).camps 0 = some [1] ∧
      connectionsOf (runCamp State.empty reuseRequests).camps 1 = some [] := by
  decide

/-- C24, amended. In every state reachable from the empty store by any
sequence of `createCamp` (with no initial connections and no `_id` in the
payload), `connectCamps` and `deleteCamp`, for all stored camps A and B, B is
in A's `connectedCamps` if and only if A is in B's `connectedCamps` (the id of
a deleted camp may remain listed). -/
theorem connectivity_symmetric_reachable (requests : List CampRequest)
    (hq : ∀ q ∈ requests, q.plainCreation) (A B : Nat) (la lb : List Nat)
    (hA : connectionsOf (runCamp State.empty requests).camps A = some la)
    (hB : connectionsOf (runCamp State.empty requests).camps B = some lb) :
    B ∈ la ↔ A ∈ lb :=
  (graphInvariant_runCamp requests State.empty hq graphInvariant_empty).symm A B la lb hA hB

/-- The witness of C24: after creating camps 0 and 1 and connecting them,
each lists the other. -/
theorem connectivity_symmetric_reachable_witness :
    connectionsOf (runCamp State.empty connectRequests).camps 0 = some [1] ∧
      connectionsOf (runCamp State.empty connectRequests).camps 1 = some [0] ∧
      ((1 : Nat) ∈ [1] ↔ (0 : Nat) ∈ [0]) := by
  have h0 : connectionsOf (runCamp State.empty connectRequests).camps 0 = some [1] := by decide
  have h1 : connectionsOf (runCamp State.empty connectRequests).camps 1 = some [0] := by decide
  refine ⟨h0, h1, connectivity_symmetric_reachable connectRequests ?_ 0 1 [1] [0] h0 h1⟩
  intro q hq
  simp only [connectRequests, List.mem_cons, List.mem_singleton, List.not_mem_nil,
    or_false] at hq
  rcases hq with h | h | h <;> rw [h] <;> simp [CampRequest.plainCreation, campBody]

/-! ## Occupancy accounting -/

theorem assignedLoad_cons (a : Refugee) (l : List Refugee) (k : Nat) :
    assignedLoad (a :: l) k = contribution a k + assignedLoad l k := by
  simp [assignedLoad]

theorem assignedLoad_append_singleton (l : List Refugee) (a : Refugee) (k : Nat) :
    assignedLoad (l ++ [a]) k = assignedLoad l k + contribution a k := by
  simp [assignedLoad]

theorem saveRefugee_ids (l : List Refugee) (x : Refugee) :
    (saveRefugee l x).map (fun r => r._id) = l.map (fun r => r._id) := by
  unfold saveRefugee
  rw [List.map_map]
  apply List.map_congr_left
  intro a _
  by_cases h : a._id = x._id
  · simp [h]
  · simp [h]

theorem saveRefugee_of_not_mem (l : List Refugee) (x : Refugee)
    (h : x._id ∉ l.map (fun r => r._id)) : saveRefugee l x = l := by
  unfold saveRefugee
  conv_rhs => rw [← List.map_id l]
  apply List.map_congr_left
  intro a ha
  have : a._id ≠ x._id := by
    intro heq
    apply h
    rw [← heq]
    exact List.mem_map.mpr ⟨a, ha, rfl⟩
  simp [this]

theorem mem_saveRefugee (l : List Refugee) (x r : Refugee) (h : r ∈ saveRefugee l x) :
    r = x ∨ r ∈ l := by
  unfold saveRefugee at h
  obtain ⟨a, ha, har⟩ := List.mem_map.mp h
  by_cases hid : a._id = x._id
  · rw [if_pos hid] at har
    exact Or.inl har.symm
  · rw [if_neg hid] at har
    rw [← har]
    exact Or.inr ha

/-- Saving a changed copy of a stored refugee moves its contribution. -/
theorem assignedLoad_saveRefugee (l : List Refugee) (r x : Refugee) (k : Nat)
    (hn : (l.map (fun r => r._id)).Nodup) (hr : r ∈ l) (hx : x._id = r._id) :
    assignedLoad (saveRefugee l x) k = assignedLoad l k - contribution r k + contribution x k := by
  induction l with
  | nil => simp at hr
  | cons a rest ih =>
    rw [List.map_cons, List.nodup_cons] at hn
    by_cases ha : a._id = x._id
    · have hra : r = a := by
        rcases List.mem_cons.mp hr with h | h
        · exact h
        · exfalso
          apply hn.1
          rw [ha, hx]
          exact List.mem_map.mpr ⟨r, h, rfl⟩
      have hrest : saveRefugee rest x = rest := by
        apply saveRefugee_of_not_mem
        rw [← ha]
        exact hn.1
      have hcons : saveRefugee (a :: rest) x = x :: saveRefugee rest x := by
        simp [saveRefugee, ha]
      rw [hcons, hrest, assignedLoad_cons, assignedLoad_cons, hra]
      ring
    · have hra : r ∈ rest := by
        rcases List.mem_cons.mp hr with h | h
        · exfalso; apply ha; rw [← h, hx]
        · exact h
      have hcons : saveRefugee (a :: rest) x = a :: saveRefugee rest x := by
        simp [saveRefugee, ha]
      rw [hcons, assignedLoad_cons, assignedLoad_cons, ih hn.2 hra]
      ring

/-- Deleting a stored refugee removes its contribution. -/
theorem assignedLoad_deleteRefugeeDoc (l : List Refugee) (r : Refugee) (k : Nat)
    (hn : (l.map (fun r => r._id)).Nodup) (hr : r ∈ l) :
    assignedLoad (deleteRefugeeDoc l r._id) k = assignedLoad l k - contribution r k := by
  induction l with
  | nil => simp at hr
  | cons a rest ih =>
    rw [List.map_cons, List.nodup_cons] at hn
    by_cases ha : a._id = r._id
    · have hra : r = a := by
        rcases List.mem_cons.mp hr with h | h
        · exact h
        · exfalso
          apply hn.1
          rw [ha]
          exact List.mem_map.mpr ⟨r, h, rfl⟩
      have hrest : deleteRefugeeDoc rest r._id = rest := by
        unfold deleteRefugeeDoc
        apply List.filter_eq_self.mpr
        intro b hb
        have : b._id ≠ r._id := by
          intro heq
          apply hn.1
          rw [ha, ← heq]
          exact List.mem_map.mpr ⟨b, hb, rfl⟩
        simpa using this
      have hcons : deleteRefugeeDoc (a :: rest) r._id = deleteRefugeeDoc rest r._id := by
        simp [deleteRefugeeDoc, List.filter_cons, ha]
      rw [hcons, hrest, assignedLoad_cons, hra]
      ring
    · have hra : r ∈ rest := by
        rcases List.mem_cons.mp hr with h | h
        · exfalso; apply ha; rw [h]
        · exact h
      have hcons : deleteRefugeeDoc (a :: rest) r._id = a :: deleteRefugeeDoc rest r._id := by
        simp [deleteRefugeeDoc, List.filter_cons, ha]
      rw [hcons, assignedLoad_cons, assignedLoad_cons, ih hn.2 hra]
      ring

theorem mem_incOccupancy_iff (camps : List Camp) (id : Nat) (delta : Int) (c : Camp)
    (h : c ∈ incOccupancy camps id delta) :
    ∃ c0 ∈ camps, c._id = c0._id ∧
      c.currentOccupancy = c0.currentOccupancy + (if c0._id = id then delta else 0) := by
  unfold incOccupancy at h
  obtain ⟨c0, hc0, hc⟩ := List.mem_map.mp h
  refine ⟨c0, hc0, ?_⟩
  by_cases hid : c0._id = id
  · rw [if_pos hid] at hc
    rw [← hc]
    simp [hid]
  · rw [if_neg hid] at hc
    rw [← hc]
    simp [hid]

theorem exists_mem_incOccupancy (camps : List Camp) (id : Nat) (delta : Int) (k : Nat)
    (h : ∃ c ∈ camps, c._id = k) : ∃ c ∈ incOccupancy camps id delta, c._id = k := by
  obtain ⟨c, hc, hk⟩ := h
  unfold incOccupancy
  by_cases hid : c._id = id
  · exact ⟨{ c with currentOccupancy := c.currentOccupancy + delta },
      List.mem_map.mpr ⟨c, hc, by simp [hid]⟩, hk⟩
  · exact ⟨c, List.mem_map.mpr ⟨c, hc, by simp [hid]⟩, hk⟩

theorem accounting_empty : Accounting State.empty := by
  constructor <;> simp [State.empty]

theorem accounting_commitAssignment {D : Type} (s : State) (r : Refugee)
    (n : CampWithDistance D) (hs : Accounting s) (hr : r ∈ s.refugees)
    (ha : r.assignedCamp = none) (hn : n.camp._id < s.nextId)
    (hstored : ∃ c ∈ s.camps, c._id = n.camp._id) :
    Accounting (commitAssignment s r n).1 := by
  have hload : ∀ k, assignedLoad (saveRefugee s.refugees
        { r with assignedCamp := some n.camp._id, status := RefugeeStatus.Assigned }) k
      = assignedLoad s.refugees k + (if k = n.camp._id then r.familyMembers else 0) := by
    intro k
    rw [assignedLoad_saveRefugee s.refugees r
      { r with assignedCamp := some n.camp._id, status := RefugeeStatus.Assigned }
      k hs.refugee_nodup hr rfl]
    have h1 : contribution r k = 0 := by simp [contribution, ha]
    have h2 : contribution
        { r with assignedCamp := some n.camp._id, status := RefugeeStatus.Assigned } k
        = if k = n.camp._id then r.familyMembers else 0 := by
      unfold contribution
      by_cases hk : k = n.camp._id
      · simp [hk]
      · have : ¬ n.camp._id = k := fun h => hk h.symm
        simp [hk, this]
    rw [h1, h2]
    ring
  constructor
  · intro x hx
    rcases mem_saveRefugee _ _ _ hx with h | h
    · rw [h]; exact hs.refugee_ids r hr
    · exact hs.refugee_ids x h
  · show ((saveRefugee s.refugees _).map (fun r => r._id)).Nodup
    rw [saveRefugee_ids]
    exact hs.refugee_nodup
  · intro c hc
    obtain ⟨c0, hc0, hid, -⟩ := mem_incOccupancy_iff _ _ _ c hc
    rw [hid]
    exact hs.camp_ids c0 hc0
  · intro x hx k hk
    rcases mem_saveRefugee _ _ _ hx with h | h
    · rw [h] at hk
      have : n.camp._id = k := by simpa using hk
      rw [← this]
      exact hn
    · exact hs.assigned_ids x h k hk
  · intro x hx k hk
    apply exists_mem_incOccupancy
    rcases mem_saveRefugee _ _ _ hx with h | h
    · rw [h] at hk
      have : n.camp._id = k := by simpa using hk
      rw [← this]
      exact hstored
    · exact hs.assigned_stored x h k hk
  · intro c hc
    obtain ⟨c0, hc0, hid, hocc⟩ := mem_incOccupancy_iff _ _ _ c hc
    show c.currentOccupancy = assignedLoad (saveRefugee s.refugees _) c._id
    rw [hload, hocc, hid, hs.occupancy c0 hc0]

theorem assignedLoad_eq_zero (l : List Refugee) (k : Nat)
    (h : ∀ r ∈ l, r.assignedCamp ≠ some k) : assignedLoad l k = 0 := by
  induction l with
  | nil => rfl
  | cons a rest ih =>
    rw [assignedLoad_cons, ih (fun r hr => h r (List.mem_cons_of_mem _ hr))]
    simp [contribution, h a (List.mem_cons_self _ _)]

theorem accounting_createCamp {D : Type} (s : State) (body : CampBody)
    (hb : body.currentOccupancy.getD 0 = 0) (hs : Accounting s) :
    Accounting (createCamp s body : State × Response D).1 := by
  unfold createCamp
  simp only []
  split_ifs with h1 h2 h3
  · exact hs
  · exact hs
  · exact hs
  · have hmax : s.nextId ≤ max s.nextId (body._id.getD s.nextId) := le_max_left _ _
    have hmax2 : body._id.getD s.nextId ≤ max s.nextId (body._id.getD s.nextId) :=
      le_max_right _ _
    constructor
    · intro r hr
      have := hs.refugee_ids r hr
      show r._id < max s.nextId (body._id.getD s.nextId) + 1
      omega
    · exact hs.refugee_nodup
    · intro c hc
      show c._id < max s.nextId (body._id.getD s.nextId) + 1
      rcases List.mem_append.mp hc with h | h
      · have := hs.camp_ids c h
        omega
      · rw [List.mem_singleton.mp h, (preSave_fields _).1]
        show body._id.getD s.nextId < _
        omega
    · intro r hr k hk
      have := hs.assigned_ids r hr k hk
      show k < max s.nextId (body._id.getD s.nextId) + 1
      omega
    · intro r hr k hk
      obtain ⟨c, hc, hck⟩ := hs.assigned_stored r hr k hk
      exact ⟨c, List.mem_append.mpr (Or.inl hc), hck⟩
    · intro c hc
      rcases List.mem_append.mp hc with h | h
      · exact hs.occupancy c h
      · rw [List.mem_singleton.mp h, (preSave_fields _).1, (preSave_fields _).2.2.1]
        show body.currentOccupancy.getD 0
          = assignedLoad s.refugees (body._id.getD s.nextId)
        rw [hb, assignedLoad_eq_zero]
        intro r hr hk
        obtain ⟨c0, hc0, hck⟩ := hs.assigned_stored r hr _ hk
        apply h3
        unfold findCampById
        rw [List.find?_isSome]
        exact ⟨c0, hc0, by simpa using hck⟩

theorem accounting_afterCreate (s : State) (refugee : Refugee) (hs : Accounting s)
    (hid : refugee._id = s.nextId) (ha : refugee.assignedCamp = none) :
    Accounting (afterCreate s refugee) ∧ refugee ∈ (afterCreate s refugee).refugees := by
  refine ⟨?_, by simp [afterCreate]⟩
  constructor
  · intro r hr
    rcases List.mem_append.mp hr with h | h
    · exact Nat.lt_succ_of_lt (hs.refugee_ids r h)
    · rw [List.mem_singleton.mp h, hid]
      exact Nat.lt_succ_self _
  · show ((s.refugees ++ [refugee]).map (fun r => r._id)).Nodup
    rw [List.map_append, List.nodup_append]
    refine ⟨hs.refugee_nodup, by simp, ?_⟩
    intro a ha1 ha2
    simp only [List.map_cons, List.map_nil, List.mem_singleton] at ha2
    obtain ⟨r, hr, hra⟩ := List.mem_map.mp ha1
    have := hs.refugee_ids r hr
    rw [hra, ha2, hid] at this
    exact absurd this (Nat.lt_irrefl _)
  · intro c hc
    exact Nat.lt_succ_of_lt (hs.camp_ids c hc)
  · intro r hr k hk
    rcases List.mem_append.mp hr with h | h
    · exact Nat.lt_succ_of_lt (hs.assigned_ids r h k hk)
    · rw [List.mem_singleton.mp h, ha] at hk
      simp at hk
  · intro r hr k hk
    rcases List.mem_append.mp hr with h | h
    · exact hs.assigned_stored r h k hk
    · rw [List.mem_singleton.mp h, ha] at hk
      simp at hk
  · intro c hc
    show c.currentOccupancy = assignedLoad (s.refugees ++ [refugee]) c._id
    rw [assignedLoad_append_singleton, hs.occupancy c hc]
    simp [contribution, ha]

theorem accounting_register {D : Type} [LinearOrder D] (E : Env D) (s : State)
    (body : RefugeeBody) (hb : body.assignedCamp = none) (hs : Accounting s) :
    Accounting (registerAndAssignRefugee E s body).1 := by
  cases haddr : body.address with
  | none =>
    have : (registerAndAssignRefugee E s body).1 = s := by
      simp [registerAndAssignRefugee, haddr]
    rw [this]; exact hs
  | some address =>
    by_cases hne : address = ""
    · have : (registerAndAssignRefugee E s body).1 = s := by
        simp [registerAndAssignRefugee, haddr, hne]
      rw [this]; exact hs
    · cases hgeo : E.geocodeAddress address with
      | error message =>
        have : (registerAndAssignRefugee E s body).1 = s := by
          simp [registerAndAssignRefugee, haddr, hne, hgeo]
        rw [this]; exact hs
      | ok location =>
        have hnew := accounting_afterCreate s (registeredRefugee s body location) hs rfl hb
        by_cases hf : filterByCapacity (findAvailableCamps s.camps)
            (body.familyMembers.getD 1) = []
        · rw [register_no_candidate E s body address location haddr hne hgeo hf]
          exact hnew.1
        · rcases register_candidate E s body address location haddr hne hgeo hf with
            hres | ⟨c, hc, hres⟩
          · rw [hres]
            exact hnew.1
          · rw [hres]
            have hcmem : c ∈ s.camps :=
              ((mem_findAvailableCamps _ _).mp ((mem_filterByCapacity _ _ _).mp hc).1).1
            apply accounting_commitAssignment _ _ _ hnew.1 hnew.2 hb
            · exact Nat.lt_succ_of_lt (hs.camp_ids c hcmem)
            · exact ⟨c, hcmem, rfl⟩

theorem accounting_assign {D : Type} [LinearOrder D] (E : Env D) (s : State)
    (refugeeId : Option Nat) (hs : Accounting s) :
    Accounting (assignRefugeeToNearestCamp E s refugeeId).1 := by
  cases refugeeId with
  | none => exact hs
  | some id =>
    cases hr : findRefugeeById s.refugees id with
    | none => rw [assign_not_found E s id hr]; exact hs
    | some r =>
      by_cases ha : r.assignedCamp = none
      · by_cases hf : filterByCapacity (findAvailableCamps s.camps) r.familyMembers = []
        · by_cases hc : findAvailableCamps s.camps = []
          · rw [assign_no_camps E s id r hr ha hc]; exact hs
          · rw [assign_no_capacity E s id r hr ha hc hf]; exact hs
        · rcases assign_ok E s id r hr ha hf with ⟨-, hres⟩ | ⟨c, hc, -, hres⟩
          · rw [hres]; exact hs
          · rw [hres]
            have hcmem : c ∈ s.camps :=
              ((mem_findAvailableCamps _ _).mp ((mem_filterByCapacity _ _ _).mp hc).1).1
            exact accounting_commitAssignment _ _ _ hs (findRefugeeById_mem _ _ _ hr) ha
              (hs.camp_ids c hcmem) ⟨c, hcmem, rfl⟩
      · rw [assign_already_assigned E s id r hr ha]; exact hs

theorem accounting_deleteRefugee {D : Type} (s : State) (id : Nat) (hs : Accounting s) :
    Accounting (deleteRefugee s id : State × Response D).1 := by
  unfold deleteRefugee
  cases hr : findRefugeeById s.refugees id with
  | none => exact hs
  | some r =>
    have hmem := findRefugeeById_mem _ _ _ hr
    have hsub : ∀ x ∈ deleteRefugeeDoc s.refugees r._id, x ∈ s.refugees := by
      intro x hx
      exact (List.mem_filter.mp hx).1
    simp only []
    constructor
    · intro x hx
      exact hs.refugee_ids x (hsub x hx)
    · show ((deleteRefugeeDoc s.refugees r._id).map (fun r => r._id)).Nodup
      exact List.Nodup.sublist (List.Sublist.map _ (List.filter_sublist _)) hs.refugee_nodup
    · intro c hc
      cases hcamp : r.assignedCamp with
      | none =>
        rw [hcamp] at hc
        exact hs.camp_ids c hc
      | some k =>
        rw [hcamp] at hc
        obtain ⟨c0, hc0, hid, -⟩ := mem_incOccupancy_iff _ _ _ c hc
        rw [hid]
        exact hs.camp_ids c0 hc0
    · intro x hx k hk
      exact hs.assigned_ids x (hsub x hx) k hk
    · intro x hx k hk
      have hold := hs.assigned_stored x (hsub x hx) k hk
      cases hcamp : r.assignedCamp with
      | none => exact hold
      | some k0 => exact exists_mem_incOccupancy _ _ _ _ hold
    · intro c hc
      show c.currentOccupancy = assignedLoad (deleteRefugeeDoc s.refugees r._id) c._id
      rw [assignedLoad_deleteRefugeeDoc s.refugees r c._id hs.refugee_nodup hmem]
      cases hcamp : r.assignedCamp with
      | none =>
        rw [hcamp] at hc
        rw [hs.occupancy c hc]
        simp [contribution, hcamp]
      | some k =>
        rw [hcamp] at hc
        obtain ⟨c0, hc0, hid, hocc⟩ := mem_incOccupancy_iff _ _ _ c hc
        rw [hocc, hid, hs.occupancy c0 hc0]
        unfold contribution
        rw [hcamp]
        by_cases hk : c0._id = k
        · simp only [hk, if_true]
          ring
        · have : ¬ k = c0._id := fun h => hk h.symm
          simp [hk, this]

theorem accounting_handle {D : Type} [LinearOrder D] (E : Env D) (s : State) (q : Request)
    (hq : q.accountable) (hs : Accounting s) : Accounting (handle E s q).1 := by
  cases q with
  | createCamp body => exact accounting_createCamp s body hq hs
  | registerAndAssignRefugee body => exact accounting_register E s body hq hs
  | assignRefugeeToNearestCamp refugeeId => exact accounting_assign E s refugeeId hs
  | deleteRefugee id => exact accounting_deleteRefugee s id hs

theorem accounting_run {D : Type} [LinearOrder D] (E : Env D) (requests : List Request)
    (s : State) (hq : ∀ q ∈ requests, q.accountable) (hs : Accounting s) :
    Accounting (run E s requests) := by
  induction requests generalizing s with
  | nil => exact hs
  | cons q rest ih =>
    simp only [run, List.foldl_cons]
    exact ih _ (fun x hx => hq x (List.mem_cons_of_mem _ hx))
      (accounting_handle E s q (hq q (List.mem_cons_self _ _)) hs)

/-- The counterexample of C26: after `createCamp` (capacity 1) and a
registration of a family of five whose payload presets `assignedCamp` to that
camp (the camp cannot take the family), the camp's occupancy is 0 while the
refugees assigned to it sum to 5. -/
theorem occupancy_differs_from_assigned_load :
    (run scenarioEnv State.empty
        [Request.createCamp (campBody 1),
         Request.registerAndAssignRefugee presetCampBody]).camps.map
        (fun c => (c._id, c.currentOccupancy)) = [(0, 0)] ∧
      assignedLoad (run scenarioEnv State.empty
        [Request.createCamp (campBody 1),
         Request.registerAndAssignRefugee presetCampBody]).refugees 0 = 5 := by
  have h : run scenarioEnv State.empty
      [Request.createCamp (campBody 1), Request.registerAndAssignRefugee presetCampBody]
      = { camps := [{ _id := 0, latitude := 0, longitude := 0, capacity := 1,
                      currentOccupancy := 0, connectedCamps := [],
                      status := CampStatus.Active }]
          refugees := [{ _id := 1, latitude := 1 / 100, longitude := 1 / 100,
                         assignedCamp := some 0, familyMembers := 5,
                         status := RefugeeStatus.Pending }]
          nextId := 2 } := rfl
  rw [h]
  exact ⟨rfl, by simp [assignedLoad, contribution]⟩

/-- C26, amended. In every state reachable from the empty store by any
sequence of `createCamp` (occupancy 0), `registerAndAssignRefugee` whose
payload carries no `assignedCamp`, `assignRefugeeToNearestCamp` and
`deleteRefugee`, each camp's `currentOccupancy` equals the sum of
`familyMembers` over the refugees whose `assignedCamp` is that camp. -/
theorem occupancy_accounting_reachable {D : Type} [LinearOrder D] (E : Env D)
    (requests : List Request) (hq : ∀ q ∈ requests, q.accountable) :
    ∀ c ∈ (run E State.empty requests).camps,
      c.currentOccupancy = assignedLoad (run E State.empty requests).refugees c._id :=
  (accounting_run E requests State.empty hq accounting_empty).occupancy

/-- The witness of C26: after a camp of capacity one is filled and one more
family is registered, the camp's occupancy 1 is the load assigned to it. -/
theorem occupancy_accounting_reachable_witness :
    (∀ q ∈ fullCampRequests 1, q.accountable) ∧
      ∀ c ∈ (run scenarioEnv State.empty (fullCampRequests 1)).camps,
        c.currentOccupancy
          = assignedLoad (run scenarioEnv State.empty (fullCampRequests 1)).refugees c._id := by
  have hq : ∀ q ∈ fullCampRequests 1, q.accountable := by
    intro q hq
    simp only [fullCampRequests, List.mem_cons, List.mem_singleton, List.not_mem_nil,
      or_false] at hq
    rcases hq with h | h | h <;> rw [h] <;>
      simp [Request.accountable, refugeeBody, campBody]
  exact ⟨hq, occupancy_accounting_reachable scenarioEnv (fullCampRequests 1) hq⟩

end RefugeeCamp
